import Mathlib

/-!
Verification development for the MiniScript compiler front end
(lexer, recursive-descent parser, symbol table, semantic analyzer,
three-address-code generator).

Each Python source file is shallowly embedded as Lean definitions:
pure functions become Lean functions, mutable objects become explicit
state records, exceptions become explicit result values, and the
unbounded `while` loops of the lexer and parser are driven by an
explicit fuel parameter (`none` = the loop has not finished within the
given fuel).  Strings stay strings: the generator's temporaries `t1…`
and labels `L1…`, the error messages, and the decimal renderings of
Python f-strings are reproduced character by character.
-/

namespace MiniScript

/-! ### Decimal rendering (Python's `str` on a non-negative integer) -/

/-- The decimal digit character for `d` (used with `d < 10` only). -/
def digitChar (d : Nat) : Char :=
  if d = 0 then '0' else if d = 1 then '1' else if d = 2 then '2'
  else if d = 3 then '3' else if d = 4 then '4' else if d = 5 then '5'
  else if d = 6 then '6' else if d = 7 then '7' else if d = 8 then '8' else '9'

/-- Digit-list worker, structurally recursive on a fuel bound so that
it reduces definitionally (any `fuel > n` gives the same answer). -/
def decCharsAux : Nat → Nat → List Char
  | 0, _ => []
  | fuel + 1, n =>
      if n < 10 then [digitChar n]
      else decCharsAux fuel (n / 10) ++ [digitChar (n % 10)]

/-- Decimal digit list of `n`, most significant first (Python `str(n)`). -/
def decChars (n : Nat) : List Char := decCharsAux (n + 1) n

theorem decCharsAux_irrel :
    ∀ fuel fuel' n : Nat, n < fuel → n < fuel' →
      decCharsAux fuel n = decCharsAux fuel' n := by
  intro fuel
  induction fuel with
  | zero => intro fuel' n h; omega
  | succ fuel ih =>
      intro fuel' n h h'
      cases fuel' with
      | zero => omega
      | succ fuel' =>
          show decCharsAux (fuel + 1) n = decCharsAux (fuel' + 1) n
          by_cases h10 : n < 10
          · simp [decCharsAux, h10]
          · have hd : n / 10 < n := Nat.div_lt_self (by omega) (by omega)
            simp only [decCharsAux, h10, if_false]
            rw [ih fuel' (n / 10) (by omega) (by omega)]

/-- The recurrence Python's decimal rendering satisfies. -/
theorem decChars_eq (n : Nat) :
    decChars n = if n < 10 then [digitChar n]
                 else decChars (n / 10) ++ [digitChar (n % 10)] := by
  show decCharsAux (n + 1) n = _
  by_cases h10 : n < 10
  · simp [decCharsAux, h10]
  · have hd : n / 10 < n := Nat.div_lt_self (by omega) (by omega)
    simp only [decCharsAux, h10, if_false]
    rw [decCharsAux_irrel n (n / 10 + 1) (n / 10) (by omega) (by omega)]
    rfl

/-- Decimal rendering of a natural number, as Python's `str`. -/
def decStr (n : Nat) : String := String.mk (decChars n)

/-- Numeric value of a digit character. -/
def dval (c : Char) : Nat := c.toNat - 48

/-- Read a digit list back as a number (most significant first). -/
def decodeDigits (l : List Char) : Nat := l.foldl (fun a c => a * 10 + dval c) 0

theorem dval_digitChar (d : Nat) (h : d < 10) : dval (digitChar d) = d := by
  interval_cases d <;> decide

theorem decodeDigits_append_one (l : List Char) (c : Char) :
    decodeDigits (l ++ [c]) = decodeDigits l * 10 + dval c := by
  simp [decodeDigits, List.foldl_append]

theorem decodeDigits_decChars (n : Nat) : decodeDigits (decChars n) = n := by
  induction n using Nat.strong_induction_on with
  | _ n ih =>
    rw [decChars_eq]
    by_cases h : n < 10
    · simp only [h, if_true]
      simp [decodeDigits, dval_digitChar n h]
    · simp only [h, if_false]
      rw [decodeDigits_append_one, ih (n / 10) (Nat.div_lt_self (by omega) (by omega)),
        dval_digitChar (n % 10) (Nat.mod_lt _ (by omega))]
      omega

theorem decChars_injective : Function.Injective decChars := by
  intro a b h
  have := decodeDigits_decChars a
  rw [h, decodeDigits_decChars] at this
  omega

theorem decChars_ne_nil (n : Nat) : decChars n ≠ [] := by
  rw [decChars_eq]
  by_cases h : n < 10 <;> simp [h]

theorem digitChar_isDigit (d : Nat) : (digitChar d).isDigit = true := by
  unfold digitChar
  split_ifs <;> decide

theorem decChars_all_digits (n : Nat) : ∀ c ∈ decChars n, c.isDigit = true := by
  induction n using Nat.strong_induction_on with
  | _ n ih =>
    rw [decChars_eq]
    by_cases h : n < 10
    · simp only [h, if_true]
      intro c hc
      simp only [List.mem_singleton] at hc
      simpa [hc] using digitChar_isDigit n
    · simp only [h, if_false]
      intro c hc
      rcases List.mem_append.mp hc with hc | hc
      · exact ih (n / 10) (Nat.div_lt_self (by omega) (by omega)) c hc
      · simp only [List.mem_singleton] at hc
        simpa [hc] using digitChar_isDigit (n % 10)

theorem decChars_head_ne_zero (n : Nat) (hn : 1 ≤ n) :
    ∀ l, decChars n ≠ '0' :: l := by
  induction n using Nat.strong_induction_on with
  | _ n ih =>
    intro l
    rw [decChars_eq]
    by_cases h : n < 10
    · simp only [h, if_true]
      intro hc
      have h1 : digitChar n = '0' := by simpa using congrArg (List.head? ·) hc
      interval_cases n <;> simp_all [digitChar]
    · simp only [h, if_false]
      intro hc
      rcases hde : decChars (n / 10) with _ | ⟨c, rest⟩
      · exact decChars_ne_nil _ hde
      · rw [hde] at hc
        simp only [List.cons_append, List.cons.injEq] at hc
        have : 1 ≤ n / 10 := by omega
        exact ih (n / 10) (Nat.div_lt_self (by omega) (by omega)) this rest (by
          rw [hde, hc.1])

/-! ### Tokens (`token_types.py`) -/

/-- ASCII apostrophe, kept out of string literals. -/
def sqc : Char := Char.ofNat 39

/-- One-character string holding an apostrophe. -/
def sq : String := String.mk [sqc]

inductive TokenType where
  | ID | INT_LIT | FLOAT_LIT | STRING_LIT | TRUE | FALSE
  | VAR | INT | FLOAT | BOOL | STRING | IF | ELSE | WHILE | FOR
  | FUNC | RETURN | PRINT | INPUT
  | PLUS | MINUS | STAR | SLASH | PERCENT
  | EQ | NE | LT | GT | LE | GE
  | AND | OR | NOT
  | ASSIGN
  | LPAREN | RPAREN | LBRACE | RBRACE | SEMICOLON | COMMA | COLON
  | EOF | NEWLINE
deriving DecidableEq, Repr

/-- The `.name` of a `TokenType` member, as Python's `Enum` renders it. -/
def tokenTypeName : TokenType → String
  | .ID => "ID" | .INT_LIT => "INT_LIT" | .FLOAT_LIT => "FLOAT_LIT"
  | .STRING_LIT => "STRING_LIT" | .TRUE => "TRUE" | .FALSE => "FALSE"
  | .VAR => "VAR" | .INT => "INT" | .FLOAT => "FLOAT" | .BOOL => "BOOL"
  | .STRING => "STRING" | .IF => "IF" | .ELSE => "ELSE" | .WHILE => "WHILE"
  | .FOR => "FOR" | .FUNC => "FUNC" | .RETURN => "RETURN" | .PRINT => "PRINT"
  | .INPUT => "INPUT" | .PLUS => "PLUS" | .MINUS => "MINUS" | .STAR => "STAR"
  | .SLASH => "SLASH" | .PERCENT => "PERCENT" | .EQ => "EQ" | .NE => "NE"
  | .LT => "LT" | .GT => "GT" | .LE => "LE" | .GE => "GE" | .AND => "AND"
  | .OR => "OR" | .NOT => "NOT" | .ASSIGN => "ASSIGN" | .LPAREN => "LPAREN"
  | .RPAREN => "RPAREN" | .LBRACE => "LBRACE" | .RBRACE => "RBRACE"
  | .SEMICOLON => "SEMICOLON" | .COMMA => "COMMA" | .COLON => "COLON"
  | .EOF => "EOF" | .NEWLINE => "NEWLINE"

/-- A token's `literal` payload (Python `Any`): int, float, string or bool.
A float literal keeps the decimal text it was scanned from; the Python code
stores `float(text)` and only ever turns it back into a string. -/
inductive Lit where
  | i (v : Int)
  | f (text : String)
  | s (v : String)
  | b (v : Bool)
deriving DecidableEq, Repr

structure Token where
  type : TokenType
  lexeme : String
  literal : Option Lit := none
  line : Nat := 1
  column : Nat := 1
deriving DecidableEq, Repr

/-- `KEYWORDS.get value` (`token_types.py`). -/
def keywordType (s : String) : Option TokenType :=
  if s = "var" then some .VAR else if s = "int" then some .INT
  else if s = "float" then some .FLOAT else if s = "bool" then some .BOOL
  else if s = "string" then some .STRING else if s = "if" then some .IF
  else if s = "else" then some .ELSE else if s = "while" then some .WHILE
  else if s = "for" then some .FOR else if s = "func" then some .FUNC
  else if s = "return" then some .RETURN else if s = "print" then some .PRINT
  else if s = "input" then some .INPUT else if s = "true" then some .TRUE
  else if s = "false" then some .FALSE else none

/-! ### Lexer (`lexer.py`)

The `Lexer` object's mutable fields become `LexState`; the `while` loops
take a fuel argument, and `none` means the fuel ran out before the loop
finished.  The `TypeError` that Python raises when `read_string` appends
`None` to a string (escape character at end of input) is modeled as an
explicit `crash` outcome, distinct from the caught `LexicalError`. -/

structure LexState where
  source : List Char
  pos : Nat := 0
  line : Nat := 1
  column : Nat := 1
  tokens : List Token := []
  errors : List String := []
deriving Repr

def currentChar (st : LexState) : Option Char := st.source.get? st.pos

def peekChar (st : LexState) (offset : Nat := 1) : Option Char :=
  st.source.get? (st.pos + offset)

/-- `Lexer.advance`: move one character, maintaining line/column. -/
def lexAdvance (st : LexState) : LexState :=
  match st.source.get? st.pos with
  | none => st
  | some c =>
      if c = '\n' then
        { st with pos := st.pos + 1, line := st.line + 1, column := 1 }
      else
        { st with pos := st.pos + 1, column := st.column + 1 }

def isWhitespaceChar (c : Char) : Bool := c = ' ' || c = '\t' || c = '\r' || c = '\n'

def skipWhitespace : Nat → LexState → Option LexState
  | 0, _ => none
  | fuel + 1, st =>
      match currentChar st with
      | some c => if isWhitespaceChar c then skipWhitespace fuel (lexAdvance st) else some st
      | none => some st

/-- Inner loop of `skip_comment`: advance to the newline. -/
def skipToNewline : Nat → LexState → Option LexState
  | 0, _ => none
  | fuel + 1, st =>
      match currentChar st with
      | some c => if c ≠ '\n' then skipToNewline fuel (lexAdvance st) else some st
      | none => some st

def skipComment (fuel : Nat) (st : LexState) : Option LexState :=
  if currentChar st = some '/' ∧ peekChar st = some '/' then
    match skipToNewline fuel st with
    | none => none
    | some st1 =>
        if currentChar st1 = some '\n' then some (lexAdvance st1) else some st1
  else some st

/-- Outcome of `read_string`: a value, a raised `LexicalError`, or the
uncaught `TypeError` from `value += None`. -/
inductive StrOut where
  | ok (value : List Char) (st : LexState)
  | err (msg : String) (st : LexState)
  | crash
deriving Repr

/-- Loop of `read_string` (after the opening quote was skipped). -/
def readStringLoop (quote : Char) : Nat → List Char → LexState → Option StrOut
  | 0, _, _ => none
  | fuel + 1, value, st =>
      match currentChar st with
      | none => some (.err ("Unterminated string at line " ++ decStr st.line) st)
      | some c =>
          if c = quote then
            -- skip closing quote and return
            some (.ok value (lexAdvance st))
          else if c = '\\' then
            let st1 := lexAdvance st
            match currentChar st1 with
            | none => some .crash   -- value += None : TypeError
            | some nc =>
                let piece : Char :=
                  if nc = 'n' then '\n'
                  else if nc = 't' then '\t'
                  else if nc = '\\' then '\\'
                  else if nc = quote then quote
                  else nc
                readStringLoop quote fuel (value ++ [piece]) (lexAdvance st1)
          else
            readStringLoop quote fuel (value ++ [c]) (lexAdvance st)

def readString (quote : Char) (fuel : Nat) (st : LexState) : Option StrOut :=
  readStringLoop quote fuel [] (lexAdvance st)

/-- Digit-collecting loop of `read_number`. -/
def readDigits : Nat → List Char → LexState → Option (List Char × LexState)
  | 0, _, _ => none
  | fuel + 1, value, st =>
      match currentChar st with
      | some c => if c.isDigit then readDigits fuel (value ++ [c]) (lexAdvance st) else some (value, st)
      | none => some (value, st)

def readNumber (fuel : Nat) (st : LexState) : Option (Token × LexState) :=
  let startLine := st.line
  let startCol := st.column
  match readDigits fuel [] st with
  | none => none
  | some (value, st1) =>
      match currentChar st1, peekChar st1 with
      | some '.', some p =>
          if p.isDigit then
            match readDigits fuel (value ++ ['.']) (lexAdvance st1) with
            | none => none
            | some (value2, st2) =>
                some (⟨.FLOAT_LIT, String.mk value2, some (.f (String.mk value2)),
                       startLine, startCol⟩, st2)
          else
            some (⟨.INT_LIT, String.mk value, some (.i (Int.ofNat (decodeDigits value))),
                   startLine, startCol⟩, st1)
      | _, _ =>
          some (⟨.INT_LIT, String.mk value, some (.i (Int.ofNat (decodeDigits value))),
                 startLine, startCol⟩, st1)

/-- Loop of `read_identifier`. -/
def readIdentChars : Nat → List Char → LexState → Option (List Char × LexState)
  | 0, _, _ => none
  | fuel + 1, value, st =>
      match currentChar st with
      | some c =>
          if c.isAlphanum || c = '_' then readIdentChars fuel (value ++ [c]) (lexAdvance st)
          else some (value, st)
      | none => some (value, st)

def readIdentifier (fuel : Nat) (st : LexState) : Option (Token × LexState) :=
  let startLine := st.line
  let startCol := st.column
  match readIdentChars fuel [] st with
  | none => none
  | some (value, st1) =>
      let s := String.mk value
      let tt := (keywordType s).getD .ID
      if tt = .TRUE then some (⟨tt, s, some (.b true), startLine, startCol⟩, st1)
      else if tt = .FALSE then some (⟨tt, s, some (.b false), startLine, startCol⟩, st1)
      else some (⟨tt, s, none, startLine, startCol⟩, st1)

/-- Result of the `tokenize` main loop. -/
inductive LexLoopOut where
  | finished (st : LexState)
  | crashed
deriving Repr

def pushToken (st : LexState) (t : Token) : LexState :=
  { st with tokens := st.tokens ++ [t] }

/-- Emit a token whose lexeme is `n` characters long, advancing `n` times. -/
def emitSimple (st : LexState) (tt : TokenType) (lexeme : String)
    (startLine startCol : Nat) (n : Nat) : LexState :=
  pushToken (Nat.rec st (fun _ acc => lexAdvance acc) n) ⟨tt, lexeme, none, startLine, startCol⟩

/-- Main loop of `Lexer.tokenize`. -/
def tokenizeLoop : Nat → LexState → Option LexLoopOut
  | 0, _ => none
  | fuel + 1, st0 =>
      if st0.pos < st0.source.length then
        match skipWhitespace fuel st0 with
        | none => none
        | some st =>
            if st.pos ≥ st.source.length then some (.finished st)
            else if currentChar st = some '/' ∧ peekChar st = some '/' then
              match skipComment fuel st with
              | none => none
              | some st1 => tokenizeLoop fuel st1
            else
              match currentChar st with
              | none => some (.finished st)   -- unreachable: pos < length
              | some c =>
                  let sl := st.line
                  let sc := st.column
                  if c = '"' ∨ c = sqc then
                    match readString c fuel st with
                    | none => none
                    | some .crash => some .crashed
                    | some (.err msg st1) =>
                        some (.finished { st1 with errors := st1.errors ++ [msg] })
                    | some (.ok value st1) =>
                        tokenizeLoop fuel (pushToken st1
                          ⟨.STRING_LIT, String.mk (c :: value ++ [c]),
                           some (.s (String.mk value)), sl, sc⟩)
                  else if c.isDigit then
                    match readNumber fuel st with
                    | none => none
                    | some (t, st1) => tokenizeLoop fuel (pushToken st1 t)
                  else if c.isAlpha || c = '_' then
                    match readIdentifier fuel st with
                    | none => none
                    | some (t, st1) => tokenizeLoop fuel (pushToken st1 t)
                  else if c = '=' ∧ peekChar st = some '=' then
                    tokenizeLoop fuel (emitSimple st .EQ "==" sl sc 2)
                  else if c = '!' ∧ peekChar st = some '=' then
                    tokenizeLoop fuel (emitSimple st .NE "!=" sl sc 2)
                  else if c = '<' ∧ peekChar st = some '=' then
                    tokenizeLoop fuel (emitSimple st .LE "<=" sl sc 2)
                  else if c = '>' ∧ peekChar st = some '=' then
                    tokenizeLoop fuel (emitSimple st .GE ">=" sl sc 2)
                  else if c = '&' ∧ peekChar st = some '&' then
                    tokenizeLoop fuel (emitSimple st .AND "&&" sl sc 2)
                  else if c = '|' ∧ peekChar st = some '|' then
                    tokenizeLoop fuel (emitSimple st .OR "||" sl sc 2)
                  else if c = '+' then tokenizeLoop fuel (emitSimple st .PLUS "+" sl sc 1)
                  else if c = '-' then tokenizeLoop fuel (emitSimple st .MINUS "-" sl sc 1)
                  else if c = '*' then tokenizeLoop fuel (emitSimple st .STAR "*" sl sc 1)
                  else if c = '/' then tokenizeLoop fuel (emitSimple st .SLASH "/" sl sc 1)
                  else if c = '%' then tokenizeLoop fuel (emitSimple st .PERCENT "%" sl sc 1)
                  else if c = '<' then tokenizeLoop fuel (emitSimple st .LT "<" sl sc 1)
                  else if c = '>' then tokenizeLoop fuel (emitSimple st .GT ">" sl sc 1)
                  else if c = '!' then tokenizeLoop fuel (emitSimple st .NOT "!" sl sc 1)
                  else if c = '=' then tokenizeLoop fuel (emitSimple st .ASSIGN "=" sl sc 1)
                  else if c = '(' then tokenizeLoop fuel (emitSimple st .LPAREN "(" sl sc 1)
                  else if c = ')' then tokenizeLoop fuel (emitSimple st .RPAREN ")" sl sc 1)
                  else if c = '{' then tokenizeLoop fuel (emitSimple st .LBRACE "\x7b" sl sc 1)
                  else if c = '}' then tokenizeLoop fuel (emitSimple st .RBRACE "\x7d" sl sc 1)
                  else if c = ';' then tokenizeLoop fuel (emitSimple st .SEMICOLON ";" sl sc 1)
                  else if c = ',' then tokenizeLoop fuel (emitSimple st .COMMA "," sl sc 1)
                  else if c = ':' then tokenizeLoop fuel (emitSimple st .COLON ":" sl sc 1)
                  else
                    tokenizeLoop fuel (lexAdvance { st with errors := st.errors ++
                      ["Unexpected character " ++ sq ++ String.mk [c] ++ sq ++ " at line " ++
                       decStr st.line ++ ", column " ++ decStr st.column] })
      else some (.finished st0)

/-- `Lexer.tokenize`: `some none` = an uncaught exception escaped,
`some (some (tokens, errors))` = normal return, `none` = out of fuel. -/
def tokenize (fuel : Nat) (source : List Char) : Option (Option (List Token × List String)) :=
  match tokenizeLoop fuel { source := source } with
  | none => none
  | some .crashed => some none
  | some (.finished st) =>
      some (some (st.tokens ++ [⟨.EOF, "", none, st.line, st.column⟩], st.errors))

/-! ### AST (`ast_nodes.py`)

Field types follow the dataclass declarations: child slots annotated
`Optional[...]` become `Option`, statement bodies are lists.  An
`IntLiteral` holds an integer; a `FloatLiteral` holds the decimal text
of its float (the Python code only ever converts the float back to a
string). -/

inductive Expr where
  | binaryOp (left : Option Expr) (operator : String) (right : Option Expr) (line column : Nat)
  | unaryOp (operator : String) (operand : Option Expr) (line column : Nat)
  | identifier (name : String) (line column : Nat)
  | intLit (value : Int) (line column : Nat)
  | floatLit (value : String) (line column : Nat)
  | stringLit (value : String) (line column : Nat)
  | boolLit (value : Bool) (line column : Nat)
  | functionCall (name : String) (arguments : List Expr) (line column : Nat)
  | arrayAccess (array : Option Expr) (index : Option Expr) (line column : Nat)

inductive Stmt where
  | varDeclaration (name : String) (dataType : Option String) (initializer : Option Expr)
      (line column : Nat)
  | assignment (target : String) (value : Option Expr) (line column : Nat)
  | ifStatement (condition : Option Expr) (thenBody : List Stmt)
      (elseBody : Option (List Stmt)) (line column : Nat)
  | whileStatement (condition : Option Expr) (body : List Stmt) (line column : Nat)
  | forStatement (init : Option Stmt) (condition : Option Expr) (update : Option Stmt)
      (body : List Stmt) (line column : Nat)
  | functionDeclaration (name : String) (parameters : List String) (body : List Stmt)
      (line column : Nat)
  | returnStatement (value : Option Expr) (line column : Nat)
  | printStatement (value : Option Expr) (line column : Nat)

structure Program where
  statements : List Stmt

/-! ### Parser (`parser.py`)

The `Parser` object becomes `PState`; a raised `ParseError` becomes an
`Except.error` carrying the exception message.  `Parser.statement`
catches every `ParseError` from the sub-parsers and returns `None`, so
its embedding returns a plain `Option Stmt`.  The `while` loops of
`parse`, `block` and the expression levels take fuel; `none` means the
fuel ran out. -/

structure PState where
  tokens : List Token
  pos : Nat := 0
  errors : List String := []
deriving Repr

/-- Fallback token: Python would raise `IndexError` on an empty token
list; the parser is only run on lexer output, which always ends in EOF. -/
def dummyToken : Token := ⟨.EOF, "", none, 1, 1⟩

/-- `Parser.current_token` (returns `tokens[-1]` once past the end). -/
def pCurrent (st : PState) : Token :=
  if st.pos < st.tokens.length then st.tokens.getD st.pos dummyToken
  else st.tokens.getLastD dummyToken

/-- `Parser.advance`: return the current token, then move unless at the last index. -/
def pAdvance (st : PState) : Token × PState :=
  (pCurrent st,
   if st.pos < st.tokens.length - 1 then { st with pos := st.pos + 1 } else st)

/-- `Parser.match(*types)`. -/
def pMatch (st : PState) (ts : List TokenType) : Bool := ts.contains (pCurrent st).type

/-- `Parser.consume` (the optional `message` argument is `""` at every
call site, so the `if message:` suffix never fires). -/
def pConsume (tt : TokenType) (st : PState) : Except String Token × PState :=
  if (pCurrent st).type ≠ tt then
    let er := "Expected " ++ tokenTypeName tt ++ ", got " ++
      tokenTypeName (pCurrent st).type ++ " at line " ++ decStr (pCurrent st).line
    (.error er, { st with errors := st.errors ++ [er] })
  else
    (.ok (pCurrent st), (pAdvance st).2)

/-- `Parser.synchronize`'s scan loop (after the initial advance). -/
def synchronizeLoop : Nat → PState → Option PState
  | 0, _ => none
  | fuel + 1, st =>
      if (pCurrent st).type = .EOF then some st
      else if (pCurrent st).type ∈ [TokenType.VAR, .IF, .WHILE, .FUNC, .RETURN, .PRINT] then
        some st
      else synchronizeLoop fuel (pAdvance st).2

/-- `Parser.synchronize`.  (Dead code in practice: `Parser.statement`
catches every `ParseError` itself, so `parse`'s handler never runs.) -/
def synchronize (fuel : Nat) (st : PState) : Option PState :=
  synchronizeLoop fuel (pAdvance st).2

/-- Sequencing for parser steps that may raise (`Except.error`) or run
out of fuel (`none`). -/
def bindE {α β : Type} (r : Option (Except String α × PState))
    (f : α → PState → Option (Except String β × PState)) :
    Option (Except String β × PState) :=
  match r with
  | none => none
  | some (.error e, st) => some (.error e, st)
  | some (.ok a, st) => f a st

/-- Sequencing after a `consume` (which cannot run out of fuel). -/
def bindC {β : Type} (r : Except String Token × PState)
    (f : Token → PState → Option (Except String β × PState)) :
    Option (Except String β × PState) :=
  match r with
  | (.error e, st) => some (.error e, st)
  | (.ok t, st) => f t st

def retE {α : Type} (a : α) (st : PState) : Option (Except String α × PState) :=
  some (.ok a, st)

/-- Literal payload extraction for `primary` (the lexer always supplies
the matching kind; the default arm is unreachable on lexer output). -/
def litInt : Option Lit → Int
  | some (.i v) => v
  | _ => 0

def litFloat : Option Lit → String
  | some (.f s) => s
  | _ => "0.0"

def litString : Option Lit → String
  | some (.s s) => s
  | _ => ""

def litBool : Option Lit → Bool
  | some (.b b) => b
  | _ => false

/-- Tail of `expression_statement` when the expression is not
`Identifier '=' ...`: consume `';'`, then raise.  The raised message is
never appended to `errors` (only `consume` appends). -/
def exprStmtReject (st : PState) : Option (Except String Stmt × PState) :=
  bindC (pConsume .SEMICOLON st) fun _ st1 =>
    some (.error "Expected assignment or expression statement", st1)

mutual

/-- Loop of `Parser.parse`. -/
def parseLoop : Nat → PState → Option (List Stmt × PState)
  | 0, _ => none
  | fuel + 1, st =>
      if (pCurrent st).type = .EOF then some ([], st)
      else
        match statementF fuel st with
        | none => none
        | some (ostmt, st1) =>
            -- The `except ParseError: self.synchronize()` in `parse` is
            -- unreachable: `statement` already catches every ParseError.
            match parseLoop fuel st1 with
            | none => none
            | some (rest, st2) =>
                some ((match ostmt with | some s => s :: rest | none => rest), st2)

/-- Shared loop of `Parser.block` and of the brace branch in
`Parser.statement`: parse statements until `RBRACE` or `EOF`. -/
def stmtSeqF : Nat → PState → Option (List Stmt × PState)
  | 0, _ => none
  | fuel + 1, st =>
      if (pCurrent st).type = .RBRACE ∨ (pCurrent st).type = .EOF then some ([], st)
      else
        match statementF fuel st with
        | none => none
        | some (ostmt, st1) =>
            match stmtSeqF fuel st1 with
            | none => none
            | some (rest, st2) =>
                some ((match ostmt with | some s => s :: rest | none => rest), st2)

/-- `Parser.statement`: dispatch on the current token; the whole body is
wrapped in `try ... except ParseError: return None`. -/
def statementF : Nat → PState → Option (Option Stmt × PState)
  | 0, _ => none
  | fuel + 1, st =>
      let catchPE : Option (Except String Stmt × PState) → Option (Option Stmt × PState) :=
        fun r =>
          match r with
          | none => none
          | some (.ok s, st1) => some (some s, st1)
          | some (.error _, st1) => some (none, st1)
      match (pCurrent st).type with
      | .VAR => catchPE (varDeclarationF fuel st)
      | .IF => catchPE (ifStatementF fuel st)
      | .WHILE => catchPE (whileStatementF fuel st)
      | .FOR => catchPE (forStatementF fuel st)
      | .FUNC => catchPE (functionDeclarationF fuel st)
      | .RETURN => catchPE (returnStatementF fuel st)
      | .PRINT => catchPE (printStatementF fuel st)
      | .LBRACE =>
          let st1 := (pAdvance st).2
          match stmtSeqF fuel st1 with
          | none => none
          | some (_, st2) =>
              -- Block is handled in context: the list is discarded and
              -- `None` returned; a failing consume is caught just above.
              match pConsume .RBRACE st2 with
              | (.ok _, st3) => some (none, st3)
              | (.error _, st3) => some (none, st3)
      | _ => catchPE (expressionStatementF fuel st)

/-- `Parser.var_declaration`. -/
def varDeclarationF : Nat → PState → Option (Except String Stmt × PState)
  | 0, _ => none
  | fuel + 1, st =>
      bindC (pConsume .VAR st) fun varTok st1 =>
      bindC (pConsume .ID st1) fun nameTok st2 =>
      if (pCurrent st2).type = .ASSIGN then
        let st3 := (pAdvance st2).2
        bindE (expressionF fuel st3) fun init st4 =>
        bindC (pConsume .SEMICOLON st4) fun _ st5 =>
        retE (.varDeclaration nameTok.lexeme none (some init) varTok.line varTok.column) st5
      else
        bindC (pConsume .SEMICOLON st2) fun _ st3 =>
        retE (.varDeclaration nameTok.lexeme none none varTok.line varTok.column) st3

/-- `Parser.if_statement`. -/
def ifStatementF : Nat → PState → Option (Except String Stmt × PState)
  | 0, _ => none
  | fuel + 1, st =>
      bindC (pConsume .IF st) fun ifTok st1 =>
      bindC (pConsume .LPAREN st1) fun _ st2 =>
      bindE (expressionF fuel st2) fun cond st3 =>
      bindC (pConsume .RPAREN st3) fun _ st4 =>
      bindC (pConsume .LBRACE st4) fun _ st5 =>
      bindE (blockE fuel st5) fun thenB st6 =>
      bindC (pConsume .RBRACE st6) fun _ st7 =>
      if (pCurrent st7).type = .ELSE then
        let st8 := (pAdvance st7).2
        bindC (pConsume .LBRACE st8) fun _ st9 =>
        bindE (blockE fuel st9) fun elseB st10 =>
        bindC (pConsume .RBRACE st10) fun _ st11 =>
        retE (.ifStatement (some cond) thenB (some elseB) ifTok.line ifTok.column) st11
      else
        retE (.ifStatement (some cond) thenB none ifTok.line ifTok.column) st7

/-- `Parser.while_statement`. -/
def whileStatementF : Nat → PState → Option (Except String Stmt × PState)
  | 0, _ => none
  | fuel + 1, st =>
      bindC (pConsume .WHILE st) fun whileTok st1 =>
      bindC (pConsume .LPAREN st1) fun _ st2 =>
      bindE (expressionF fuel st2) fun cond st3 =>
      bindC (pConsume .RPAREN st3) fun _ st4 =>
      bindC (pConsume .LBRACE st4) fun _ st5 =>
      bindE (blockE fuel st5) fun body st6 =>
      bindC (pConsume .RBRACE st6) fun _ st7 =>
      retE (.whileStatement (some cond) body whileTok.line whileTok.column) st7

/-- `Parser.for_statement`. -/
def forStatementF : Nat → PState → Option (Except String Stmt × PState)
  | 0, _ => none
  | fuel + 1, st =>
      bindC (pConsume .FOR st) fun forTok st1 =>
      bindC (pConsume .LPAREN st1) fun _ st2 =>
      let initPart : Option (Except String (Option Stmt) × PState) :=
        if (pCurrent st2).type ≠ .SEMICOLON then
          if (pCurrent st2).type = .VAR then
            bindE (varDeclarationF fuel st2) fun s stA => retE (some s) stA
          else
            bindE (expressionStatementF fuel st2) fun s stA => retE (some s) stA
        else retE none (pAdvance st2).2
      bindE initPart fun init st3 =>
      let condPart : Option (Except String (Option Expr) × PState) :=
        if (pCurrent st3).type ≠ .SEMICOLON then
          bindE (expressionF fuel st3) fun c stA => retE (some c) stA
        else retE none st3
      bindE condPart fun cond st4 =>
      bindC (pConsume .SEMICOLON st4) fun _ st5 =>
      let updatePart : Option (Except String (Option Stmt) × PState) :=
        if (pCurrent st5).type ≠ .RPAREN then
          bindE (expressionStatementF fuel st5) fun s stA => retE (some s) stA
        else retE none st5
      bindE updatePart fun update st6 =>
      bindC (pConsume .RPAREN st6) fun _ st7 =>
      bindC (pConsume .LBRACE st7) fun _ st8 =>
      bindE (blockE fuel st8) fun body st9 =>
      bindC (pConsume .RBRACE st9) fun _ st10 =>
      retE (.forStatement init cond update body forTok.line forTok.column) st10

/-- `Parser.function_declaration`. -/
def functionDeclarationF : Nat → PState → Option (Except String Stmt × PState)
  | 0, _ => none
  | fuel + 1, st =>
      bindC (pConsume .FUNC st) fun funcTok st1 =>
      bindC (pConsume .ID st1) fun nameTok st2 =>
      bindC (pConsume .LPAREN st2) fun _ st3 =>
      let paramsPart : Option (Except String (List String) × PState) :=
        if (pCurrent st3).type ≠ .RPAREN then
          bindC (pConsume .ID st3) fun p0 st4 =>
          bindE (paramsLoopF fuel [p0.lexeme] st4) fun ps st5 => retE ps st5
        else retE [] st3
      bindE paramsPart fun params st6 =>
      bindC (pConsume .RPAREN st6) fun _ st7 =>
      bindC (pConsume .LBRACE st7) fun _ st8 =>
      bindE (blockE fuel st8) fun body st9 =>
      bindC (pConsume .RBRACE st9) fun _ st10 =>
      retE (.functionDeclaration nameTok.lexeme params body funcTok.line funcTok.column) st10

/-- `while self.match(COMMA)` loop collecting parameters. -/
def paramsLoopF : Nat → List String → PState → Option (Except String (List String) × PState)
  | 0, _, _ => none
  | fuel + 1, acc, st =>
      if (pCurrent st).type = .COMMA then
        let st1 := (pAdvance st).2
        bindC (pConsume .ID st1) fun p st2 =>
        paramsLoopF fuel (acc ++ [p.lexeme]) st2
      else retE acc st

/-- `Parser.return_statement`. -/
def returnStatementF : Nat → PState → Option (Except String Stmt × PState)
  | 0, _ => none
  | fuel + 1, st =>
      bindC (pConsume .RETURN st) fun retTok st1 =>
      if (pCurrent st1).type ≠ .SEMICOLON then
        bindE (expressionF fuel st1) fun v st2 =>
        bindC (pConsume .SEMICOLON st2) fun _ st3 =>
        retE (.returnStatement (some v) retTok.line retTok.column) st3
      else
        bindC (pConsume .SEMICOLON st1) fun _ st2 =>
        retE (.returnStatement none retTok.line retTok.column) st2

/-- `Parser.print_statement`. -/
def printStatementF : Nat → PState → Option (Except String Stmt × PState)
  | 0, _ => none
  | fuel + 1, st =>
      bindC (pConsume .PRINT st) fun printTok st1 =>
      bindE (expressionF fuel st1) fun v st2 =>
      bindC (pConsume .SEMICOLON st2) fun _ st3 =>
      retE (.printStatement (some v) printTok.line printTok.column) st3

/-- `Parser.expression_statement`: only `Identifier '=' expr ';'` builds
a node; everything else consumes `';'` and raises. -/
def expressionStatementF : Nat → PState → Option (Except String Stmt × PState)
  | 0, _ => none
  | fuel + 1, st =>
      bindE (expressionF fuel st) fun e st1 =>
      match e with
      | .identifier name ln col =>
          if (pCurrent st1).type = .ASSIGN then
            let st2 := (pAdvance st1).2
            bindE (expressionF fuel st2) fun v st3 =>
            bindC (pConsume .SEMICOLON st3) fun _ st4 =>
            retE (.assignment name (some v) ln col) st4
          else exprStmtReject st1
      | _ => exprStmtReject st1

/-- `Parser.block`. -/
def blockE : Nat → PState → Option (Except String (List Stmt) × PState)
  | 0, _ => none
  | fuel + 1, st =>
      match stmtSeqF fuel st with
      | none => none
      | some (sts, st1) => retE sts st1

/-- `Parser.expression`. -/
def expressionF : Nat → PState → Option (Except String Expr × PState)
  | 0, _ => none
  | fuel + 1, st => logicalOrF fuel st

def logicalOrF : Nat → PState → Option (Except String Expr × PState)
  | 0, _ => none
  | fuel + 1, st =>
      bindE (logicalAndF fuel st) fun e st1 => orLoopF fuel e st1

/-- `while self.match(OR)` in `logical_or`: each new `BinaryOp` takes
the operator token's line/column. -/
def orLoopF : Nat → Expr → PState → Option (Except String Expr × PState)
  | 0, _, _ => none
  | fuel + 1, e, st =>
      if pMatch st [.OR] then
        let (opTok, st1) := pAdvance st
        bindE (logicalAndF fuel st1) fun right st2 =>
          orLoopF fuel (.binaryOp (some e) opTok.lexeme (some right) opTok.line opTok.column) st2
      else retE e st

def logicalAndF : Nat → PState → Option (Except String Expr × PState)
  | 0, _ => none
  | fuel + 1, st =>
      bindE (equalityF fuel st) fun e st1 => andLoopF fuel e st1

/-- `while self.match(AND)` in `logical_and`. -/
def andLoopF : Nat → Expr → PState → Option (Except String Expr × PState)
  | 0, _, _ => none
  | fuel + 1, e, st =>
      if pMatch st [.AND] then
        let (opTok, st1) := pAdvance st
        bindE (equalityF fuel st1) fun right st2 =>
          andLoopF fuel (.binaryOp (some e) opTok.lexeme (some right) opTok.line opTok.column) st2
      else retE e st

def equalityF : Nat → PState → Option (Except String Expr × PState)
  | 0, _ => none
  | fuel + 1, st =>
      bindE (comparisonF fuel st) fun e st1 => eqLoopF fuel e st1

/-- `while self.match(EQ, NE)` in `equality`. -/
def eqLoopF : Nat → Expr → PState → Option (Except String Expr × PState)
  | 0, _, _ => none
  | fuel + 1, e, st =>
      if pMatch st [.EQ, .NE] then
        let (opTok, st1) := pAdvance st
        bindE (comparisonF fuel st1) fun right st2 =>
          eqLoopF fuel (.binaryOp (some e) opTok.lexeme (some right) opTok.line opTok.column) st2
      else retE e st

def comparisonF : Nat → PState → Option (Except String Expr × PState)
  | 0, _ => none
  | fuel + 1, st =>
      bindE (additiveF fuel st) fun e st1 => compLoopF fuel e st1

/-- `while self.match(LT, GT, LE, GE)` in `comparison`. -/
def compLoopF : Nat → Expr → PState → Option (Except String Expr × PState)
  | 0, _, _ => none
  | fuel + 1, e, st =>
      if pMatch st [.LT, .GT, .LE, .GE] then
        let (opTok, st1) := pAdvance st
        bindE (additiveF fuel st1) fun right st2 =>
          compLoopF fuel (.binaryOp (some e) opTok.lexeme (some right) opTok.line opTok.column) st2
      else retE e st

def additiveF : Nat → PState → Option (Except String Expr × PState)
  | 0, _ => none
  | fuel + 1, st =>
      bindE (multiplicativeF fuel st) fun e st1 => addLoopF fuel e st1

/-- `while self.match(PLUS, MINUS)` in `additive`. -/
def addLoopF : Nat → Expr → PState → Option (Except String Expr × PState)
  | 0, _, _ => none
  | fuel + 1, e, st =>
      if pMatch st [.PLUS, .MINUS] then
        let (opTok, st1) := pAdvance st
        bindE (multiplicativeF fuel st1) fun right st2 =>
          addLoopF fuel (.binaryOp (some e) opTok.lexeme (some right) opTok.line opTok.column) st2
      else retE e st

def multiplicativeF : Nat → PState → Option (Except String Expr × PState)
  | 0, _ => none
  | fuel + 1, st =>
      bindE (unaryF fuel st) fun e st1 => mulLoopF fuel e st1

/-- `while self.match(STAR, SLASH, PERCENT)` in `multiplicative`. -/
def mulLoopF : Nat → Expr → PState → Option (Except String Expr × PState)
  | 0, _, _ => none
  | fuel + 1, e, st =>
      if pMatch st [.STAR, .SLASH, .PERCENT] then
        let (opTok, st1) := pAdvance st
        bindE (unaryF fuel st1) fun right st2 =>
          mulLoopF fuel (.binaryOp (some e) opTok.lexeme (some right) opTok.line opTok.column) st2
      else retE e st

/-- `Parser.unary`. -/
def unaryF : Nat → PState → Option (Except String Expr × PState)
  | 0, _ => none
  | fuel + 1, st =>
      if pMatch st [.NOT, .MINUS] then
        let (opTok, st1) := pAdvance st
        bindE (unaryF fuel st1) fun e st2 =>
        retE (.unaryOp opTok.lexeme (some e) opTok.line opTok.column) st2
      else callF fuel st

/-- `Parser.call`. -/
def callF : Nat → PState → Option (Except String Expr × PState)
  | 0, _ => none
  | fuel + 1, st =>
      bindE (primaryF fuel st) fun e st1 => callLoopF fuel e st1

/-- The `while self.match(LPAREN)` loop of `Parser.call`. -/
def callLoopF : Nat → Expr → PState → Option (Except String Expr × PState)
  | 0, _, _ => none
  | fuel + 1, e, st =>
      if (pCurrent st).type = .LPAREN then
        let st1 := (pAdvance st).2
        let argsPart : Option (Except String (List Expr) × PState) :=
          if (pCurrent st1).type ≠ .RPAREN then
            bindE (expressionF fuel st1) fun a0 st2 => argsLoopF fuel [a0] st2
          else retE [] st1
        bindE argsPart fun args st3 =>
        bindC (pConsume .RPAREN st3) fun _ st4 =>
        match e with
        | .identifier name ln col =>
            callLoopF fuel (.functionCall name args ln col) st4
        | _ => some (.error "Can only call functions by name", st4)
      else retE e st

/-- `while self.match(COMMA)` loop collecting call arguments. -/
def argsLoopF : Nat → List Expr → PState → Option (Except String (List Expr) × PState)
  | 0, _, _ => none
  | fuel + 1, acc, st =>
      if (pCurrent st).type = .COMMA then
        let st1 := (pAdvance st).2
        bindE (expressionF fuel st1) fun a st2 =>
        argsLoopF fuel (acc ++ [a]) st2
      else retE acc st

/-- `Parser.primary`.  The raised message of the final branch is never
appended to `errors`. -/
def primaryF : Nat → PState → Option (Except String Expr × PState)
  | 0, _ => none
  | fuel + 1, st =>
      match (pCurrent st).type with
      | .INT_LIT =>
          let (t, st1) := pAdvance st
          retE (.intLit (litInt t.literal) t.line t.column) st1
      | .FLOAT_LIT =>
          let (t, st1) := pAdvance st
          retE (.floatLit (litFloat t.literal) t.line t.column) st1
      | .STRING_LIT =>
          let (t, st1) := pAdvance st
          retE (.stringLit (litString t.literal) t.line t.column) st1
      | .TRUE =>
          let (t, st1) := pAdvance st
          retE (.boolLit (litBool t.literal) t.line t.column) st1
      | .FALSE =>
          let (t, st1) := pAdvance st
          retE (.boolLit (litBool t.literal) t.line t.column) st1
      | .ID =>
          let (t, st1) := pAdvance st
          retE (.identifier t.lexeme t.line t.column) st1
      | .LPAREN =>
          let st1 := (pAdvance st).2
          bindE (expressionF fuel st1) fun e st2 =>
          bindC (pConsume .RPAREN st2) fun _ st3 =>
          retE e st3
      | tt => some (.error ("Unexpected token: " ++ tokenTypeName tt), st)

end

/-- `Parser.parse` on a token list with the given fuel. -/
def parseProgram (fuel : Nat) (tokens : List Token) : Option (Program × PState) :=
  match parseLoop fuel { tokens := tokens } with
  | none => none
  | some (sts, st) => some (⟨sts⟩, st)

/-! ### Parser facts: C2, C3, C6 -/

/-- Token list of the one-character source `";"`. -/
def c2Tokens : List Token := [⟨.SEMICOLON, ";", none, 1, 1⟩, ⟨.EOF, "", none, 1, 2⟩]

def c2St : PState := { tokens := c2Tokens }

/-- On `";"`, `primary` raises without advancing or recording an error. -/
theorem c2_primary : ∀ fuel, primaryF fuel c2St = none ∨
    primaryF fuel c2St = some (.error ("Unexpected token: " ++ tokenTypeName .SEMICOLON), c2St)
  | 0 => Or.inl rfl
  | _fuel + 1 => Or.inr rfl

theorem c2_call : ∀ fuel, callF fuel c2St = none ∨
    callF fuel c2St = some (.error ("Unexpected token: " ++ tokenTypeName .SEMICOLON), c2St)
  | 0 => Or.inl rfl
  | fuel + 1 => by
      rcases c2_primary fuel with h | h <;> simp [callF, bindE, h]

theorem c2_unary : ∀ fuel, unaryF fuel c2St = none ∨
    unaryF fuel c2St = some (.error ("Unexpected token: " ++ tokenTypeName .SEMICOLON), c2St)
  | 0 => Or.inl rfl
  | fuel + 1 => by
      rcases c2_call fuel with h | h <;>
        simp [unaryF, show pMatch c2St [.NOT, .MINUS] = false from rfl, h]

theorem c2_mul : ∀ fuel, multiplicativeF fuel c2St = none ∨
    multiplicativeF fuel c2St =
      some (.error ("Unexpected token: " ++ tokenTypeName .SEMICOLON), c2St)
  | 0 => Or.inl rfl
  | fuel + 1 => by
      rcases c2_unary fuel with h | h <;> simp [multiplicativeF, bindE, h]

theorem c2_add : ∀ fuel, additiveF fuel c2St = none ∨
    additiveF fuel c2St = some (.error ("Unexpected token: " ++ tokenTypeName .SEMICOLON), c2St)
  | 0 => Or.inl rfl
  | fuel + 1 => by
      rcases c2_mul fuel with h | h <;> simp [additiveF, bindE, h]

theorem c2_comp : ∀ fuel, comparisonF fuel c2St = none ∨
    comparisonF fuel c2St = some (.error ("Unexpected token: " ++ tokenTypeName .SEMICOLON), c2St)
  | 0 => Or.inl rfl
  | fuel + 1 => by
      rcases c2_add fuel with h | h <;> simp [comparisonF, bindE, h]

theorem c2_eq : ∀ fuel, equalityF fuel c2St = none ∨
    equalityF fuel c2St = some (.error ("Unexpected token: " ++ tokenTypeName .SEMICOLON), c2St)
  | 0 => Or.inl rfl
  | fuel + 1 => by
      rcases c2_comp fuel with h | h <;> simp [equalityF, bindE, h]

theorem c2_and : ∀ fuel, logicalAndF fuel c2St = none ∨
    logicalAndF fuel c2St = some (.error ("Unexpected token: " ++ tokenTypeName .SEMICOLON), c2St)
  | 0 => Or.inl rfl
  | fuel + 1 => by
      rcases c2_eq fuel with h | h <;> simp [logicalAndF, bindE, h]

theorem c2_or : ∀ fuel, logicalOrF fuel c2St = none ∨
    logicalOrF fuel c2St = some (.error ("Unexpected token: " ++ tokenTypeName .SEMICOLON), c2St)
  | 0 => Or.inl rfl
  | fuel + 1 => by
      rcases c2_and fuel with h | h <;> simp [logicalOrF, bindE, h]

theorem c2_expression : ∀ fuel, expressionF fuel c2St = none ∨
    expressionF fuel c2St = some (.error ("Unexpected token: " ++ tokenTypeName .SEMICOLON), c2St)
  | 0 => Or.inl rfl
  | fuel + 1 => by
      rcases c2_or fuel with h | h <;> simp [expressionF, h]

theorem c2_exprStmt : ∀ fuel, expressionStatementF fuel c2St = none ∨
    expressionStatementF fuel c2St =
      some (.error ("Unexpected token: " ++ tokenTypeName .SEMICOLON), c2St)
  | 0 => Or.inl rfl
  | fuel + 1 => by
      rcases c2_expression fuel with h | h <;> simp [expressionStatementF, bindE, h]

/-- On `";"`, `statement` swallows the `ParseError` and returns `None`
with the position unchanged: no token is ever skipped. -/
theorem c2_statement : ∀ fuel, statementF fuel c2St = none ∨
    statementF fuel c2St = some (none, c2St)
  | 0 => Or.inl rfl
  | fuel + 1 => by
      rcases c2_exprStmt fuel with h | h <;>
        simp [statementF, show (pCurrent c2St).type = TokenType.SEMICOLON from rfl, h]

theorem c2_parseLoop : ∀ fuel, parseLoop fuel c2St = none := by
  intro fuel
  induction fuel with
  | zero => rfl
  | succ fuel ih =>
      rcases c2_statement fuel with h | h <;>
        simp [parseLoop, show (pCurrent c2St).type = TokenType.SEMICOLON from rfl, h, ih]

/-- C2: FALSIFIED.  `Parser.statement` catches every `ParseError`
itself and returns `None` without consuming a token, so the
`except ParseError: self.synchronize()` recovery in `Parser.parse` is
unreachable.  On the token stream of the source `";"` (`SEMICOLON`,
`EOF`) the parse loop repeats forever at position 0: no fuel bound
suffices, i.e. `Parser.parse` does not terminate. -/
theorem c2_parse_diverges_on_semicolon :
    ∀ fuel, parseProgram fuel c2Tokens = none := by
  intro fuel
  unfold parseProgram
  rw [show ({ tokens := c2Tokens } : PState) = c2St from rfl, c2_parseLoop fuel]

/-- Token list of the source `foo();` (a call used for effect). -/
def c3Tokens (f : String) : List Token :=
  [⟨.ID, f, none, 1, 1⟩, ⟨.LPAREN, "(", none, 1, 4⟩, ⟨.RPAREN, ")", none, 1, 5⟩,
   ⟨.SEMICOLON, ";", none, 1, 6⟩, ⟨.EOF, "", none, 1, 7⟩]

/-- C3: COUNTEREXAMPLE.  Parsing `foo();` produces no statement, but
also records no error: the errors list stays empty (`has_errors()` is
false), because `expression_statement` raises its `ParseError` after a
clean `consume(SEMICOLON)` and only `consume` ever appends to the error
list; `statement` then swallows the exception. -/
theorem c3_call_statement_counterexample :
    parseProgram 64 (c3Tokens "foo") =
      some (⟨[]⟩, { tokens := c3Tokens "foo", pos := 4, errors := [] }) := rfl

/-- C3 (amended): an expression statement that is not an assignment to
a plain identifier is rejected in the sense that no AST node is built
for it, but no syntax error is recorded when the expression and the
trailing `';'` parse cleanly: for every callee name, parsing `f();`
yields an empty program and an empty error list. -/
theorem c3_call_statement_silently_dropped (f : String) :
    parseProgram 64 (c3Tokens f) =
      some (⟨[]⟩, { tokens := c3Tokens f, pos := 4, errors := [] }) := rfl

/-- Token list of the source `var x = a + b;` with explicit positions. -/
def c6Tokens : List Token :=
  [⟨.VAR, "var", none, 1, 1⟩, ⟨.ID, "x", none, 1, 5⟩, ⟨.ASSIGN, "=", none, 1, 7⟩,
   ⟨.ID, "a", none, 1, 9⟩, ⟨.PLUS, "+", none, 1, 11⟩, ⟨.ID, "b", none, 1, 13⟩,
   ⟨.SEMICOLON, ";", none, 1, 14⟩, ⟨.EOF, "", none, 1, 15⟩]

/-- C6: COUNTEREXAMPLE.  In `var x = a + b;` the first token of the
`BinaryOp`'s construct is the identifier `a` at column 9, but the node
is built with the operator token's position: column 11. -/
theorem c6_binaryOp_position_counterexample :
    parseProgram 64 c6Tokens =
      some (⟨[.varDeclaration "x" none
               (some (.binaryOp (some (.identifier "a" 1 9)) "+"
                      (some (.identifier "b" 1 13)) 1 11)) 1 1]⟩,
            { tokens := c6Tokens, pos := 7, errors := [] }) ∧ (11 : Nat) ≠ 9 :=
  ⟨rfl, by decide⟩

/-- Token list of `var x = a + b; while (c) { print d; }` with
distinct positions on every token. -/
def c6AmTokens : List Token :=
  [⟨.VAR, "var", none, 1, 1⟩, ⟨.ID, "x", none, 1, 5⟩, ⟨.ASSIGN, "=", none, 1, 7⟩,
   ⟨.ID, "a", none, 1, 9⟩, ⟨.PLUS, "+", none, 1, 11⟩, ⟨.ID, "b", none, 1, 13⟩,
   ⟨.SEMICOLON, ";", none, 1, 14⟩,
   ⟨.WHILE, "while", none, 2, 1⟩, ⟨.LPAREN, "(", none, 2, 7⟩, ⟨.ID, "c", none, 2, 8⟩,
   ⟨.RPAREN, ")", none, 2, 9⟩, ⟨.LBRACE, "\x7b", none, 2, 11⟩,
   ⟨.PRINT, "print", none, 2, 13⟩, ⟨.ID, "d", none, 2, 19⟩, ⟨.SEMICOLON, ";", none, 2, 20⟩,
   ⟨.RBRACE, "\x7d", none, 2, 22⟩, ⟨.EOF, "", none, 2, 23⟩]

/-- C6 (amended): statements and leaf expressions carry their first
source token's line/column, but a `BinaryOp` node carries the line and
column of its operator token: parsing
`var x = a + b; while (c) { print d; }` puts the `VarDeclaration` at
the `var` token (1,1), the `WhileStatement` at the `while` token (2,1),
the `PrintStatement` at the `print` token (2,13), each identifier at
its own token — and the `BinaryOp` at the `+` token (1,11), not at
`a`'s (1,9). -/
theorem c6_binaryOp_takes_operator_position :
    parseProgram 30 c6AmTokens =
      some (⟨[.varDeclaration "x" none
               (some (.binaryOp (some (.identifier "a" 1 9)) "+"
                      (some (.identifier "b" 1 13)) 1 11)) 1 1,
              .whileStatement (some (.identifier "c" 2 8))
                [.printStatement (some (.identifier "d" 2 19)) 2 13] 2 1]⟩,
            { tokens := c6AmTokens, pos := 16, errors := [] }) := rfl

/-! ### Lexer fact: C8 -/

/-- C8: the ordinary unterminated string `"abc` records exactly one
lexical error `"Unterminated string at line 1"` and still ends the token
list with `EOF`; but when the last character of the source is a
backslash inside the string (`"a\`), the `value += next_char` line of
`read_string` concatenates `None` and the resulting `TypeError` is not
a `LexicalError`, so it escapes `tokenize` uncaught (modeled as
`some none`): no error is recorded and no `EOF` token is produced. -/
theorem c8_unterminated_string_crash_on_trailing_backslash :
    tokenize 16 ['"', 'a', 'b', 'c'] =
      some (some ([⟨.EOF, "", none, 1, 5⟩], ["Unterminated string at line 1"])) ∧
    tokenize 16 ['"', 'a', '\\'] = some none := ⟨rfl, rfl⟩

/-! ### Symbol table (`symbol_table.py`)

The dict `symbols` keyed by `f"{name}_{scope}"` becomes a list in
insertion order.  A dict update could only disturb insertion order if a
key were overwritten, and a key collision `n1_s1 = n2_s2` forces
`n1 = n2` and `s1 = s2` (the decimal scope part contains no
underscore, so both split at the last underscore), which the duplicate
check in `declare` rules out — hence every insert is a fresh append. -/

structure Symbol where
  name : String
  data_type : String
  scope : Nat
  is_function : Bool := false
  is_declared : Bool := true
deriving DecidableEq, Repr

structure SymbolTable where
  symbols : List Symbol := []
  scope : Nat := 0
  scope_stack : List Nat := [0]
deriving DecidableEq, Repr

def SymbolTable.enter_scope (st : SymbolTable) : SymbolTable :=
  { st with scope := st.scope + 1, scope_stack := st.scope_stack ++ [st.scope + 1] }

def SymbolTable.exit_scope (st : SymbolTable) : SymbolTable :=
  if st.scope_stack ≠ [] then
    let current := st.scope_stack.getLastD 0
    let stack := st.scope_stack.dropLast
    { st with symbols := st.symbols.filter (fun s => s.scope ≠ current),
              scope_stack := stack,
              scope := stack.getLastD 0 }
  else st

/-- `SymbolTable.declare`: refuse a duplicate in the current scope,
otherwise insert. -/
def SymbolTable.declare (st : SymbolTable) (name data_type : String)
    (is_function : Bool := false) : Bool × SymbolTable :=
  if st.symbols.any (fun s => s.name = name && s.scope = st.scope) then (false, st)
  else (true, { st with symbols :=
                  st.symbols ++ [⟨name, data_type, st.scope, is_function, true⟩] })

/-- `SymbolTable.lookup`: scan `symbols.values()` in insertion order and
return the first symbol with this name whose scope level is at most the
current one. -/
def SymbolTable.lookup (st : SymbolTable) (name : String) : Option Symbol :=
  st.symbols.find? (fun s => s.name = name && s.scope ≤ st.scope)

/-! ### Symbol table fact: C1 -/

def c1_st1 : SymbolTable := (SymbolTable.declare {} "x" "int").2
def c1_st2 : SymbolTable := c1_st1.enter_scope
def c1_st3 : SymbolTable := (c1_st2.declare "x" "float").2

/-- C1: FALSIFIED.  After `declare("x","int")` in scope 0,
`enter_scope`, `declare("x","float")` in scope 1, both symbols are
visible but `lookup("x")` returns the *outer* scope-0 symbol, not the
scope-1 one with the highest scope level: `lookup` scans the dict in
insertion order and returns the first name match with scope ≤ current
(the comment "Search from current scope upward" notwithstanding).
After `exit_scope` it also returns the outer symbol. -/
theorem c1_lookup_returns_outer_symbol :
    c1_st3.symbols = [⟨"x", "int", 0, false, true⟩, ⟨"x", "float", 1, false, true⟩] ∧
    c1_st3.scope = 1 ∧
    c1_st3.lookup "x" = some ⟨"x", "int", 0, false, true⟩ ∧
    c1_st3.exit_scope.lookup "x" = some ⟨"x", "int", 0, false, true⟩ :=
  ⟨rfl, rfl, rfl, rfl⟩

/-! ### Type checker (`symbol_table.py`, class `TypeChecker`) -/

def PRIMITIVE_TYPES : List String := ["int", "float", "bool", "string"]

def is_valid_type (data_type : String) : Bool := PRIMITIVE_TYPES.contains data_type

def are_compatible (type1 type2 : String) : Bool :=
  if type1 = type2 then true
  else if (type1 = "int" ∨ type1 = "float") ∧ (type2 = "int" ∨ type2 = "float") then true
  else false

/-- `TypeChecker.infer_type` (unary operations). -/
def infer_type (operand_type operator : String) : Option String :=
  if operator = "!" then some "bool"
  else if operator = "-" then
    if operand_type = "int" ∨ operand_type = "float" then some operand_type else none
  else none

/-- `TypeChecker.infer_binary_result_type`.  The Python `auto` block
returns only when the operator is arithmetic; otherwise control falls
through to the arithmetic block below, whose guard then fails — the
nesting here is flattened accordingly. -/
def infer_binary_result_type (left_type operator right_type : String) : Option String :=
  if operator ∈ ["<", ">", "<=", ">=", "==", "!="] then some "bool"
  else if operator ∈ ["&&", "||"] then some "bool"
  else if (left_type = "auto" ∨ right_type = "auto") ∧
          operator ∈ ["+", "-", "*", "/", "%"] then
    if left_type = "int" ∨ left_type = "float" then some left_type
    else if right_type = "int" ∨ right_type = "float" then some right_type
    else some "int"
  else if operator ∈ ["+", "-", "*", "/", "%"] then
    if left_type = right_type ∧ (left_type = "int" ∨ left_type = "float") then
      some left_type
    else if (left_type = "int" ∨ left_type = "float") ∧
            (right_type = "int" ∨ right_type = "float") then
      some "float"
    else none
  else none

/-! ### Type checker fact: C9 -/

/-- C9: for operand types drawn from `{int, float}` and an arithmetic
operator, `infer_binary_result_type` is commutative in the operand
types (equal types give that type, mixed types give `float` in both
orders). -/
theorem c9_infer_binary_commutative (a b op : String)
    (ha : a = "int" ∨ a = "float") (hb : b = "int" ∨ b = "float")
    (hop : op = "+" ∨ op = "-" ∨ op = "*" ∨ op = "/" ∨ op = "%") :
    infer_binary_result_type a op b = infer_binary_result_type b op a := by
  rcases ha with rfl | rfl <;> rcases hb with rfl | rfl <;>
    rcases hop with rfl | rfl | rfl | rfl | rfl <;> rfl

/-- Witness for C9 at `a = "int"`, `b = "float"`, `op = "+"`. -/
theorem c9_infer_binary_commutative_witness :
    (("int" : String) = "int" ∨ ("int" : String) = "float") ∧
    (("float" : String) = "int" ∨ ("float" : String) = "float") ∧
    infer_binary_result_type "int" "+" "float" =
      infer_binary_result_type "float" "+" "int" :=
  ⟨Or.inl rfl, Or.inr rfl,
   c9_infer_binary_commutative "int" "float" "+" (Or.inl rfl) (Or.inr rfl) (Or.inl rfl)⟩

/-! ### Semantic analyzer (`semantic_analyzer.py`)

The analyzer's mutable state is the symbol table and the error list
(`type_info`, keyed by Python object identity, is written but never
read, and is omitted).  `visit_expression` accepts `None` and any node
without a matching `isinstance` arm (here `ArrayAccess`) and returns
the type `"unknown"`.  Nothing ever raises `SemanticError`, so the
`try/except` in `analyze` is dead code. -/

structure SemState where
  symbol_table : SymbolTable := {}
  errors : List String := []
deriving Repr

/-- `SemanticAnalyzer.add_error` (always called with a node). -/
def SemState.add_error (st : SemState) (message : String) (line column : Nat) : SemState :=
  { st with errors := st.errors ++
      ["Line " ++ decStr line ++ ", Column " ++ decStr column ++ ": " ++ message] }

namespace SemanticAnalyzer

/-- The parameter-declaring loop of `visit_function_declaration`
(declaration results are discarded). -/
def declare_params : List String → SymbolTable → SymbolTable
  | [], tbl => tbl
  | p :: rest, tbl => declare_params rest (tbl.declare p "auto").2

mutual

/-- `SemanticAnalyzer.visit_expression`, returning the inferred type.
The `None` arm of the Python dispatch lives in the wrapper below; both
it and `ArrayAccess` fall through to `"unknown"`. -/
def visit_expr : Expr → SemState → SemState × String
  | .binaryOp l op r ln col, st =>
      let (st1, lt) := visit_expression l st
      let (st2, rt) := visit_expression r st1
      match infer_binary_result_type lt op rt with
      | none =>
          (st2.add_error ("Invalid operation: " ++ lt ++ " " ++ op ++ " " ++ rt) ln col,
           "error")
      | some t => (st2, t)
  | .unaryOp op e ln col, st =>
      let (st1, ot) := visit_expression e st
      match infer_type ot op with
      | none =>
          (st1.add_error ("Invalid unary operation: " ++ op ++ " " ++ ot) ln col, "error")
      | some t => (st1, t)
  | .identifier name ln col, st =>
      match st.symbol_table.lookup name with
      | none =>
          (st.add_error ("Undeclared variable " ++ sq ++ name ++ sq) ln col, "error")
      | some sym => (st, sym.data_type)
  | .intLit _ _ _, st => (st, "int")
  | .floatLit _ _ _, st => (st, "float")
  | .stringLit _ _ _, st => (st, "string")
  | .boolLit _ _ _, st => (st, "bool")
  | .functionCall name args ln col, st =>
      match st.symbol_table.lookup name with
      | none =>
          (st.add_error ("Undeclared function " ++ sq ++ name ++ sq) ln col, "error")
      | some sym =>
          if !sym.is_function then
            (st.add_error (sq ++ name ++ sq ++ " is not a function") ln col, "error")
          else
            (visit_arguments args st, "auto")
  | .arrayAccess _ _ _ _, st => (st, "unknown")

/-- Dispatch wrapper: `visit_expression(None)` hits no `isinstance`
case and returns `"unknown"`. -/
def visit_expression : Option Expr → SemState → SemState × String
  | some e, st => visit_expr e st
  | none, st => (st, "unknown")

/-- The `for arg in node.arguments` loop of `visit_function_call`. -/
def visit_arguments : List Expr → SemState → SemState
  | [], st => st
  | a :: rest, st => visit_arguments rest (visit_expr a st).1

/-- `SemanticAnalyzer.visit_statement` dispatch and the visit methods. -/
def visit_statement : Stmt → SemState → SemState
  | .varDeclaration name _ init _ln _col, st =>
      match st.symbol_table.declare name "auto" with
      | (false, _) =>
          st.add_error ("Variable " ++ sq ++ name ++ sq ++ " already declared") _ln _col
          -- `return`: the initializer is not visited
      | (true, tbl) =>
          let st1 : SemState := { st with symbol_table := tbl }
          match init with
          | some _ => (visit_expression init st1).1
          | none => st1
  | .assignment target value _ln _col, st =>
      match st.symbol_table.lookup target with
      | none =>
          st.add_error ("Undeclared variable " ++ sq ++ target ++ sq) _ln _col
      | some _ =>
          match value with
          | some _ => (visit_expression value st).1
          | none => st
  | .ifStatement cond thenB elseB ln col, st =>
      let (st1, ct) := visit_expression cond st
      let st2 := if ct ≠ "bool" then
          st1.add_error ("If condition must be bool, got " ++ ct) ln col
        else st1
      let st3 := visit_statements thenB st2
      (match elseB with
       | some l => visit_statements l st3
       | none => st3)
  | .whileStatement cond body ln col, st =>
      let (st1, ct) := visit_expression cond st
      let st2 := if ct ≠ "bool" then
          st1.add_error ("While condition must be bool, got " ++ ct) ln col
        else st1
      visit_statements body st2
  | .forStatement init cond update body ln col, st =>
      let st1 : SemState := { st with symbol_table := st.symbol_table.enter_scope }
      let st2 := match init with
        | some s => visit_statement s st1
        | none => st1
      let st3 := match cond with
        | some _ =>
            let (stc, ct) := visit_expression cond st2
            if ct ≠ "bool" then
              stc.add_error ("For condition must be bool, got " ++ ct) ln col
            else stc
        | none => st2
      let st4 := match update with
        | some s => visit_statement s st3
        | none => st3
      let st5 := visit_statements body st4
      { st5 with symbol_table := st5.symbol_table.exit_scope }
  | .functionDeclaration name params body _ln _col, st =>
      match st.symbol_table.declare name "func" true with
      | (false, _) =>
          st.add_error ("Function " ++ sq ++ name ++ sq ++ " already declared") _ln _col
          -- `return`: the body is not visited
      | (true, tbl) =>
          let st1 : SemState := { st with symbol_table := tbl.enter_scope }
          let st2 : SemState :=
            { st1 with symbol_table := declare_params params st1.symbol_table }
          let st3 := visit_statements body st2
          { st3 with symbol_table := st3.symbol_table.exit_scope }
  | .returnStatement value _ _, st =>
      match value with
      | some _ => (visit_expression value st).1
      | none => st
  | .printStatement value _ _, st =>
      match value with
      | some _ => (visit_expression value st).1
      | none => st

def visit_statements : List Stmt → SemState → SemState
  | [], st => st
  | s :: rest, st => visit_statements rest (visit_statement s st)

end

/-- `SemanticAnalyzer.analyze`: visit the program, then report success
iff no error was recorded (`SemanticError` is never raised, so the
`except` branch is dead). -/
def analyze (p : Program) : Bool × SemState :=
  let st := visit_statements p.statements {}
  (st.errors.isEmpty, st)

end SemanticAnalyzer

/-! ### Semantic analyzer facts: C7 -/

/-- `var x; var x = y;` — a redeclaration whose initializer mentions an
undeclared variable. -/
def c7RedeclProg : Program :=
  ⟨[.varDeclaration "x" none none 1 1,
    .varDeclaration "x" none (some (.identifier "y" 1 17)) 1 9]⟩

/-- `var z = f(b);` with `f` and `b` both undeclared. -/
def c7CallProg : Program :=
  ⟨[.varDeclaration "z" none
      (some (.functionCall "f" [.identifier "b" 1 9] 1 5)) 1 1]⟩

/-- `print y; print z;` with both variables undeclared. -/
def c7TwoErrProg : Program :=
  ⟨[.printStatement (some (.identifier "y" 1 7)) 1 1,
    .printStatement (some (.identifier "z" 2 7)) 2 1]⟩

/-- C7: COUNTEREXAMPLE.  On `var x; var x = y;` the analyzer records
only the redeclaration error and returns from `visit_var_declaration`
without visiting the initializer, so the undeclared `y` inside the
skipped subtree is never reported — contradicting "after a
redeclaration conflict on a VarDeclaration it still visits the
initializer expression … so errors inside those subtrees are also
reported". -/
theorem c7_redeclaration_skips_initializer :
    (SemanticAnalyzer.analyze c7RedeclProg).2.errors =
      ["Line 1, Column 9: Variable " ++ sq ++ "x" ++ sq ++ " already declared"] ∧
    ("Line 1, Column 17: Undeclared variable " ++ sq ++ "y" ++ sq) ∉
      (SemanticAnalyzer.analyze c7RedeclProg).2.errors :=
  ⟨rfl, by decide⟩

/-- C7 (amended): `analyze` returns `false` iff at least one error was
recorded, and the analyzer keeps visiting *subsequent statements* after
an error (both undeclared uses in `print y; print z;` are reported);
but it is not fully best-effort inside a failed construct: after a
redeclaration conflict the initializer is skipped, and after an
undeclared callee the call's arguments are skipped. -/
theorem c7_analyze_false_iff_errors_but_skips_subtrees :
    (∀ p : Program,
       (SemanticAnalyzer.analyze p).1 = true ↔ (SemanticAnalyzer.analyze p).2.errors = []) ∧
    (SemanticAnalyzer.analyze c7TwoErrProg).2.errors =
      ["Line 1, Column 7: Undeclared variable " ++ sq ++ "y" ++ sq,
       "Line 2, Column 7: Undeclared variable " ++ sq ++ "z" ++ sq] ∧
    (SemanticAnalyzer.analyze c7TwoErrProg).1 = false ∧
    (SemanticAnalyzer.analyze c7RedeclProg).2.errors =
      ["Line 1, Column 9: Variable " ++ sq ++ "x" ++ sq ++ " already declared"] ∧
    (SemanticAnalyzer.analyze c7CallProg).2.errors =
      ["Line 1, Column 5: Undeclared function " ++ sq ++ "f" ++ sq] ∧
    ("Line 1, Column 9: Undeclared variable " ++ sq ++ "b" ++ sq) ∉
      (SemanticAnalyzer.analyze c7CallProg).2.errors := by
  refine ⟨fun p => ?_, rfl, rfl, rfl, rfl, by decide⟩
  simp [SemanticAnalyzer.analyze, List.isEmpty_iff]

/-! ### TAC generator (`tac_generator.py`)

`TAC` mirrors the instruction class (`None` fields become `none`);
`GenState` carries the emitted list and the two counters.  Temporaries
`f"t{i}"` and labels `f"L{i}"` are built character by character from
the decimal rendering. -/

structure TAC where
  op : String
  arg1 : Option String := none
  arg2 : Option String := none
  result : Option String := none
deriving DecidableEq, Repr

structure GenState where
  tac_code : List TAC := []
  temp_counter : Nat := 0
  label_counter : Nat := 0
deriving DecidableEq, Repr

/-- `f"t{i}"`. -/
def tempName (i : Nat) : String := String.mk ('t' :: decChars i)

/-- `f"L{i}"`. -/
def labelName (i : Nat) : String := String.mk ('L' :: decChars i)

/-- `TACGenerator.new_temp`. -/
def GenState.new_temp (g : GenState) : GenState × String :=
  ({ g with temp_counter := g.temp_counter + 1 }, tempName (g.temp_counter + 1))

/-- `TACGenerator.new_label`. -/
def GenState.new_label (g : GenState) : GenState × String :=
  ({ g with label_counter := g.label_counter + 1 }, labelName (g.label_counter + 1))

/-- `TACGenerator.emit`. -/
def GenState.emit (g : GenState) (op : String) (arg1 arg2 result : Option String) : GenState :=
  { g with tac_code := g.tac_code ++ [⟨op, arg1, arg2, result⟩] }

/-- Python `str` on the int of an `IntLiteral`. -/
def intStr (v : Int) : String :=
  if v < 0 then String.mk ('-' :: decChars v.natAbs) else String.mk (decChars v.toNat)

/-- `f'"{value}"'` for a `StringLiteral`. -/
def strLitStr (v : String) : String := String.mk ('"' :: v.data ++ ['"'])

namespace TACGenerator

/-- The `for param in node.parameters` loop of
`visit_function_declaration`. -/
def emit_params : List String → GenState → GenState
  | [], g => g
  | p :: rest, g => emit_params rest (g.emit "PARAM" (some p) none none)

mutual

/-- `TACGenerator.visit_expression` on a real node (the `None` arm of
the dispatch is in the wrapper below; `ArrayAccess` matches no
`isinstance` arm and yields `"unknown"`). -/
def visit_expr : Expr → GenState → GenState × String
  | .binaryOp l op r _ _, g =>
      let (g1, left) := visit_expression l g
      let (g2, right) := visit_expression r g1
      let (g3, res) := g2.new_temp
      (g3.emit op (some left) (some right) (some res), res)
  | .unaryOp op e _ _, g =>
      let (g1, operand) := visit_expression e g
      let (g2, res) := g1.new_temp
      (g2.emit op (some operand) none (some res), res)
  | .identifier n _ _, g => (g, n)
  | .intLit v _ _, g => (g, intStr v)
  | .floatLit v _ _, g => (g, v)
  | .stringLit v _ _, g => (g, strLitStr v)
  | .boolLit b _ _, g => (g, if b then "true" else "false")
  | .functionCall n args _ _, g =>
      let (g1, res) := g.new_temp
      let g2 := visit_call_args args g1
      (g2.emit "CALL" (some n) none (some res), res)
  | .arrayAccess _ _ _ _, g => (g, "unknown")

/-- Dispatch wrapper: `visit_expression(None)` returns `"unknown"`. -/
def visit_expression : Option Expr → GenState → GenState × String
  | some e, g => visit_expr e g
  | none, g => (g, "unknown")

/-- The argument loop of `visit_function_call`: visit, emit `ARG`. -/
def visit_call_args : List Expr → GenState → GenState
  | [], g => g
  | a :: rest, g =>
      let (g1, r) := visit_expr a g
      visit_call_args rest (g1.emit "ARG" (some r) none none)

/-- `TACGenerator.visit_statement` dispatch and the visit methods. -/
def visit_statement : Stmt → GenState → GenState
  | .varDeclaration name _ init _ _, g =>
      (match init with
       | some _ =>
           let (g1, r) := visit_expression init g
           g1.emit "ASSIGN" (some r) none (some name)
       | none => g)
  | .assignment target value _ _, g =>
      let (g1, r) := visit_expression value g
      g1.emit "ASSIGN" (some r) none (some target)
  | .ifStatement cond thenB elseB _ _, g =>
      let (g1, c) := visit_expression cond g
      let (g2, falseL) := g1.new_label
      let (g3, endL) := g2.new_label
      let g4 := g3.emit "IF_FALSE" (some c) (some falseL) none
      let g5 := visit_statements thenB g4
      let g6 := g5.emit "GOTO" (some endL) none none
      let g7 := g6.emit "LABEL" (some falseL) none none
      let g8 := (match elseB with
                 | some l => visit_statements l g7
                 | none => g7)
      g8.emit "LABEL" (some endL) none none
  | .whileStatement cond body _ _, g =>
      let (g1, loopL) := g.new_label
      let (g2, endL) := g1.new_label
      let g3 := g2.emit "LABEL" (some loopL) none none
      let (g4, c) := visit_expression cond g3
      let g5 := g4.emit "IF_FALSE" (some c) (some endL) none
      let g6 := visit_statements body g5
      let g7 := g6.emit "GOTO" (some loopL) none none
      g7.emit "LABEL" (some endL) none none
  | .forStatement init cond update body _ _, g =>
      let g1 := (match init with
                 | some i => visit_statement i g
                 | none => g)
      let (g2, loopL) := g1.new_label
      let (g3, endL) := g2.new_label
      let g4 := g3.emit "LABEL" (some loopL) none none
      let g5 := (match cond with
                 | some _ =>
                     let (gc, c) := visit_expression cond g4
                     gc.emit "IF_FALSE" (some c) (some endL) none
                 | none => g4)
      let g6 := visit_statements body g5
      let g7 := (match update with
                 | some u => visit_statement u g6
                 | none => g6)
      let g8 := g7.emit "GOTO" (some loopL) none none
      g8.emit "LABEL" (some endL) none none
  | .functionDeclaration name params body _ _, g =>
      let g1 := g.emit "FUNCTION" (some name) none none
      let g2 := emit_params params g1
      let g3 := visit_statements body g2
      g3.emit "RETURN" none none none
  | .returnStatement value _ _, g =>
      (match value with
       | some _ =>
           let (g1, r) := visit_expression value g
           g1.emit "RETURN" (some r) none none
       | none => g.emit "RETURN" none none none)
  | .printStatement value _ _, g =>
      let (g1, r) := visit_expression value g
      g1.emit "PRINT" (some r) none none

def visit_statements : List Stmt → GenState → GenState
  | [], g => g
  | s :: rest, g => visit_statements rest (visit_statement s g)

end

/-- `TACGenerator.generate` starting from a fresh generator. -/
def generate (p : Program) : GenState := visit_statements p.statements {}

end TACGenerator

/-! ### Properties of the generated TAC -/

/-- `ins` references label `s` (a conditional or unconditional jump). -/
def refsLabel (ins : TAC) (s : String) : Bool :=
  (ins.op == "GOTO" && ins.arg1 == some s) || (ins.op == "IF_FALSE" && ins.arg2 == some s)

/-- Every `LABEL` instruction's name is referenced somewhere in `code`. -/
def labelsResolved (code : List TAC) : Prop :=
  ∀ ins ∈ code, ins.op = "LABEL" → ∀ s, ins.arg1 = some s →
    ∃ ins2 ∈ code, refsLabel ins2 s = true

/-- The label names of the `LABEL` instructions, in emission order. -/
def labelNames (code : List TAC) : List String :=
  code.filterMap (fun ins => if ins.op == "LABEL" then ins.arg1 else none)

/-- Number of `LABEL s` instructions in `code`. -/
def labelCount (code : List TAC) (s : String) : Nat :=
  code.countP (fun ins => ins.op == "LABEL" && ins.arg1 == some s)

/-- Number of instructions whose `result` is the temporary `t{i}`. -/
def tempCount (code : List TAC) (i : Nat) : Nat :=
  code.countP (fun ins => ins.result == some (tempName i))

/-- Some instruction of `code` has `result` `s`. -/
def definedIn (code : List TAC) (s : String) : Prop :=
  ∃ ins ∈ code, ins.result = some s

/-- Every temporary among the arguments of `ins` is defined in `pre`. -/
def usesOk (pre : List TAC) (ins : TAC) : Prop :=
  ∀ i, 1 ≤ i → (ins.arg1 = some (tempName i) ∨ ins.arg2 = some (tempName i)) →
    definedIn pre (tempName i)

/-- Definition before use: at every split of `code`, the temporaries
used by the middle instruction are results of strictly earlier ones. -/
def defBefore (code : List TAC) : Prop :=
  ∀ u ins v, code = u ++ ins :: v → usesOk u ins

/-- A string of the shape `t<digits>` (every `tempName i` is one). -/
def isTempStrB (s : String) : Bool :=
  match s.data with
  | 't' :: c :: rest => (c :: rest).all Char.isDigit
  | _ => false

/-! Clash-freedom: no name or literal rendering contributed by the
program has the shape of a generated temporary. -/

mutual

def exprClashFree : Expr → Bool
  | .binaryOp l _ r _ _ => exprOptClashFree l && exprOptClashFree r
  | .unaryOp _ e _ _ => exprOptClashFree e
  | .identifier n _ _ => !isTempStrB n
  | .intLit _ _ _ => true
  | .floatLit v _ _ => !isTempStrB v
  | .stringLit _ _ _ => true
  | .boolLit _ _ _ => true
  | .functionCall n args _ _ => !isTempStrB n && exprListClashFree args
  | .arrayAccess _ _ _ _ => true

def exprOptClashFree : Option Expr → Bool
  | some e => exprClashFree e
  | none => true

def exprListClashFree : List Expr → Bool
  | [] => true
  | a :: rest => exprClashFree a && exprListClashFree rest

def stmtClashFree : Stmt → Bool
  | .varDeclaration name _ init _ _ => !isTempStrB name && exprOptClashFree init
  | .assignment target value _ _ => !isTempStrB target && exprOptClashFree value
  | .ifStatement cond thenB elseB _ _ =>
      exprOptClashFree cond && stmtListClashFree thenB && stmtListOptClashFree elseB
  | .whileStatement cond body _ _ => exprOptClashFree cond && stmtListClashFree body
  | .forStatement init cond update body _ _ =>
      stmtOptClashFree init && exprOptClashFree cond && stmtOptClashFree update &&
        stmtListClashFree body
  | .functionDeclaration name params body _ _ =>
      !isTempStrB name && params.all (fun p => !isTempStrB p) && stmtListClashFree body
  | .returnStatement v _ _ => exprOptClashFree v
  | .printStatement v _ _ => exprOptClashFree v

def stmtOptClashFree : Option Stmt → Bool
  | some s => stmtClashFree s
  | none => true

def stmtListOptClashFree : Option (List Stmt) → Bool
  | some l => stmtListClashFree l
  | none => true

def stmtListClashFree : List Stmt → Bool
  | [] => true
  | s :: rest => stmtClashFree s && stmtListClashFree rest

end

def noTempClash (p : Program) : Bool := stmtListClashFree p.statements

/-! `noBareFor`: no `for` statement without a condition (whose end
label is emitted but never referenced). -/

mutual

def stmtNoBareFor : Stmt → Bool
  | .ifStatement _ thenB elseB _ _ =>
      stmtsNoBareFor thenB && stmtsOptNoBareFor elseB
  | .whileStatement _ body _ _ => stmtsNoBareFor body
  | .forStatement init cond update body _ _ =>
      cond.isSome && stmtOptNoBareFor init && stmtOptNoBareFor update &&
        stmtsNoBareFor body
  | .functionDeclaration _ _ body _ _ => stmtsNoBareFor body
  | _ => true

def stmtOptNoBareFor : Option Stmt → Bool
  | some s => stmtNoBareFor s
  | none => true

def stmtsOptNoBareFor : Option (List Stmt) → Bool
  | some l => stmtsNoBareFor l
  | none => true

def stmtsNoBareFor : List Stmt → Bool
  | [] => true
  | s :: rest => stmtNoBareFor s && stmtsNoBareFor rest

end

def programNoBareFor (p : Program) : Bool := stmtsNoBareFor p.statements

/-! Name-shape lemmas. -/

theorem strMk_inj {a b : List Char} (h : String.mk a = String.mk b) : a = b :=
  congrArg String.data h

theorem tempName_injective : Function.Injective tempName := by
  intro a b h
  have h1 := strMk_inj h
  injection h1 with _ h2
  exact decChars_injective h2

theorem labelName_injective : Function.Injective labelName := by
  intro a b h
  have h1 := strMk_inj h
  injection h1 with _ h2
  exact decChars_injective h2

theorem labelName_ne_tempName (i j : Nat) : labelName i ≠ tempName j := by
  intro h
  have h1 := strMk_inj h
  injection h1 with h2 _
  exact absurd h2 (by decide)

theorem isTempStrB_tempName (i : Nat) : isTempStrB (tempName i) = true := by
  unfold isTempStrB tempName
  rcases h : decChars i with _ | ⟨c, rest⟩
  · exact absurd h (decChars_ne_nil i)
  · simp only [List.all_eq_true]
    intro x hx
    exact decChars_all_digits i x (h ▸ hx)

theorem ne_tempName_of_not_isTempStrB {s : String} (h : isTempStrB s = false) :
    ∀ i, s ≠ tempName i := by
  intro i heq
  rw [heq, isTempStrB_tempName] at h
  cases h

theorem true_ne_tempName (i : Nat) : ("true" : String) ≠ tempName i := by
  intro h
  have h2 : (['t', 'r', 'u', 'e'] : List Char) = 't' :: decChars i :=
    congrArg String.data h
  injection h2 with _ h3
  have hm : ('r' : Char) ∈ decChars i := by rw [← h3]; simp
  exact absurd (decChars_all_digits i 'r' hm) (by decide)

theorem false_ne_tempName (i : Nat) : ("false" : String) ≠ tempName i := by
  intro h
  have h2 : (['f', 'a', 'l', 's', 'e'] : List Char) = 't' :: decChars i :=
    congrArg String.data h
  injection h2 with h3 _
  exact absurd h3 (by decide)

theorem unknown_ne_tempName (i : Nat) : ("unknown" : String) ≠ tempName i := by
  intro h
  have h2 : (['u', 'n', 'k', 'n', 'o', 'w', 'n'] : List Char) = 't' :: decChars i :=
    congrArg String.data h
  injection h2 with h3 _
  exact absurd h3 (by decide)

theorem intStr_ne_tempName (v : Int) (i : Nat) : intStr v ≠ tempName i := by
  intro h
  unfold intStr at h
  by_cases hv : v < 0
  · rw [if_pos hv] at h
    have h1 := strMk_inj h
    injection h1 with h2 _
    exact absurd h2 (by decide)
  · rw [if_neg hv] at h
    have h1 : decChars v.toNat = 't' :: decChars i := strMk_inj h
    have hm : ('t' : Char) ∈ decChars v.toNat := by rw [h1]; simp
    exact absurd (decChars_all_digits _ 't' hm) (by decide)

theorem strLitStr_ne_tempName (v : String) (i : Nat) : strLitStr v ≠ tempName i := by
  intro h
  have h1 := strMk_inj h
  injection h1 with h2 _
  exact absurd h2 (by decide)

/-! ### TAC counterexample programs -/

/-- `for (;;) { }`: a `ForStatement` with no condition. -/
def c4Prog : Program := ⟨[.forStatement none none none [] 1 1]⟩

/-- `var x = f(1 + 2);`: a call whose argument is compound. -/
def c5Prog : Program :=
  ⟨[.varDeclaration "x" none
      (some (.functionCall "f"
        [.binaryOp (some (.intLit 1 1 9)) "+" (some (.intLit 2 1 13)) 1 11] 1 5)) 1 1]⟩

/-- `if (a) { if (b) { } }`: nested control flow. -/
def c5NestProg : Program :=
  ⟨[.ifStatement (some (.identifier "a" 1 5))
      [.ifStatement (some (.identifier "b" 2 7)) [] none 2 3] none 1 1]⟩

/-- `var x = t1;`: a program identifier spelled like a temporary. -/
def c10Prog : Program := ⟨[.varDeclaration "x" none (some (.identifier "t1" 1 9)) 1 1]⟩

/-- C4: COUNTEREXAMPLE.  For `for (;;) { }` the generated TAC is
`LABEL L1; GOTO L1; LABEL L2`: the loop's end label `L2` is emitted but
no `IF_FALSE _, L2` or `GOTO L2` exists, since the `IF_FALSE` is only
emitted when the for-statement has a condition. -/
theorem c4_for_end_label_unreferenced :
    (TACGenerator.generate c4Prog).tac_code =
      [⟨"LABEL", some "L1", none, none⟩, ⟨"GOTO", some "L1", none, none⟩,
       ⟨"LABEL", some "L2", none, none⟩] ∧
    ¬ labelsResolved (TACGenerator.generate c4Prog).tac_code := by
  refine ⟨rfl, fun h => ?_⟩
  have hcode : (TACGenerator.generate c4Prog).tac_code =
      [⟨"LABEL", some "L1", none, none⟩, ⟨"GOTO", some "L1", none, none⟩,
       ⟨"LABEL", some "L2", none, none⟩] := rfl
  have hmem : (⟨"LABEL", some "L2", none, none⟩ : TAC) ∈
      (TACGenerator.generate c4Prog).tac_code := by rw [hcode]; simp
  obtain ⟨ins2, h2, href⟩ := h _ hmem rfl "L2" rfl
  rw [hcode] at h2
  simp only [List.mem_cons, List.mem_singleton, List.not_mem_nil, or_false] at h2
  rcases h2 with rfl | rfl | rfl <;> exact absurd href (by decide)

/-- C5: COUNTEREXAMPLE.  In `var x = f(1 + 2);` the call's result
temporary `t1` is allocated before the argument's temporary `t2`, so
the first temporary-assigning instruction of the TAC assigns `t2`, not
`t1`; and in `if (a) { if (b) { } }` the first `LABEL` instruction
emits `L3`, not `L1` — emission order is not `t1..tN` / `L1..LM`. -/
theorem c5_emission_order_counterexample :
    (TACGenerator.generate c5Prog).tac_code =
      [⟨"+", some "1", some "2", some "t2"⟩, ⟨"ARG", some "t2", none, none⟩,
       ⟨"CALL", some "f", none, some "t1"⟩, ⟨"ASSIGN", some "t1", none, some "x"⟩] ∧
    "t2" = tempName 2 ∧ ("t2" : String) ≠ tempName 1 ∧
    labelNames (TACGenerator.generate c5NestProg).tac_code = ["L3", "L4", "L1", "L2"] ∧
    ("L3" : String) ≠ labelName 1 :=
  ⟨rfl, rfl, by decide, rfl, by decide⟩

/-- C10: COUNTEREXAMPLE.  On `var x = t1;` the generated TAC is the
single instruction `ASSIGN t1 → x`: the name `t1` (= `tempName 1`)
occurs as `arg1` but no earlier instruction has it as `result`, so the
claim read over all AST programs fails when a program identifier is
spelled like a temporary. -/
theorem c10_user_name_shaped_like_temp :
    (TACGenerator.generate c10Prog).tac_code =
      [⟨"ASSIGN", some "t1", none, some "x"⟩] ∧
    ¬ defBefore (TACGenerator.generate c10Prog).tac_code := by
  refine ⟨rfl, fun h => ?_⟩
  have h1 := h [] ⟨"ASSIGN", some "t1", none, some "x"⟩ [] rfl
  have h2 := h1 1 (le_refl 1) (Or.inl rfl)
  obtain ⟨ins, hins, _⟩ := h2
  exact absurd hins (List.not_mem_nil ins)

/-! ### Composition lemmas for the generator invariants -/

/-- The temporaries of `r` (if it is one) are defined in `code`. -/
def argDef (code : List TAC) (r : String) : Prop :=
  ∀ i, 1 ≤ i → r = tempName i → definedIn code (tempName i)

theorem definedIn_append_left {code : List TAC} {s : String} (more : List TAC)
    (h : definedIn code s) : definedIn (code ++ more) s := by
  obtain ⟨ins, hmem, hres⟩ := h
  exact ⟨ins, List.mem_append_left _ hmem, hres⟩

theorem argDef_mono {code : List TAC} {r : String} (more : List TAC)
    (h : argDef code r) : argDef (code ++ more) r :=
  fun i hi he => definedIn_append_left more (h i hi he)

theorem argDef_of_ne {r : String} (h : ∀ i, r ≠ tempName i) (code : List TAC) :
    argDef code r := fun i _ he => absurd he (h i)

theorem defBefore_nil : defBefore [] := by
  intro u ins v h
  exact absurd h.symm (by simp)

theorem snoc_eq_append_cons {α : Type} :
    ∀ (u : List α) (code : List α) (x ins : α) (v : List α),
      code ++ [x] = u ++ ins :: v →
      (u = code ∧ ins = x ∧ v = []) ∨ (∃ v', code = u ++ ins :: v' ∧ v = v' ++ [x])
  | [], code, x, ins, v, h => by
      cases code with
      | nil =>
          simp only [List.nil_append] at h
          exact Or.inl ⟨rfl, (List.cons.injEq .. ▸ h : _ ∧ _).1.symm,
            ((List.cons.injEq .. ▸ h : _ ∧ _).2).symm⟩
      | cons c cs =>
          simp only [List.cons_append, List.nil_append] at h
          obtain ⟨h1, h2⟩ := List.cons.injEq .. ▸ h
          exact Or.inr ⟨cs, by rw [h1]; simp, h2.symm⟩
  | a :: us, code, x, ins, v, h => by
      cases code with
      | nil =>
          simp only [List.nil_append, List.cons_append] at h
          obtain ⟨_, h2⟩ := List.cons.injEq .. ▸ h
          exact absurd h2.symm (by simp)
      | cons c cs =>
          simp only [List.cons_append] at h
          obtain ⟨h1, h2⟩ := List.cons.injEq .. ▸ h
          rcases snoc_eq_append_cons us cs x ins v h2 with ⟨hu, hi, hv⟩ | ⟨v', hc, hv⟩
          · exact Or.inl ⟨by rw [h1, hu], hi, hv⟩
          · exact Or.inr ⟨v', by rw [h1, hc, List.cons_append], hv⟩

theorem defBefore_snoc {code : List TAC} {ins : TAC}
    (h1 : defBefore code) (h2 : usesOk code ins) : defBefore (code ++ [ins]) := by
  intro u ins' v heq
  rcases snoc_eq_append_cons u code ins ins' v heq with ⟨rfl, rfl, rfl⟩ | ⟨v', hc, rfl⟩
  · exact h2
  · exact h1 u ins' v' hc

theorem usesOk_mk {pre : List TAC} {a1 a2 : Option String} (op : String)
    (r : Option String)
    (h1 : ∀ i, 1 ≤ i → a1 = some (tempName i) → definedIn pre (tempName i))
    (h2 : ∀ i, 1 ≤ i → a2 = some (tempName i) → definedIn pre (tempName i)) :
    usesOk pre ⟨op, a1, a2, r⟩ := by
  intro i hi hargs
  rcases hargs with h | h
  · exact h1 i hi h
  · exact h2 i hi h

/-- `argDef` for a `some` argument, phrased on `Option`. -/
theorem optArg_ok {pre : List TAC} {s : String} (h : argDef pre s) :
    ∀ i, 1 ≤ i → some s = some (tempName i) → definedIn pre (tempName i) := by
  intro i hi he
  exact h i hi (Option.some.injEq .. ▸ he)

theorem noneArg_ok {pre : List TAC} :
    ∀ i, 1 ≤ i → (none : Option String) = some (tempName i) → definedIn pre (tempName i) := by
  intro i _ he
  cases he

/-- A freshly assigned temporary is defined at its own instruction. -/
theorem argDef_fresh {code : List TAC} {op : String} {a1 a2 : Option String} {j : Nat} :
    argDef (code ++ [⟨op, a1, a2, some (tempName j)⟩]) (tempName j) := by
  intro i _ he
  refine ⟨⟨op, a1, a2, some (tempName j)⟩, List.mem_append_right _ (by simp), ?_⟩
  rw [← he]

theorem tempCount_nil (i : Nat) : tempCount [] i = 0 := rfl

theorem tempCount_append (u v : List TAC) (i : Nat) :
    tempCount (u ++ v) i = tempCount u i + tempCount v i :=
  List.countP_append _ _ _

theorem tempCount_single_fresh (op : String) (a1 a2 : Option String) (j i : Nat) :
    tempCount [⟨op, a1, a2, some (tempName j)⟩] i = if i = j then 1 else 0 := by
  simp only [tempCount, List.countP, List.countP.go]
  by_cases h : i = j
  · subst h; simp
  · have : tempName j ≠ tempName i := fun he => h (tempName_injective he).symm
    simp [beq_eq_false_iff_ne.mpr this, h]

theorem tempCount_single_none (op : String) (a1 a2 : Option String) (i : Nat) :
    tempCount [⟨op, a1, a2, none⟩] i = 0 := by
  simp [tempCount, List.countP, List.countP.go]

theorem tempCount_single_other {s : String} (op : String) (a1 a2 : Option String)
    (hs : ∀ k, s ≠ tempName k) (i : Nat) :
    tempCount [⟨op, a1, a2, some s⟩] i = 0 := by
  simp [tempCount, List.countP, List.countP.go, beq_eq_false_iff_ne.mpr (hs i)]

/-- Indicator arithmetic for temporary-count ranges. -/
theorem tempIndicator_trans {a b c i : Nat} (hab : a ≤ b) (hbc : b ≤ c) :
    ((if a < i ∧ i ≤ b then 1 else 0) + if b < i ∧ i ≤ c then 1 else 0) =
      if a < i ∧ i ≤ c then 1 else 0 := by
  split_ifs <;> omega

theorem labelCount_nil (s : String) : labelCount [] s = 0 := rfl

theorem labelCount_append (u v : List TAC) (s : String) :
    labelCount (u ++ v) s = labelCount u s + labelCount v s :=
  List.countP_append _ _ _

theorem labelCount_single_label (a1 : Option String) (s : String) :
    labelCount [⟨"LABEL", a1, none, none⟩] s = if a1 = some s then 1 else 0 := by
  simp only [labelCount, List.countP, List.countP.go]
  by_cases h : a1 = some s
  · subst h; simp
  · simp [beq_eq_false_iff_ne.mpr h, h]

theorem labelCount_single_other {op : String} (hop : op ≠ "LABEL")
    (a1 a2 r : Option String) (s : String) :
    labelCount [⟨op, a1, a2, r⟩] s = 0 := by
  simp [labelCount, List.countP, List.countP.go, beq_eq_false_iff_ne.mpr hop]

/-- Number of indices in `(a, b]` whose label name is `s` (the target
value of `labelCount` over a segment generated from counter `a` to
counter `b`). -/
def labelTarget (a b : Nat) (s : String) : Nat :=
  ((Finset.Ioc a b).filter (fun i => labelName i = s)).card

theorem labelTarget_self (a : Nat) (s : String) : labelTarget a a s = 0 := by
  simp [labelTarget]

theorem labelTarget_trans {a b c : Nat} (hab : a ≤ b) (hbc : b ≤ c) (s : String) :
    labelTarget a b s + labelTarget b c s = labelTarget a c s := by
  unfold labelTarget
  rw [← Finset.card_union_of_disjoint
        (Finset.disjoint_filter_filter (by
          simp only [Finset.disjoint_left, Finset.mem_Ioc]
          intro x hx hy
          omega)),
      ← Finset.filter_union, Finset.Ioc_union_Ioc_eq_Ioc hab hbc]

theorem labelTarget_succ (b : Nat) (s : String) :
    labelTarget b (b + 1) s = if some (labelName (b + 1)) = some s then 1 else 0 := by
  unfold labelTarget
  rw [show Finset.Ioc b (b + 1) = {b + 1} from by
      ext x
      simp only [Finset.mem_Ioc, Finset.mem_singleton]
      omega,
    Finset.filter_singleton]
  by_cases h : labelName (b + 1) = s <;> simp [h]

theorem labelTarget_le_one (a b : Nat) (s : String) : labelTarget a b s ≤ 1 := by
  unfold labelTarget
  refine Finset.card_le_one.mpr ?_
  intro x hx y hy
  simp only [Finset.mem_filter] at hx hy
  exact labelName_injective (hx.2.trans hy.2.symm)

/-- `labelsResolved` also serves as the per-segment property; it is
preserved by concatenation. -/
theorem labelsResolved_nil : labelsResolved [] := by
  intro ins h
  exact absurd h (List.not_mem_nil ins)

theorem labelsResolved_append {u v : List TAC}
    (hu : labelsResolved u) (hv : labelsResolved v) : labelsResolved (u ++ v) := by
  intro ins hmem hop s harg
  rcases List.mem_append.mp hmem with h | h
  · obtain ⟨ins2, h2, href⟩ := hu ins h hop s harg
    exact ⟨ins2, List.mem_append_left _ h2, href⟩
  · obtain ⟨ins2, h2, href⟩ := hv ins h hop s harg
    exact ⟨ins2, List.mem_append_right _ h2, href⟩

theorem labelsResolved_of_no_labels {seg : List TAC}
    (h : ∀ ins ∈ seg, ins.op ≠ "LABEL") : labelsResolved seg := by
  intro ins hmem hop
  exact absurd hop (h ins hmem)

/-! ### The temporary/def-before-use invariant (Group B) -/

/-- What one generator step guarantees about temporaries: the code
grows by a segment whose instruction results cover the temporaries
allocated during the step exactly once each, and definition-before-use
is preserved. -/
def StmtPostB (g g' : GenState) : Prop :=
  ∃ seg, g'.tac_code = g.tac_code ++ seg ∧
    g.temp_counter ≤ g'.temp_counter ∧
    (∀ i, 1 ≤ i → tempCount seg i =
      if g.temp_counter < i ∧ i ≤ g'.temp_counter then 1 else 0) ∧
    (defBefore g.tac_code → defBefore g'.tac_code)

/-- The expression form additionally delivers a usable result string. -/
def ExprPostB (g g' : GenState) (res : String) : Prop :=
  StmtPostB g g' ∧ argDef g'.tac_code res

def StmtPostB.refl (g : GenState) : StmtPostB g g :=
  ⟨[], by simp, le_refl _, fun i _ => by rw [tempCount_nil]; split_ifs <;> omega, id⟩

def StmtPostB.trans {g1 g2 g3 : GenState}
    (h12 : StmtPostB g1 g2) (h23 : StmtPostB g2 g3) : StmtPostB g1 g3 := by
  obtain ⟨s1, ha1, hm1, hc1, hd1⟩ := h12
  obtain ⟨s2, ha2, hm2, hc2, hd2⟩ := h23
  refine ⟨s1 ++ s2, ?_, le_trans hm1 hm2, ?_, fun hdb => hd2 (hd1 hdb)⟩
  · rw [ha2, ha1, List.append_assoc]
  · intro i hi
    rw [tempCount_append, hc1 i hi, hc2 i hi]
    split_ifs <;> omega

/-- Emitting one instruction whose result is not a temporary and whose
temporary arguments are already defined. -/
theorem stmtPostB_emit (g : GenState) (op : String) (a1 a2 r : Option String)
    (hr : ∀ s, r = some s → ∀ k, s ≠ tempName k)
    (h1 : ∀ i, 1 ≤ i → a1 = some (tempName i) → definedIn g.tac_code (tempName i))
    (h2 : ∀ i, 1 ≤ i → a2 = some (tempName i) → definedIn g.tac_code (tempName i)) :
    StmtPostB g (g.emit op a1 a2 r) := by
  refine ⟨[⟨op, a1, a2, r⟩], rfl, le_refl _, ?_, ?_⟩
  · intro i hi
    dsimp only [GenState.emit]
    rcases r with _ | s
    · rw [tempCount_single_none]
      split_ifs <;> omega
    · rw [tempCount_single_other op a1 a2 (hr s rfl)]
      split_ifs <;> omega
  · intro hdb
    exact defBefore_snoc hdb (usesOk_mk op r h1 h2)

/-- Pure counter changes leave the code and the temporaries alone. -/
theorem stmtPostB_label_counter (g : GenState) (lc : Nat) :
    StmtPostB g { g with label_counter := lc } :=
  ⟨[], by simp, le_refl _,
   fun i _ => by dsimp only; rw [tempCount_nil]; split_ifs <;> omega, id⟩

/-- After some step `g ⟶ gc`, allocate a fresh temporary and emit an
instruction assigning it (the `visit_binary_op`/`visit_unary_op` tail). -/
theorem exprPostB_step_fresh {g gc : GenState} (h : StmtPostB g gc)
    (op : String) (a1 a2 : Option String)
    (h1 : ∀ i, 1 ≤ i → a1 = some (tempName i) → definedIn gc.tac_code (tempName i))
    (h2 : ∀ i, 1 ≤ i → a2 = some (tempName i) → definedIn gc.tac_code (tempName i)) :
    ExprPostB g
      { gc with temp_counter := gc.temp_counter + 1,
                tac_code := gc.tac_code ++
                  [⟨op, a1, a2, some (tempName (gc.temp_counter + 1))⟩] }
      (tempName (gc.temp_counter + 1)) := by
  obtain ⟨s1, ha1, hm1, hc1, hd1⟩ := h
  constructor
  · refine ⟨s1 ++ [⟨op, a1, a2, some (tempName (gc.temp_counter + 1))⟩], ?_, ?_, ?_, ?_⟩
    · dsimp only
      rw [ha1, List.append_assoc]
    · dsimp only
      omega
    · intro i hi
      dsimp only
      rw [tempCount_append, hc1 i hi, tempCount_single_fresh]
      split_ifs <;> omega
    · intro hdb
      exact defBefore_snoc (hd1 hdb) (usesOk_mk op _ h1 h2)
  · exact argDef_fresh

/-- A result string that can never be a temporary is trivially usable. -/
theorem exprPostB_of_const {g : GenState} {res : String}
    (h : ∀ i, res ≠ tempName i) : ExprPostB g g res :=
  ⟨StmtPostB.refl g, argDef_of_ne h _⟩

theorem emitParamsB : ∀ (params : List String) (g : GenState),
    params.all (fun p => !isTempStrB p) = true →
    StmtPostB g (TACGenerator.emit_params params g)
  | [], g, _ => StmtPostB.refl g
  | p :: rest, g, hp => by
      simp only [List.all_cons, Bool.and_eq_true, Bool.not_eq_true'] at hp
      exact (stmtPostB_emit g "PARAM" (some p) none none (fun s hs => by cases hs)
        (optArg_ok (argDef_of_ne (ne_tempName_of_not_isTempStrB hp.1) _)) noneArg_ok).trans
        (emitParamsB rest _ (by simp [List.all_eq_true] at hp ⊢; exact hp.2))

/-- The init part of `visit_for_statement`. -/
def forInitState (init : Option Stmt) (g : GenState) : GenState :=
  match init with
  | some i => TACGenerator.visit_statement i g
  | none => g

/-- The condition part of `visit_for_statement`. -/
def forCondState (cond : Option Expr) (endL : String) (g : GenState) : GenState :=
  match cond with
  | some _ =>
      let (gc, c) := TACGenerator.visit_expression cond g
      gc.emit "IF_FALSE" (some c) (some endL) none
  | none => g

/-- The update part of `visit_for_statement`. -/
def forUpdateState (update : Option Stmt) (g : GenState) : GenState :=
  match update with
  | some u => TACGenerator.visit_statement u g
  | none => g

/-- Unfolding `visit_statement` on a `for` statement (its compiled
equations are split over the three option patterns, so this single
equation is proved by cases). -/
theorem visit_statement_for (init : Option Stmt) (cond : Option Expr)
    (update : Option Stmt) (body : List Stmt) (ln col : Nat) (g : GenState) :
    TACGenerator.visit_statement (.forStatement init cond update body ln col) g =
      (let g1 := forInitState init g
       let loopL := labelName (g1.label_counter + 1)
       let endL := labelName (g1.label_counter + 1 + 1)
       let g4 := ({ g1 with label_counter := g1.label_counter + 1 + 1 } : GenState).emit
         "LABEL" (some loopL) none none
       let g5 := forCondState cond endL g4
       let g6 := TACGenerator.visit_statements body g5
       let g7 := forUpdateState update g6
       (g7.emit "GOTO" (some loopL) none none).emit "LABEL" (some endL) none none) := by
  cases init <;> cases cond <;> cases update <;>
    simp only [TACGenerator.visit_statement, GenState.new_label, forInitState,
      forCondState, forUpdateState]

mutual

theorem exprB : ∀ (e : Expr) (g g' : GenState) (res : String),
    TACGenerator.visit_expr e g = (g', res) → exprClashFree e = true →
    ExprPostB g g' res
  | .binaryOp l op r _ _, g, g', res, heq, hcf => by
      simp only [exprClashFree, Bool.and_eq_true] at hcf
      obtain ⟨hcl, hcr⟩ := hcf
      rcases h1 : TACGenerator.visit_expression l g with ⟨g1, left⟩
      rcases h2 : TACGenerator.visit_expression r g1 with ⟨g2, right⟩
      obtain ⟨ihs1, ihr1⟩ := exprOptB l g g1 left h1 hcl
      obtain ⟨ihs2, ihr2⟩ := exprOptB r g1 g2 right h2 hcr
      simp only [TACGenerator.visit_expr, h1, h2, GenState.new_temp, GenState.emit] at heq
      injection heq with hg hres
      subst hg
      subst hres
      refine exprPostB_step_fresh (ihs1.trans ihs2) op (some left) (some right) ?_ ?_
      · obtain ⟨s2, ha2, _, _, _⟩ := ihs2
        intro i hi he
        rw [ha2]
        exact definedIn_append_left s2 (ihr1 i hi (Option.some.injEq .. ▸ he))
      · exact optArg_ok ihr2
  | .unaryOp op e _ _, g, g', res, heq, hcf => by
      simp only [exprClashFree] at hcf
      rcases h1 : TACGenerator.visit_expression e g with ⟨g1, operand⟩
      obtain ⟨ihs1, ihr1⟩ := exprOptB e g g1 operand h1 hcf
      simp only [TACGenerator.visit_expr, h1, GenState.new_temp, GenState.emit] at heq
      injection heq with hg hres
      subst hg
      subst hres
      exact exprPostB_step_fresh ihs1 op (some operand) none (optArg_ok ihr1) noneArg_ok
  | .identifier n _ _, g, g', res, heq, hcf => by
      simp only [exprClashFree, Bool.not_eq_true'] at hcf
      simp only [TACGenerator.visit_expr] at heq
      injection heq with hg hres
      subst hg
      subst hres
      exact exprPostB_of_const (ne_tempName_of_not_isTempStrB hcf)
  | .intLit v _ _, g, g', res, heq, _ => by
      simp only [TACGenerator.visit_expr] at heq
      injection heq with hg hres
      subst hg
      subst hres
      exact exprPostB_of_const (intStr_ne_tempName v)
  | .floatLit v _ _, g, g', res, heq, hcf => by
      simp only [exprClashFree, Bool.not_eq_true'] at hcf
      simp only [TACGenerator.visit_expr] at heq
      injection heq with hg hres
      subst hg
      subst hres
      exact exprPostB_of_const (ne_tempName_of_not_isTempStrB hcf)
  | .stringLit v _ _, g, g', res, heq, _ => by
      simp only [TACGenerator.visit_expr] at heq
      injection heq with hg hres
      subst hg
      subst hres
      exact exprPostB_of_const (strLitStr_ne_tempName v)
  | .boolLit b _ _, g, g', res, heq, _ => by
      simp only [TACGenerator.visit_expr] at heq
      injection heq with hg hres
      subst hg
      subst hres
      cases b
      · exact exprPostB_of_const false_ne_tempName
      · exact exprPostB_of_const true_ne_tempName
  | .functionCall n args _ _, g, g', res, heq, hcf => by
      simp only [exprClashFree, Bool.and_eq_true, Bool.not_eq_true'] at hcf
      obtain ⟨hn, hargs⟩ := hcf
      simp only [TACGenerator.visit_expr, GenState.new_temp, GenState.emit] at heq
      injection heq with hg hres
      subst hg
      subst hres
      obtain ⟨s2, ha2, hm2, hc2, hd2⟩ :=
        argsB args { g with temp_counter := g.temp_counter + 1 } _ rfl hargs
      dsimp only at ha2 hm2 hc2 hd2
      constructor
      · refine ⟨s2 ++ [⟨"CALL", some n, none, some (tempName (g.temp_counter + 1))⟩],
          ?_, ?_, ?_, ?_⟩
        · dsimp only
          rw [ha2, List.append_assoc]
        · dsimp only
          omega
        · intro i hi
          dsimp only
          rw [tempCount_append, hc2 i hi, tempCount_single_fresh]
          split_ifs <;> omega
        · intro hdb
          refine defBefore_snoc (hd2 hdb) (usesOk_mk "CALL" _ ?_ noneArg_ok)
          exact optArg_ok (argDef_of_ne (ne_tempName_of_not_isTempStrB hn) _)
      · exact argDef_fresh
  | .arrayAccess a idx _ _, g, g', res, heq, _ => by
      simp only [TACGenerator.visit_expr] at heq
      injection heq with hg hres
      subst hg
      subst hres
      exact exprPostB_of_const unknown_ne_tempName

theorem exprOptB : ∀ (o : Option Expr) (g g' : GenState) (res : String),
    TACGenerator.visit_expression o g = (g', res) → exprOptClashFree o = true →
    ExprPostB g g' res
  | some e, g, g', res, heq, hcf => by
      simp only [TACGenerator.visit_expression] at heq
      exact exprB e g g' res heq (by simpa [exprOptClashFree] using hcf)
  | none, g, g', res, heq, _ => by
      simp only [TACGenerator.visit_expression] at heq
      injection heq with hg hres
      subst hg
      subst hres
      exact exprPostB_of_const unknown_ne_tempName

theorem argsB : ∀ (l : List Expr) (g g' : GenState),
    TACGenerator.visit_call_args l g = g' → exprListClashFree l = true →
    StmtPostB g g'
  | [], g, g', heq, _ => by
      simp only [TACGenerator.visit_call_args] at heq
      subst heq
      exact StmtPostB.refl g
  | a :: rest, g, g', heq, hcf => by
      simp only [exprListClashFree, Bool.and_eq_true] at hcf
      obtain ⟨hca, hcr⟩ := hcf
      rcases h1 : TACGenerator.visit_expr a g with ⟨g1, r⟩
      obtain ⟨ihs, ihr⟩ := exprB a g g1 r h1 hca
      simp only [TACGenerator.visit_call_args, h1] at heq
      subst heq
      exact ihs.trans ((stmtPostB_emit g1 "ARG" (some r) none none
        (fun s hs => by cases hs) (optArg_ok ihr) noneArg_ok).trans
        (argsB rest _ _ rfl hcr))

theorem stmtB : ∀ (s : Stmt) (g g' : GenState),
    TACGenerator.visit_statement s g = g' → stmtClashFree s = true →
    StmtPostB g g'
  | .varDeclaration name dt init _ _, g, g', heq, hcf => by
      simp only [stmtClashFree, Bool.and_eq_true, Bool.not_eq_true'] at hcf
      obtain ⟨hname, hinit⟩ := hcf
      cases init with
      | none =>
          simp only [TACGenerator.visit_statement] at heq
          subst heq
          exact StmtPostB.refl g
      | some e =>
          rcases h1 : TACGenerator.visit_expression (some e) g with ⟨g1, r⟩
          obtain ⟨ihs, ihr⟩ := exprOptB (some e) g g1 r h1 hinit
          simp only [TACGenerator.visit_statement, h1] at heq
          subst heq
          refine ihs.trans (stmtPostB_emit g1 "ASSIGN" (some r) none (some name)
            ?_ (optArg_ok ihr) noneArg_ok)
          intro s hs k
          injection hs with hs'
          subst hs'
          exact ne_tempName_of_not_isTempStrB hname k
  | .assignment target value _ _, g, g', heq, hcf => by
      simp only [stmtClashFree, Bool.and_eq_true, Bool.not_eq_true'] at hcf
      obtain ⟨htarget, hvalue⟩ := hcf
      rcases h1 : TACGenerator.visit_expression value g with ⟨g1, r⟩
      obtain ⟨ihs, ihr⟩ := exprOptB value g g1 r h1 hvalue
      simp only [TACGenerator.visit_statement, h1] at heq
      subst heq
      refine ihs.trans (stmtPostB_emit g1 "ASSIGN" (some r) none (some target)
        ?_ (optArg_ok ihr) noneArg_ok)
      intro s hs k
      injection hs with hs'
      subst hs'
      exact ne_tempName_of_not_isTempStrB htarget k
  | .ifStatement cond thenB elseB _ _, g, g', heq, hcf => by
      rcases h1 : TACGenerator.visit_expression cond g with ⟨g1, c⟩
      rcases elseB with _ | el
      · simp only [stmtClashFree, stmtListOptClashFree, Bool.and_eq_true,
          Bool.and_true] at hcf
        obtain ⟨hcond, hthen⟩ := hcf
        obtain ⟨ihs1, ihr1⟩ := exprOptB cond g g1 c h1 hcond
        simp only [TACGenerator.visit_statement, h1, GenState.new_label] at heq
        subst heq
        have e1 := stmtPostB_label_counter g1 (g1.label_counter + 1 + 1)
        have e2 := stmtPostB_emit ({ g1 with label_counter := g1.label_counter + 1 + 1 } : GenState) "IF_FALSE" (some c) (some (labelName (g1.label_counter + 1))) none
          (fun s hs => by cases hs) (optArg_ok ihr1) (optArg_ok (argDef_of_ne (fun i => labelName_ne_tempName _ i) _))
        have e3 := stmtsB thenB (({ g1 with label_counter := g1.label_counter + 1 + 1 } : GenState).emit "IF_FALSE" (some c) (some (labelName (g1.label_counter + 1))) none) _ rfl hthen
        have e4 := stmtPostB_emit (TACGenerator.visit_statements thenB (({ g1 with label_counter := g1.label_counter + 1 + 1 } : GenState).emit "IF_FALSE" (some c) (some (labelName (g1.label_counter + 1))) none)) "GOTO" (some (labelName (g1.label_counter + 1 + 1))) none none
          (fun s hs => by cases hs) (optArg_ok (argDef_of_ne (fun i => labelName_ne_tempName _ i) _)) noneArg_ok
        have e5 := stmtPostB_emit ((TACGenerator.visit_statements thenB (({ g1 with label_counter := g1.label_counter + 1 + 1 } : GenState).emit "IF_FALSE" (some c) (some (labelName (g1.label_counter + 1))) none)).emit "GOTO" (some (labelName (g1.label_counter + 1 + 1))) none none) "LABEL" (some (labelName (g1.label_counter + 1))) none none
          (fun s hs => by cases hs) (optArg_ok (argDef_of_ne (fun i => labelName_ne_tempName _ i) _)) noneArg_ok
        have e6 := stmtPostB_emit (((TACGenerator.visit_statements thenB (({ g1 with label_counter := g1.label_counter + 1 + 1 } : GenState).emit "IF_FALSE" (some c) (some (labelName (g1.label_counter + 1))) none)).emit "GOTO" (some (labelName (g1.label_counter + 1 + 1))) none none).emit "LABEL" (some (labelName (g1.label_counter + 1))) none none) "LABEL" (some (labelName (g1.label_counter + 1 + 1))) none none
          (fun s hs => by cases hs) (optArg_ok (argDef_of_ne (fun i => labelName_ne_tempName _ i) _)) noneArg_ok
        exact ihs1.trans (e1.trans (e2.trans (e3.trans (e4.trans (e5.trans e6)))))
      · simp only [stmtClashFree, stmtListOptClashFree, Bool.and_eq_true] at hcf
        obtain ⟨⟨hcond, hthen⟩, hel⟩ := hcf
        obtain ⟨ihs1, ihr1⟩ := exprOptB cond g g1 c h1 hcond
        simp only [TACGenerator.visit_statement, h1, GenState.new_label] at heq
        subst heq
        have e1 := stmtPostB_label_counter g1 (g1.label_counter + 1 + 1)
        have e2 := stmtPostB_emit ({ g1 with label_counter := g1.label_counter + 1 + 1 } : GenState) "IF_FALSE" (some c) (some (labelName (g1.label_counter + 1))) none
          (fun s hs => by cases hs) (optArg_ok ihr1) (optArg_ok (argDef_of_ne (fun i => labelName_ne_tempName _ i) _))
        have e3 := stmtsB thenB (({ g1 with label_counter := g1.label_counter + 1 + 1 } : GenState).emit "IF_FALSE" (some c) (some (labelName (g1.label_counter + 1))) none) _ rfl hthen
        have e4 := stmtPostB_emit (TACGenerator.visit_statements thenB (({ g1 with label_counter := g1.label_counter + 1 + 1 } : GenState).emit "IF_FALSE" (some c) (some (labelName (g1.label_counter + 1))) none)) "GOTO" (some (labelName (g1.label_counter + 1 + 1))) none none
          (fun s hs => by cases hs) (optArg_ok (argDef_of_ne (fun i => labelName_ne_tempName _ i) _)) noneArg_ok
        have e5 := stmtPostB_emit ((TACGenerator.visit_statements thenB (({ g1 with label_counter := g1.label_counter + 1 + 1 } : GenState).emit "IF_FALSE" (some c) (some (labelName (g1.label_counter + 1))) none)).emit "GOTO" (some (labelName (g1.label_counter + 1 + 1))) none none) "LABEL" (some (labelName (g1.label_counter + 1))) none none
          (fun s hs => by cases hs) (optArg_ok (argDef_of_ne (fun i => labelName_ne_tempName _ i) _)) noneArg_ok
        have e6 := stmtsB el (((TACGenerator.visit_statements thenB (({ g1 with label_counter := g1.label_counter + 1 + 1 } : GenState).emit "IF_FALSE" (some c) (some (labelName (g1.label_counter + 1))) none)).emit "GOTO" (some (labelName (g1.label_counter + 1 + 1))) none none).emit "LABEL" (some (labelName (g1.label_counter + 1))) none none) _ rfl hel
        have e7 := stmtPostB_emit (TACGenerator.visit_statements el (((TACGenerator.visit_statements thenB (({ g1 with label_counter := g1.label_counter + 1 + 1 } : GenState).emit "IF_FALSE" (some c) (some (labelName (g1.label_counter + 1))) none)).emit "GOTO" (some (labelName (g1.label_counter + 1 + 1))) none none).emit "LABEL" (some (labelName (g1.label_counter + 1))) none none)) "LABEL" (some (labelName (g1.label_counter + 1 + 1))) none none
          (fun s hs => by cases hs) (optArg_ok (argDef_of_ne (fun i => labelName_ne_tempName _ i) _)) noneArg_ok
        exact ihs1.trans (e1.trans (e2.trans (e3.trans (e4.trans (e5.trans
          (e6.trans e7))))))
  | .whileStatement cond body _ _, g, g', heq, hcf => by
      simp only [stmtClashFree, Bool.and_eq_true] at hcf
      obtain ⟨hcond, hbody⟩ := hcf
      rcases h1 : TACGenerator.visit_expression cond (({ g with label_counter := g.label_counter + 1 + 1 } : GenState).emit "LABEL" (some (labelName (g.label_counter + 1))) none none) with ⟨g4, c⟩
      obtain ⟨ihs1, ihr1⟩ := exprOptB cond _ g4 c h1 hcond
      simp only [TACGenerator.visit_statement, GenState.new_label, h1] at heq
      subst heq
      have w1 := stmtPostB_label_counter g (g.label_counter + 1 + 1)
      have w2 := stmtPostB_emit ({ g with label_counter := g.label_counter + 1 + 1 } : GenState) "LABEL" (some (labelName (g.label_counter + 1))) none none
        (fun s hs => by cases hs) (optArg_ok (argDef_of_ne (fun i => labelName_ne_tempName _ i) _)) noneArg_ok
      have w3 := stmtPostB_emit g4 "IF_FALSE" (some c) (some (labelName (g.label_counter + 1 + 1))) none
        (fun s hs => by cases hs) (optArg_ok ihr1) (optArg_ok (argDef_of_ne (fun i => labelName_ne_tempName _ i) _))
      have w4 := stmtsB body (g4.emit "IF_FALSE" (some c) (some (labelName (g.label_counter + 1 + 1))) none) _ rfl hbody
      have w5 := stmtPostB_emit (TACGenerator.visit_statements body (g4.emit "IF_FALSE" (some c) (some (labelName (g.label_counter + 1 + 1))) none)) "GOTO" (some (labelName (g.label_counter + 1))) none none
        (fun s hs => by cases hs) (optArg_ok (argDef_of_ne (fun i => labelName_ne_tempName _ i) _)) noneArg_ok
      have w6 := stmtPostB_emit ((TACGenerator.visit_statements body (g4.emit "IF_FALSE" (some c) (some (labelName (g.label_counter + 1 + 1))) none)).emit "GOTO" (some (labelName (g.label_counter + 1))) none none) "LABEL" (some (labelName (g.label_counter + 1 + 1))) none none
        (fun s hs => by cases hs) (optArg_ok (argDef_of_ne (fun i => labelName_ne_tempName _ i) _)) noneArg_ok
      exact w1.trans (w2.trans (ihs1.trans (w3.trans (w4.trans (w5.trans w6)))))
  | .forStatement init cond update body _ _, g, g', heq, hcf => by
      simp only [stmtClashFree, Bool.and_eq_true] at hcf
      obtain ⟨⟨⟨hinit, hcond⟩, hupdate⟩, hbody⟩ := hcf
      rw [visit_statement_for] at heq
      subst heq
      show StmtPostB g (((forUpdateState update (TACGenerator.visit_statements body (forCondState cond (labelName ((forInitState init g).label_counter + 1 + 1)) (({ (forInitState init g) with label_counter := (forInitState init g).label_counter + 1 + 1 } : GenState).emit "LABEL" (some (labelName ((forInitState init g).label_counter + 1))) none none)))).emit "GOTO" (some (labelName ((forInitState init g).label_counter + 1))) none none).emit "LABEL" (some (labelName ((forInitState init g).label_counter + 1 + 1))) none none)
      have pInit : StmtPostB g (forInitState init g) := by
        cases init with
        | some i => exact stmtB i g _ rfl (by simpa [stmtOptClashFree] using hinit)
        | none => exact StmtPostB.refl g
      have f1 := stmtPostB_label_counter (forInitState init g) ((forInitState init g).label_counter + 1 + 1)
      have f2 := stmtPostB_emit ({ (forInitState init g) with label_counter := (forInitState init g).label_counter + 1 + 1 } : GenState) "LABEL" (some (labelName ((forInitState init g).label_counter + 1))) none none
        (fun s hs => by cases hs) (optArg_ok (argDef_of_ne (fun i => labelName_ne_tempName _ i) _)) noneArg_ok
      have pCond : StmtPostB (({ (forInitState init g) with label_counter := (forInitState init g).label_counter + 1 + 1 } : GenState).emit "LABEL" (some (labelName ((forInitState init g).label_counter + 1))) none none) (forCondState cond (labelName ((forInitState init g).label_counter + 1 + 1)) (({ (forInitState init g) with label_counter := (forInitState init g).label_counter + 1 + 1 } : GenState).emit "LABEL" (some (labelName ((forInitState init g).label_counter + 1))) none none)) := by
        cases cond with
        | none => exact StmtPostB.refl _
        | some c0 =>
            rcases hvc : TACGenerator.visit_expression (some c0) (({ (forInitState init g) with label_counter := (forInitState init g).label_counter + 1 + 1 } : GenState).emit "LABEL" (some (labelName ((forInitState init g).label_counter + 1))) none none) with ⟨gc, cc⟩
            obtain ⟨ihs, ihr⟩ := exprOptB (some c0) _ gc cc hvc hcond
            simp only [forCondState, hvc]
            exact ihs.trans (stmtPostB_emit gc "IF_FALSE" (some cc) (some (labelName ((forInitState init g).label_counter + 1 + 1))) none
              (fun s hs => by cases hs) (optArg_ok ihr) (optArg_ok (argDef_of_ne (fun i => labelName_ne_tempName _ i) _)))
      have f3 := stmtsB body (forCondState cond (labelName ((forInitState init g).label_counter + 1 + 1)) (({ (forInitState init g) with label_counter := (forInitState init g).label_counter + 1 + 1 } : GenState).emit "LABEL" (some (labelName ((forInitState init g).label_counter + 1))) none none)) _ rfl hbody
      have pUpd : StmtPostB (TACGenerator.visit_statements body (forCondState cond (labelName ((forInitState init g).label_counter + 1 + 1)) (({ (forInitState init g) with label_counter := (forInitState init g).label_counter + 1 + 1 } : GenState).emit "LABEL" (some (labelName ((forInitState init g).label_counter + 1))) none none))) (forUpdateState update (TACGenerator.visit_statements body (forCondState cond (labelName ((forInitState init g).label_counter + 1 + 1)) (({ (forInitState init g) with label_counter := (forInitState init g).label_counter + 1 + 1 } : GenState).emit "LABEL" (some (labelName ((forInitState init g).label_counter + 1))) none none)))) := by
        cases update with
        | some u => exact stmtB u _ _ rfl (by simpa [stmtOptClashFree] using hupdate)
        | none => exact StmtPostB.refl _
      have f4 := stmtPostB_emit (forUpdateState update (TACGenerator.visit_statements body (forCondState cond (labelName ((forInitState init g).label_counter + 1 + 1)) (({ (forInitState init g) with label_counter := (forInitState init g).label_counter + 1 + 1 } : GenState).emit "LABEL" (some (labelName ((forInitState init g).label_counter + 1))) none none)))) "GOTO" (some (labelName ((forInitState init g).label_counter + 1))) none none
        (fun s hs => by cases hs) (optArg_ok (argDef_of_ne (fun i => labelName_ne_tempName _ i) _)) noneArg_ok
      have f5 := stmtPostB_emit ((forUpdateState update (TACGenerator.visit_statements body (forCondState cond (labelName ((forInitState init g).label_counter + 1 + 1)) (({ (forInitState init g) with label_counter := (forInitState init g).label_counter + 1 + 1 } : GenState).emit "LABEL" (some (labelName ((forInitState init g).label_counter + 1))) none none)))).emit "GOTO" (some (labelName ((forInitState init g).label_counter + 1))) none none) "LABEL" (some (labelName ((forInitState init g).label_counter + 1 + 1))) none none
        (fun s hs => by cases hs) (optArg_ok (argDef_of_ne (fun i => labelName_ne_tempName _ i) _)) noneArg_ok
      exact pInit.trans (f1.trans (f2.trans (pCond.trans (f3.trans (pUpd.trans
        (f4.trans f5))))))
  | .functionDeclaration name params body _ _, g, g', heq, hcf => by
      simp only [stmtClashFree, Bool.and_eq_true, Bool.not_eq_true'] at hcf
      obtain ⟨⟨hname, hparams⟩, hbody⟩ := hcf
      simp only [TACGenerator.visit_statement, GenState.emit] at heq
      subst heq
      exact (stmtPostB_emit g "FUNCTION" (some name) none none
          (fun s hs => by cases hs)
          (optArg_ok (argDef_of_ne (ne_tempName_of_not_isTempStrB hname) _))
          noneArg_ok).trans
        ((emitParamsB params _ hparams).trans
          ((stmtsB body _ _ rfl hbody).trans
            (stmtPostB_emit _ "RETURN" none none none (fun s hs => by cases hs)
              noneArg_ok noneArg_ok)))
  | .returnStatement value _ _, g, g', heq, hcf => by
      simp only [stmtClashFree] at hcf
      cases value with
      | none =>
          simp only [TACGenerator.visit_statement] at heq
          subst heq
          exact stmtPostB_emit g "RETURN" none none none (fun s hs => by cases hs)
            noneArg_ok noneArg_ok
      | some e =>
          rcases h1 : TACGenerator.visit_expression (some e) g with ⟨g1, r⟩
          obtain ⟨ihs, ihr⟩ := exprOptB (some e) g g1 r h1 hcf
          simp only [TACGenerator.visit_statement, h1] at heq
          subst heq
          exact ihs.trans (stmtPostB_emit g1 "RETURN" (some r) none none
            (fun s hs => by cases hs) (optArg_ok ihr) noneArg_ok)
  | .printStatement value _ _, g, g', heq, hcf => by
      simp only [stmtClashFree] at hcf
      rcases h1 : TACGenerator.visit_expression value g with ⟨g1, r⟩
      obtain ⟨ihs, ihr⟩ := exprOptB value g g1 r h1 hcf
      simp only [TACGenerator.visit_statement, h1] at heq
      subst heq
      exact ihs.trans (stmtPostB_emit g1 "PRINT" (some r) none none
        (fun s hs => by cases hs) (optArg_ok ihr) noneArg_ok)

theorem stmtsB : ∀ (l : List Stmt) (g g' : GenState),
    TACGenerator.visit_statements l g = g' → stmtListClashFree l = true →
    StmtPostB g g'
  | [], g, g', heq, _ => by
      simp only [TACGenerator.visit_statements] at heq
      subst heq
      exact StmtPostB.refl g
  | s :: rest, g, g', heq, hcf => by
      simp only [stmtListClashFree, Bool.and_eq_true] at hcf
      obtain ⟨hcs, hcrest⟩ := hcf
      simp only [TACGenerator.visit_statements] at heq
      subst heq
      exact (stmtB s g _ rfl hcs).trans (stmtsB rest _ _ rfl hcrest)

end

/-! ### The label invariant (Group A)

`NoLabelOp`: no binary/unary operator string of the program is the
literal opcode `"LABEL"` (such an operator would make `visit_binary_op`
/ `visit_unary_op` emit a phantom `LABEL` instruction). -/

mutual

def exprNoLabelOp : Expr → Bool
  | .binaryOp l op r _ _ => (op != "LABEL") && exprOptNoLabelOp l && exprOptNoLabelOp r
  | .unaryOp op e _ _ => (op != "LABEL") && exprOptNoLabelOp e
  | .functionCall _ args _ _ => exprListNoLabelOp args
  | _ => true

def exprOptNoLabelOp : Option Expr → Bool
  | some e => exprNoLabelOp e
  | none => true

def exprListNoLabelOp : List Expr → Bool
  | [] => true
  | a :: rest => exprNoLabelOp a && exprListNoLabelOp rest

def stmtNoLabelOp : Stmt → Bool
  | .varDeclaration _ _ init _ _ => exprOptNoLabelOp init
  | .assignment _ value _ _ => exprOptNoLabelOp value
  | .ifStatement cond thenB elseB _ _ =>
      exprOptNoLabelOp cond && stmtsNoLabelOp thenB && stmtsOptNoLabelOp elseB
  | .whileStatement cond body _ _ => exprOptNoLabelOp cond && stmtsNoLabelOp body
  | .forStatement init cond update body _ _ =>
      stmtOptNoLabelOp init && exprOptNoLabelOp cond && stmtOptNoLabelOp update &&
        stmtsNoLabelOp body
  | .functionDeclaration _ _ body _ _ => stmtsNoLabelOp body
  | .returnStatement v _ _ => exprOptNoLabelOp v
  | .printStatement v _ _ => exprOptNoLabelOp v

def stmtOptNoLabelOp : Option Stmt → Bool
  | some s => stmtNoLabelOp s
  | none => true

def stmtsOptNoLabelOp : Option (List Stmt) → Bool
  | some l => stmtsNoLabelOp l
  | none => true

def stmtsNoLabelOp : List Stmt → Bool
  | [] => true
  | s :: rest => stmtNoLabelOp s && stmtsNoLabelOp rest

end

def programNoLabelOp (p : Program) : Bool := stmtsNoLabelOp p.statements

/-- `seg`, resolved against reference instructions drawn from `whole`
(so that internal resolution survives embedding into a larger list). -/
def labelsResolvedIn (seg whole : List TAC) : Prop :=
  ∀ ins ∈ seg, ins.op = "LABEL" → ∀ s, ins.arg1 = some s →
    ∃ ins2 ∈ whole, refsLabel ins2 s = true

theorem lrIn_nil (whole : List TAC) : labelsResolvedIn [] whole := by
  intro ins h
  exact absurd h (List.not_mem_nil ins)

theorem lrIn_append {u v whole : List TAC} (hu : labelsResolvedIn u whole)
    (hv : labelsResolvedIn v whole) : labelsResolvedIn (u ++ v) whole := by
  intro ins hmem
  rcases List.mem_append.mp hmem with h | h
  · exact hu ins h
  · exact hv ins h

theorem lrIn_mono {seg whole whole2 : List TAC} (hsub : ∀ x ∈ whole, x ∈ whole2)
    (h : labelsResolvedIn seg whole) : labelsResolvedIn seg whole2 := by
  intro ins hmem hop s harg
  obtain ⟨ins2, h2, href⟩ := h ins hmem hop s harg
  exact ⟨ins2, hsub ins2 h2, href⟩

theorem lrIn_of_no_labels (whole : List TAC) {seg : List TAC}
    (h : ∀ ins ∈ seg, ins.op ≠ "LABEL") : labelsResolvedIn seg whole := by
  intro ins hmem hop
  exact absurd hop (h ins hmem)

theorem lrIn_single_other {op : String} (hop : op ≠ "LABEL")
    (a1 a2 r : Option String) (whole : List TAC) :
    labelsResolvedIn [⟨op, a1, a2, r⟩] whole := by
  intro ins hins hop2 s harg
  rw [List.mem_singleton] at hins
  subst hins
  exact absurd hop2 hop

theorem lrIn_single_label {s : String} {whole : List TAC}
    (h : ∃ ins2 ∈ whole, refsLabel ins2 s = true) :
    labelsResolvedIn [⟨"LABEL", some s, none, none⟩] whole := by
  intro ins hins _ t harg
  rw [List.mem_singleton] at hins
  subst hins
  have harg2 : some s = some t := harg
  injection harg2 with hst
  subst hst
  exact h

theorem labelCount_of_no_labels {seg : List TAC}
    (h : ∀ ins ∈ seg, ins.op ≠ "LABEL") (t : String) : labelCount seg t = 0 := by
  refine List.countP_eq_zero.mpr ?_
  intro ins hmem hc
  simp only [Bool.and_eq_true, beq_iff_eq] at hc
  exact h ins hmem hc.1

/-- `labelTarget` at an actual label name is the range indicator. -/
theorem labelTarget_name (a b j : Nat) :
    labelTarget a b (labelName j) = if a < j ∧ j ≤ b then 1 else 0 := by
  unfold labelTarget
  by_cases h : a < j ∧ j ≤ b
  · rw [if_pos h,
      show (Finset.Ioc a b).filter (fun i => labelName i = labelName j) = {j} from ?_]
    · exact Finset.card_singleton j
    · ext x
      simp only [Finset.mem_filter, Finset.mem_Ioc, Finset.mem_singleton]
      constructor
      · rintro ⟨_, hx⟩
        exact labelName_injective hx
      · rintro rfl
        exact ⟨⟨h.1, h.2⟩, rfl⟩
  · rw [if_neg h, Finset.card_eq_zero]
    ext x
    simp only [Finset.mem_filter, Finset.mem_Ioc, Finset.not_mem_empty, iff_false]
    rintro ⟨⟨hx1, hx2⟩, hx3⟩
    have hxj := labelName_injective hx3
    subst hxj
    exact h ⟨hx1, hx2⟩

theorem labelNames_cons_label_some (b : String) (a2 r : Option String) (rest : List TAC) :
    labelNames (⟨"LABEL", some b, a2, r⟩ :: rest) = b :: labelNames rest := by
  simp [labelNames, List.filterMap_cons]

theorem labelNames_cons_label_none (a2 r : Option String) (rest : List TAC) :
    labelNames (⟨"LABEL", none, a2, r⟩ :: rest) = labelNames rest := by
  simp [labelNames, List.filterMap_cons]

theorem labelNames_cons_other {op : String} (hop : op ≠ "LABEL") (a1 a2 r : Option String)
    (rest : List TAC) :
    labelNames (⟨op, a1, a2, r⟩ :: rest) = labelNames rest := by
  simp [labelNames, List.filterMap_cons, beq_eq_false_iff_ne.mpr hop, hop]

theorem labelCount_cons_label_some (b : String) (a2 r : Option String) (rest : List TAC)
    (s : String) :
    labelCount (⟨"LABEL", some b, a2, r⟩ :: rest) s =
      labelCount rest s + if b = s then 1 else 0 := by
  simp only [labelCount, List.countP_cons]
  by_cases hbs : b = s
  · subst hbs
    simp
  · have hb2 : (some b == some s) = false :=
      beq_eq_false_iff_ne.mpr (by simpa using hbs)
    simp [hbs, hb2]

theorem labelCount_cons_label_none (a2 r : Option String) (rest : List TAC) (s : String) :
    labelCount (⟨"LABEL", none, a2, r⟩ :: rest) s = labelCount rest s := by
  simp [labelCount, List.countP_cons]

theorem labelCount_cons_other {op : String} (hop : op ≠ "LABEL") (a1 a2 r : Option String)
    (rest : List TAC) (s : String) :
    labelCount (⟨op, a1, a2, r⟩ :: rest) s = labelCount rest s := by
  simp [labelCount, List.countP_cons, beq_eq_false_iff_ne.mpr hop]

/-- Multiplicities in `labelNames` agree with `labelCount`. -/
theorem labelNames_count : ∀ (code : List TAC) (s : String),
    (labelNames code).count s = labelCount code s
  | [], _ => rfl
  | ins :: rest, s => by
      have ih := labelNames_count rest s
      rcases ins with ⟨op, a1, a2, r⟩
      by_cases hop : op = "LABEL"
      · subst hop
        cases a1 with
        | none => rw [labelNames_cons_label_none, labelCount_cons_label_none, ih]
        | some b =>
            rw [labelNames_cons_label_some, labelCount_cons_label_some, List.count_cons,
              ih]
            by_cases hbs : b = s
            · subst hbs
              simp
            · have hb2 : (b == s) = false := beq_eq_false_iff_ne.mpr hbs
              simp [hbs, hb2]
      · rw [labelNames_cons_other hop, labelCount_cons_other hop, ih]

/-- What one generator step on an expression guarantees about labels:
no `LABEL` instruction is emitted and the label counter is unchanged. -/
def ExprPostA (g g2 : GenState) : Prop :=
  ∃ seg, g2.tac_code = g.tac_code ++ seg ∧ g2.label_counter = g.label_counter ∧
    ∀ ins ∈ seg, ins.op ≠ "LABEL"

def ExprPostA.refl (g : GenState) : ExprPostA g g :=
  ⟨[], by simp, rfl, fun ins h => absurd h (List.not_mem_nil ins)⟩

def ExprPostA.trans {g1 g2 g3 : GenState} (h12 : ExprPostA g1 g2)
    (h23 : ExprPostA g2 g3) : ExprPostA g1 g3 := by
  obtain ⟨s1, ha1, hl1, hn1⟩ := h12
  obtain ⟨s2, ha2, hl2, hn2⟩ := h23
  refine ⟨s1 ++ s2, by rw [ha2, ha1, List.append_assoc], hl2.trans hl1, ?_⟩
  intro ins hmem
  rcases List.mem_append.mp hmem with h | h
  · exact hn1 ins h
  · exact hn2 ins h

theorem exprPostA_emit {g g2 : GenState} (h : ExprPostA g g2) (op : String)
    (a1 a2 r : Option String) (hop : op ≠ "LABEL") :
    ExprPostA g (g2.emit op a1 a2 r) := by
  obtain ⟨s1, ha1, hl1, hn1⟩ := h
  refine ⟨s1 ++ [⟨op, a1, a2, r⟩], ?_, hl1, ?_⟩
  · dsimp only [GenState.emit]
    rw [ha1, List.append_assoc]
  · intro ins hmem
    rcases List.mem_append.mp hmem with h2 | h2
    · exact hn1 ins h2
    · rw [List.mem_singleton] at h2
      subst h2
      exact hop

theorem exprPostA_temp (g : GenState) (tc : Nat) :
    ExprPostA g { g with temp_counter := tc } :=
  ⟨[], by simp, rfl, fun ins h => absurd h (List.not_mem_nil ins)⟩

theorem emitParamsA : ∀ (params : List String) (g : GenState),
    ExprPostA g (TACGenerator.emit_params params g)
  | [], g => ExprPostA.refl g
  | p :: rest, g =>
      (exprPostA_emit (ExprPostA.refl g) "PARAM" (some p) none none
        (by decide)).trans (emitParamsA rest _)

/-- Code growth with a fixed label-count profile `f` (the assembly
device: unlike counter ranges, the profiles add up in any order). -/
def SegC (g g2 : GenState) (f : String → Nat) (seg : List TAC) : Prop :=
  g2.tac_code = g.tac_code ++ seg ∧ ∀ t, labelCount seg t = f t

def SegC.trans {g1 g2 g3 : GenState} {f1 f2 : String → Nat} {s1 s2 : List TAC}
    (h12 : SegC g1 g2 f1 s1) (h23 : SegC g2 g3 f2 s2) :
    SegC g1 g3 (fun t => f1 t + f2 t) (s1 ++ s2) := by
  obtain ⟨ha1, hc1⟩ := h12
  obtain ⟨ha2, hc2⟩ := h23
  exact ⟨by rw [ha2, ha1, List.append_assoc],
    fun t => by rw [labelCount_append, hc1, hc2]⟩

theorem segC_label_bump (g : GenState) (lc : Nat) :
    SegC g { g with label_counter := lc } (fun _ => 0) [] :=
  ⟨by simp, fun t => rfl⟩

theorem segC_emit_other (g : GenState) (op : String) (hop : op ≠ "LABEL")
    (a1 a2 r : Option String) :
    SegC g (g.emit op a1 a2 r) (fun _ => 0) [⟨op, a1, a2, r⟩] :=
  ⟨rfl, fun t => labelCount_single_other hop a1 a2 r t⟩

theorem segC_emit_label (g : GenState) (s : String) :
    SegC g (g.emit "LABEL" (some s) none none)
      (fun t => if some s = some t then 1 else 0) [⟨"LABEL", some s, none, none⟩] :=
  ⟨rfl, fun t => labelCount_single_label (some s) t⟩

/-- What one generator step on a statement guarantees about labels:
the code grows by a segment whose `LABEL` instructions carry exactly
the label names allocated during the step, once each. -/
def StmtPostA (g g2 : GenState) (seg : List TAC) : Prop :=
  g2.tac_code = g.tac_code ++ seg ∧
  g.label_counter ≤ g2.label_counter ∧
  ∀ t, labelCount seg t = labelTarget g.label_counter g2.label_counter t

theorem stmtPostA_refl (g : GenState) : StmtPostA g g [] :=
  ⟨by simp, le_refl _, fun t => by rw [labelCount_nil, labelTarget_self]⟩

/-- An expression visit followed by one non-`LABEL` emission (the
shape of assignments, returns and prints). -/
theorem stmtPostA_expr_emit {g g1 : GenState} (h : ExprPostA g g1) (op : String)
    (hop : op ≠ "LABEL") (a1 a2 r : Option String) :
    ∃ seg, StmtPostA g (g1.emit op a1 a2 r) seg ∧ labelsResolvedIn seg seg := by
  obtain ⟨sc, hac, hlc, hnc⟩ := h
  refine ⟨sc ++ [⟨op, a1, a2, r⟩], ⟨?_, ?_, ?_⟩, ?_⟩
  · dsimp only [GenState.emit]
    rw [hac, List.append_assoc]
  · dsimp only [GenState.emit]
    omega
  · intro t
    dsimp only [GenState.emit]
    rw [labelCount_append, labelCount_of_no_labels hnc,
      labelCount_single_other hop, hlc, labelTarget_self]
  · exact lrIn_append (lrIn_of_no_labels _ hnc) (lrIn_single_other hop a1 a2 r _)

mutual

theorem exprA : ∀ (e : Expr) (g g2 : GenState) (res : String),
    TACGenerator.visit_expr e g = (g2, res) → exprNoLabelOp e = true →
    ExprPostA g g2
  | .binaryOp l op r _ _, g, g2, res, heq, hnl => by
      simp only [exprNoLabelOp, Bool.and_eq_true, bne_iff_ne] at hnl
      obtain ⟨⟨hop, hl⟩, hr⟩ := hnl
      rcases h1 : TACGenerator.visit_expression l g with ⟨g1, left⟩
      rcases h2 : TACGenerator.visit_expression r g1 with ⟨gr, right⟩
      have ih1 := exprOptA l g g1 left h1 hl
      have ih2 := exprOptA r g1 gr right h2 hr
      simp only [TACGenerator.visit_expr, h1, h2, GenState.new_temp, GenState.emit] at heq
      injection heq with hg hres
      subst hg
      exact exprPostA_emit ((ih1.trans ih2).trans (exprPostA_temp gr (gr.temp_counter + 1)))
        op (some left) (some right) (some (tempName (gr.temp_counter + 1))) hop
  | .unaryOp op e _ _, g, g2, res, heq, hnl => by
      simp only [exprNoLabelOp, Bool.and_eq_true, bne_iff_ne] at hnl
      obtain ⟨hop, he⟩ := hnl
      rcases h1 : TACGenerator.visit_expression e g with ⟨g1, operand⟩
      have ih1 := exprOptA e g g1 operand h1 he
      simp only [TACGenerator.visit_expr, h1, GenState.new_temp, GenState.emit] at heq
      injection heq with hg hres
      subst hg
      exact exprPostA_emit (ih1.trans (exprPostA_temp g1 (g1.temp_counter + 1)))
        op (some operand) none (some (tempName (g1.temp_counter + 1))) hop
  | .identifier n _ _, g, g2, res, heq, _ => by
      simp only [TACGenerator.visit_expr] at heq
      injection heq with hg hres
      subst hg
      exact ExprPostA.refl g
  | .intLit v _ _, g, g2, res, heq, _ => by
      simp only [TACGenerator.visit_expr] at heq
      injection heq with hg hres
      subst hg
      exact ExprPostA.refl g
  | .floatLit v _ _, g, g2, res, heq, _ => by
      simp only [TACGenerator.visit_expr] at heq
      injection heq with hg hres
      subst hg
      exact ExprPostA.refl g
  | .stringLit v _ _, g, g2, res, heq, _ => by
      simp only [TACGenerator.visit_expr] at heq
      injection heq with hg hres
      subst hg
      exact ExprPostA.refl g
  | .boolLit b _ _, g, g2, res, heq, _ => by
      simp only [TACGenerator.visit_expr] at heq
      injection heq with hg hres
      subst hg
      exact ExprPostA.refl g
  | .functionCall n args _ _, g, g2, res, heq, hnl => by
      simp only [exprNoLabelOp] at hnl
      simp only [TACGenerator.visit_expr, GenState.new_temp, GenState.emit] at heq
      injection heq with hg hres
      subst hg
      exact exprPostA_emit ((exprPostA_temp g (g.temp_counter + 1)).trans
        (argsA args { g with temp_counter := g.temp_counter + 1 } _ rfl hnl))
        "CALL" (some n) none (some (tempName (g.temp_counter + 1))) (by decide)
  | .arrayAccess a idx _ _, g, g2, res, heq, _ => by
      simp only [TACGenerator.visit_expr] at heq
      injection heq with hg hres
      subst hg
      exact ExprPostA.refl g

theorem exprOptA : ∀ (o : Option Expr) (g g2 : GenState) (res : String),
    TACGenerator.visit_expression o g = (g2, res) → exprOptNoLabelOp o = true →
    ExprPostA g g2
  | some e, g, g2, res, heq, hnl => by
      simp only [TACGenerator.visit_expression] at heq
      exact exprA e g g2 res heq (by simpa [exprOptNoLabelOp] using hnl)
  | none, g, g2, res, heq, _ => by
      simp only [TACGenerator.visit_expression] at heq
      injection heq with hg hres
      subst hg
      exact ExprPostA.refl g

theorem argsA : ∀ (l : List Expr) (g g2 : GenState),
    TACGenerator.visit_call_args l g = g2 → exprListNoLabelOp l = true →
    ExprPostA g g2
  | [], g, g2, heq, _ => by
      simp only [TACGenerator.visit_call_args] at heq
      subst heq
      exact ExprPostA.refl g
  | a :: rest, g, g2, heq, hnl => by
      simp only [exprListNoLabelOp, Bool.and_eq_true] at hnl
      obtain ⟨hna, hnr⟩ := hnl
      rcases h1 : TACGenerator.visit_expr a g with ⟨g1, r⟩
      have ih := exprA a g g1 r h1 hna
      simp only [TACGenerator.visit_call_args, h1] at heq
      subst heq
      exact (exprPostA_emit ih "ARG" (some r) none none (by decide)).trans
        (argsA rest _ _ rfl hnr)

theorem stmtA : ∀ (s : Stmt) (g g2 : GenState),
    TACGenerator.visit_statement s g = g2 → stmtNoLabelOp s = true →
    ∃ seg, StmtPostA g g2 seg ∧ (stmtNoBareFor s = true → labelsResolvedIn seg seg)
  | .varDeclaration name dt init _ _, g, g2, heq, hnl => by
      simp only [stmtNoLabelOp] at hnl
      cases init with
      | none =>
          simp only [TACGenerator.visit_statement] at heq
          subst heq
          exact ⟨[], stmtPostA_refl g, fun _ => lrIn_nil []⟩
      | some e =>
          rcases h1 : TACGenerator.visit_expression (some e) g with ⟨g1, r⟩
          have ih := exprOptA (some e) g g1 r h1 hnl
          simp only [TACGenerator.visit_statement, h1] at heq
          subst heq
          obtain ⟨seg, hP, hres⟩ :=
            stmtPostA_expr_emit ih "ASSIGN" (by decide) (some r) none (some name)
          exact ⟨seg, hP, fun _ => hres⟩
  | .assignment target value _ _, g, g2, heq, hnl => by
      simp only [stmtNoLabelOp] at hnl
      rcases h1 : TACGenerator.visit_expression value g with ⟨g1, r⟩
      have ih := exprOptA value g g1 r h1 hnl
      simp only [TACGenerator.visit_statement, h1] at heq
      subst heq
      obtain ⟨seg, hP, hres⟩ :=
        stmtPostA_expr_emit ih "ASSIGN" (by decide) (some r) none (some target)
      exact ⟨seg, hP, fun _ => hres⟩
  | .ifStatement cond thenB elseB _ _, g, g2, heq, hnl => by
      rcases h1 : TACGenerator.visit_expression cond g with ⟨g1, c⟩
      rcases elseB with _ | el
      · simp only [stmtNoLabelOp, stmtsOptNoLabelOp, Bool.and_eq_true,
          Bool.and_true] at hnl
        obtain ⟨hcond, hthen⟩ := hnl
        have ihc := exprOptA cond g g1 c h1 hcond
        simp only [TACGenerator.visit_statement, h1, GenState.new_label] at heq
        subst heq
        obtain ⟨sc, hac, hlc, hnc⟩ := ihc
        obtain ⟨st, ⟨hat, hmt, hct⟩, hrt⟩ := stmtsA thenB (({ g1 with label_counter := g1.label_counter + 1 + 1 } : GenState).emit "IF_FALSE" (some c) (some (labelName (g1.label_counter + 1))) none) _ rfl hthen
        have P1 : SegC g g1 (fun _ => 0) sc := ⟨hac, fun t => labelCount_of_no_labels hnc t⟩
        have P2 := segC_label_bump g1 (g1.label_counter + 1 + 1)
        have P3 := segC_emit_other ({ g1 with label_counter := g1.label_counter + 1 + 1 } : GenState) "IF_FALSE" (by decide) (some c) (some (labelName (g1.label_counter + 1))) none
        have P4 : SegC (({ g1 with label_counter := g1.label_counter + 1 + 1 } : GenState).emit "IF_FALSE" (some c) (some (labelName (g1.label_counter + 1))) none) (TACGenerator.visit_statements thenB (({ g1 with label_counter := g1.label_counter + 1 + 1 } : GenState).emit "IF_FALSE" (some c) (some (labelName (g1.label_counter + 1))) none)) (fun t => labelTarget (({ g1 with label_counter := g1.label_counter + 1 + 1 } : GenState).emit "IF_FALSE" (some c) (some (labelName (g1.label_counter + 1))) none).label_counter (TACGenerator.visit_statements thenB (({ g1 with label_counter := g1.label_counter + 1 + 1 } : GenState).emit "IF_FALSE" (some c) (some (labelName (g1.label_counter + 1))) none)).label_counter t) st := ⟨hat, hct⟩
        have P5 := segC_emit_other (TACGenerator.visit_statements thenB (({ g1 with label_counter := g1.label_counter + 1 + 1 } : GenState).emit "IF_FALSE" (some c) (some (labelName (g1.label_counter + 1))) none)) "GOTO" (by decide) (some (labelName (g1.label_counter + 1 + 1))) none none
        have P6 := segC_emit_label ((TACGenerator.visit_statements thenB (({ g1 with label_counter := g1.label_counter + 1 + 1 } : GenState).emit "IF_FALSE" (some c) (some (labelName (g1.label_counter + 1))) none)).emit "GOTO" (some (labelName (g1.label_counter + 1 + 1))) none none) (labelName (g1.label_counter + 1))
        have P7 := segC_emit_label (((TACGenerator.visit_statements thenB (({ g1 with label_counter := g1.label_counter + 1 + 1 } : GenState).emit "IF_FALSE" (some c) (some (labelName (g1.label_counter + 1))) none)).emit "GOTO" (some (labelName (g1.label_counter + 1 + 1))) none none).emit "LABEL" (some (labelName (g1.label_counter + 1))) none none) (labelName (g1.label_counter + 1 + 1))
        obtain ⟨haW, hcW⟩ := P1.trans (P2.trans (P3.trans (P4.trans (P5.trans (P6.trans P7)))))
        refine ⟨_, ⟨haW, ?_, ?_⟩, ?_⟩
        · have r1 : ((((TACGenerator.visit_statements thenB (({ g1 with label_counter := g1.label_counter + 1 + 1 } : GenState).emit "IF_FALSE" (some c) (some (labelName (g1.label_counter + 1))) none)).emit "GOTO" (some (labelName (g1.label_counter + 1 + 1))) none none).emit "LABEL" (some (labelName (g1.label_counter + 1))) none none).emit "LABEL" (some (labelName (g1.label_counter + 1 + 1))) none none).label_counter = (TACGenerator.visit_statements thenB (({ g1 with label_counter := g1.label_counter + 1 + 1 } : GenState).emit "IF_FALSE" (some c) (some (labelName (g1.label_counter + 1))) none)).label_counter := rfl
          have r2 : (({ g1 with label_counter := g1.label_counter + 1 + 1 } : GenState).emit "IF_FALSE" (some c) (some (labelName (g1.label_counter + 1))) none).label_counter = g1.label_counter + 1 + 1 := rfl
          rw [r1]
          rw [r2] at hmt
          omega
        · intro t
          have h0 := hcW t
          simp only [Nat.zero_add, Nat.add_zero] at h0
          have r1 : ((((TACGenerator.visit_statements thenB (({ g1 with label_counter := g1.label_counter + 1 + 1 } : GenState).emit "IF_FALSE" (some c) (some (labelName (g1.label_counter + 1))) none)).emit "GOTO" (some (labelName (g1.label_counter + 1 + 1))) none none).emit "LABEL" (some (labelName (g1.label_counter + 1))) none none).emit "LABEL" (some (labelName (g1.label_counter + 1 + 1))) none none).label_counter = (TACGenerator.visit_statements thenB (({ g1 with label_counter := g1.label_counter + 1 + 1 } : GenState).emit "IF_FALSE" (some c) (some (labelName (g1.label_counter + 1))) none)).label_counter := rfl
          have r2 : (({ g1 with label_counter := g1.label_counter + 1 + 1 } : GenState).emit "IF_FALSE" (some c) (some (labelName (g1.label_counter + 1))) none).label_counter = g1.label_counter + 1 + 1 := rfl
          rw [r1, ← hlc]
          rw [r2] at hmt h0
          have q1 := labelTarget_succ g1.label_counter t
          have q2 := labelTarget_succ (g1.label_counter + 1) t
          have c1 := labelTarget_trans (show g1.label_counter ≤ g1.label_counter + 1 by omega)
            (show g1.label_counter + 1 ≤ g1.label_counter + 1 + 1 by omega) t
          have hstep : g1.label_counter ≤ g1.label_counter + 1 + 1 := by omega
          have c2 := labelTarget_trans hstep hmt t
          omega
        · intro hnb
          simp only [stmtNoBareFor, stmtsOptNoBareFor, Bool.and_true] at hnb
          refine lrIn_append (lrIn_of_no_labels _ hnc)
            (lrIn_append (lrIn_nil _)
              (lrIn_append (lrIn_single_other (by decide) _ _ _ _)
                (lrIn_append (lrIn_mono (by intro x hx; simp only [List.mem_append]; tauto) (hrt hnb))
                  (lrIn_append (lrIn_single_other (by decide) _ _ _ _)
                    (lrIn_append
                      (lrIn_single_label ⟨⟨"IF_FALSE", some c, some (labelName (g1.label_counter + 1)), none⟩, by simp, by simp [refsLabel]⟩)
                      (lrIn_single_label ⟨⟨"GOTO", some (labelName (g1.label_counter + 1 + 1)), none, none⟩, by simp, by simp [refsLabel]⟩))))))
      · simp only [stmtNoLabelOp, stmtsOptNoLabelOp, Bool.and_eq_true] at hnl
        obtain ⟨⟨hcond, hthen⟩, helse⟩ := hnl
        have ihc := exprOptA cond g g1 c h1 hcond
        simp only [TACGenerator.visit_statement, h1, GenState.new_label] at heq
        subst heq
        obtain ⟨sc, hac, hlc, hnc⟩ := ihc
        obtain ⟨st, ⟨hat, hmt, hct⟩, hrt⟩ := stmtsA thenB (({ g1 with label_counter := g1.label_counter + 1 + 1 } : GenState).emit "IF_FALSE" (some c) (some (labelName (g1.label_counter + 1))) none) _ rfl hthen
        obtain ⟨se, ⟨hae, hme, hce⟩, hre⟩ := stmtsA el (((TACGenerator.visit_statements thenB (({ g1 with label_counter := g1.label_counter + 1 + 1 } : GenState).emit "IF_FALSE" (some c) (some (labelName (g1.label_counter + 1))) none)).emit "GOTO" (some (labelName (g1.label_counter + 1 + 1))) none none).emit "LABEL" (some (labelName (g1.label_counter + 1))) none none) _ rfl helse
        have P1 : SegC g g1 (fun _ => 0) sc := ⟨hac, fun t => labelCount_of_no_labels hnc t⟩
        have P2 := segC_label_bump g1 (g1.label_counter + 1 + 1)
        have P3 := segC_emit_other ({ g1 with label_counter := g1.label_counter + 1 + 1 } : GenState) "IF_FALSE" (by decide) (some c) (some (labelName (g1.label_counter + 1))) none
        have P4 : SegC (({ g1 with label_counter := g1.label_counter + 1 + 1 } : GenState).emit "IF_FALSE" (some c) (some (labelName (g1.label_counter + 1))) none) (TACGenerator.visit_statements thenB (({ g1 with label_counter := g1.label_counter + 1 + 1 } : GenState).emit "IF_FALSE" (some c) (some (labelName (g1.label_counter + 1))) none)) (fun t => labelTarget (({ g1 with label_counter := g1.label_counter + 1 + 1 } : GenState).emit "IF_FALSE" (some c) (some (labelName (g1.label_counter + 1))) none).label_counter (TACGenerator.visit_statements thenB (({ g1 with label_counter := g1.label_counter + 1 + 1 } : GenState).emit "IF_FALSE" (some c) (some (labelName (g1.label_counter + 1))) none)).label_counter t) st := ⟨hat, hct⟩
        have P5 := segC_emit_other (TACGenerator.visit_statements thenB (({ g1 with label_counter := g1.label_counter + 1 + 1 } : GenState).emit "IF_FALSE" (some c) (some (labelName (g1.label_counter + 1))) none)) "GOTO" (by decide) (some (labelName (g1.label_counter + 1 + 1))) none none
        have P6 := segC_emit_label ((TACGenerator.visit_statements thenB (({ g1 with label_counter := g1.label_counter + 1 + 1 } : GenState).emit "IF_FALSE" (some c) (some (labelName (g1.label_counter + 1))) none)).emit "GOTO" (some (labelName (g1.label_counter + 1 + 1))) none none) (labelName (g1.label_counter + 1))
        have P7 : SegC (((TACGenerator.visit_statements thenB (({ g1 with label_counter := g1.label_counter + 1 + 1 } : GenState).emit "IF_FALSE" (some c) (some (labelName (g1.label_counter + 1))) none)).emit "GOTO" (some (labelName (g1.label_counter + 1 + 1))) none none).emit "LABEL" (some (labelName (g1.label_counter + 1))) none none) (TACGenerator.visit_statements el (((TACGenerator.visit_statements thenB (({ g1 with label_counter := g1.label_counter + 1 + 1 } : GenState).emit "IF_FALSE" (some c) (some (labelName (g1.label_counter + 1))) none)).emit "GOTO" (some (labelName (g1.label_counter + 1 + 1))) none none).emit "LABEL" (some (labelName (g1.label_counter + 1))) none none)) (fun t => labelTarget (((TACGenerator.visit_statements thenB (({ g1 with label_counter := g1.label_counter + 1 + 1 } : GenState).emit "IF_FALSE" (some c) (some (labelName (g1.label_counter + 1))) none)).emit "GOTO" (some (labelName (g1.label_counter + 1 + 1))) none none).emit "LABEL" (some (labelName (g1.label_counter + 1))) none none).label_counter (TACGenerator.visit_statements el (((TACGenerator.visit_statements thenB (({ g1 with label_counter := g1.label_counter + 1 + 1 } : GenState).emit "IF_FALSE" (some c) (some (labelName (g1.label_counter + 1))) none)).emit "GOTO" (some (labelName (g1.label_counter + 1 + 1))) none none).emit "LABEL" (some (labelName (g1.label_counter + 1))) none none)).label_counter t) se := ⟨hae, hce⟩
        have P8 := segC_emit_label (TACGenerator.visit_statements el (((TACGenerator.visit_statements thenB (({ g1 with label_counter := g1.label_counter + 1 + 1 } : GenState).emit "IF_FALSE" (some c) (some (labelName (g1.label_counter + 1))) none)).emit "GOTO" (some (labelName (g1.label_counter + 1 + 1))) none none).emit "LABEL" (some (labelName (g1.label_counter + 1))) none none)) (labelName (g1.label_counter + 1 + 1))
        obtain ⟨haW, hcW⟩ := P1.trans (P2.trans (P3.trans (P4.trans (P5.trans (P6.trans (P7.trans P8))))))
        refine ⟨_, ⟨haW, ?_, ?_⟩, ?_⟩
        · have r1 : ((TACGenerator.visit_statements el (((TACGenerator.visit_statements thenB (({ g1 with label_counter := g1.label_counter + 1 + 1 } : GenState).emit "IF_FALSE" (some c) (some (labelName (g1.label_counter + 1))) none)).emit "GOTO" (some (labelName (g1.label_counter + 1 + 1))) none none).emit "LABEL" (some (labelName (g1.label_counter + 1))) none none)).emit "LABEL" (some (labelName (g1.label_counter + 1 + 1))) none none).label_counter = (TACGenerator.visit_statements el (((TACGenerator.visit_statements thenB (({ g1 with label_counter := g1.label_counter + 1 + 1 } : GenState).emit "IF_FALSE" (some c) (some (labelName (g1.label_counter + 1))) none)).emit "GOTO" (some (labelName (g1.label_counter + 1 + 1))) none none).emit "LABEL" (some (labelName (g1.label_counter + 1))) none none)).label_counter := rfl
          have r2 : (({ g1 with label_counter := g1.label_counter + 1 + 1 } : GenState).emit "IF_FALSE" (some c) (some (labelName (g1.label_counter + 1))) none).label_counter = g1.label_counter + 1 + 1 := rfl
          have r3 : (((TACGenerator.visit_statements thenB (({ g1 with label_counter := g1.label_counter + 1 + 1 } : GenState).emit "IF_FALSE" (some c) (some (labelName (g1.label_counter + 1))) none)).emit "GOTO" (some (labelName (g1.label_counter + 1 + 1))) none none).emit "LABEL" (some (labelName (g1.label_counter + 1))) none none).label_counter = (TACGenerator.visit_statements thenB (({ g1 with label_counter := g1.label_counter + 1 + 1 } : GenState).emit "IF_FALSE" (some c) (some (labelName (g1.label_counter + 1))) none)).label_counter := rfl
          rw [r1]
          rw [r2] at hmt
          rw [r3] at hme
          omega
        · intro t
          have h0 := hcW t
          simp only [Nat.zero_add, Nat.add_zero] at h0
          have r1 : ((TACGenerator.visit_statements el (((TACGenerator.visit_statements thenB (({ g1 with label_counter := g1.label_counter + 1 + 1 } : GenState).emit "IF_FALSE" (some c) (some (labelName (g1.label_counter + 1))) none)).emit "GOTO" (some (labelName (g1.label_counter + 1 + 1))) none none).emit "LABEL" (some (labelName (g1.label_counter + 1))) none none)).emit "LABEL" (some (labelName (g1.label_counter + 1 + 1))) none none).label_counter = (TACGenerator.visit_statements el (((TACGenerator.visit_statements thenB (({ g1 with label_counter := g1.label_counter + 1 + 1 } : GenState).emit "IF_FALSE" (some c) (some (labelName (g1.label_counter + 1))) none)).emit "GOTO" (some (labelName (g1.label_counter + 1 + 1))) none none).emit "LABEL" (some (labelName (g1.label_counter + 1))) none none)).label_counter := rfl
          have r2 : (({ g1 with label_counter := g1.label_counter + 1 + 1 } : GenState).emit "IF_FALSE" (some c) (some (labelName (g1.label_counter + 1))) none).label_counter = g1.label_counter + 1 + 1 := rfl
          have r3 : (((TACGenerator.visit_statements thenB (({ g1 with label_counter := g1.label_counter + 1 + 1 } : GenState).emit "IF_FALSE" (some c) (some (labelName (g1.label_counter + 1))) none)).emit "GOTO" (some (labelName (g1.label_counter + 1 + 1))) none none).emit "LABEL" (some (labelName (g1.label_counter + 1))) none none).label_counter = (TACGenerator.visit_statements thenB (({ g1 with label_counter := g1.label_counter + 1 + 1 } : GenState).emit "IF_FALSE" (some c) (some (labelName (g1.label_counter + 1))) none)).label_counter := rfl
          rw [r1, ← hlc]
          rw [r2] at hmt h0
          rw [r3] at hme h0
          have q1 := labelTarget_succ g1.label_counter t
          have q2 := labelTarget_succ (g1.label_counter + 1) t
          have c1 := labelTarget_trans (show g1.label_counter ≤ g1.label_counter + 1 by omega)
            (show g1.label_counter + 1 ≤ g1.label_counter + 1 + 1 by omega) t
          have hstep : g1.label_counter ≤ g1.label_counter + 1 + 1 := by omega
          have c2 := labelTarget_trans hstep hmt t
          have c3 := labelTarget_trans (le_trans hstep hmt) hme t
          omega
        · intro hnb
          simp only [stmtNoBareFor, stmtsOptNoBareFor, Bool.and_eq_true] at hnb
          obtain ⟨hnbt, hnbe⟩ := hnb
          refine lrIn_append (lrIn_of_no_labels _ hnc)
            (lrIn_append (lrIn_nil _)
              (lrIn_append (lrIn_single_other (by decide) _ _ _ _)
                (lrIn_append (lrIn_mono (by intro x hx; simp only [List.mem_append]; tauto) (hrt hnbt))
                  (lrIn_append (lrIn_single_other (by decide) _ _ _ _)
                    (lrIn_append
                      (lrIn_single_label ⟨⟨"IF_FALSE", some c, some (labelName (g1.label_counter + 1)), none⟩, by simp, by simp [refsLabel]⟩)
                      (lrIn_append (lrIn_mono (by intro x hx; simp only [List.mem_append]; tauto) (hre hnbe))
                        (lrIn_single_label ⟨⟨"GOTO", some (labelName (g1.label_counter + 1 + 1)), none, none⟩, by simp, by simp [refsLabel]⟩)))))))
  | .whileStatement cond body _ _, g, g2, heq, hnl => by
      simp only [stmtNoLabelOp, Bool.and_eq_true] at hnl
      obtain ⟨hcond, hbody⟩ := hnl
      rcases h1 : TACGenerator.visit_expression cond (({ g with label_counter := g.label_counter + 1 + 1 } : GenState).emit "LABEL" (some (labelName (g.label_counter + 1))) none none) with ⟨g4, c⟩
      have ihc := exprOptA cond _ g4 c h1 hcond
      simp only [TACGenerator.visit_statement, GenState.new_label, h1] at heq
      subst heq
      obtain ⟨sc, hac, hlc, hnc⟩ := ihc
      obtain ⟨sb, ⟨hab, hmb, hcb⟩, hrb⟩ := stmtsA body (g4.emit "IF_FALSE" (some c) (some (labelName (g.label_counter + 1 + 1))) none) _ rfl hbody
      have P1 := segC_label_bump g (g.label_counter + 1 + 1)
      have P2 := segC_emit_label ({ g with label_counter := g.label_counter + 1 + 1 } : GenState) (labelName (g.label_counter + 1))
      have P3 : SegC (({ g with label_counter := g.label_counter + 1 + 1 } : GenState).emit "LABEL" (some (labelName (g.label_counter + 1))) none none) g4 (fun _ => 0) sc := ⟨hac, fun t => labelCount_of_no_labels hnc t⟩
      have P4 := segC_emit_other g4 "IF_FALSE" (by decide) (some c) (some (labelName (g.label_counter + 1 + 1))) none
      have P5 : SegC (g4.emit "IF_FALSE" (some c) (some (labelName (g.label_counter + 1 + 1))) none) (TACGenerator.visit_statements body (g4.emit "IF_FALSE" (some c) (some (labelName (g.label_counter + 1 + 1))) none)) (fun t => labelTarget (g4.emit "IF_FALSE" (some c) (some (labelName (g.label_counter + 1 + 1))) none).label_counter (TACGenerator.visit_statements body (g4.emit "IF_FALSE" (some c) (some (labelName (g.label_counter + 1 + 1))) none)).label_counter t) sb := ⟨hab, hcb⟩
      have P6 := segC_emit_other (TACGenerator.visit_statements body (g4.emit "IF_FALSE" (some c) (some (labelName (g.label_counter + 1 + 1))) none)) "GOTO" (by decide) (some (labelName (g.label_counter + 1))) none none
      have P7 := segC_emit_label ((TACGenerator.visit_statements body (g4.emit "IF_FALSE" (some c) (some (labelName (g.label_counter + 1 + 1))) none)).emit "GOTO" (some (labelName (g.label_counter + 1))) none none) (labelName (g.label_counter + 1 + 1))
      obtain ⟨haW, hcW⟩ := P1.trans (P2.trans (P3.trans (P4.trans (P5.trans (P6.trans P7)))))
      refine ⟨_, ⟨haW, ?_, ?_⟩, ?_⟩
      · have r1 : (((TACGenerator.visit_statements body (g4.emit "IF_FALSE" (some c) (some (labelName (g.label_counter + 1 + 1))) none)).emit "GOTO" (some (labelName (g.label_counter + 1))) none none).emit "LABEL" (some (labelName (g.label_counter + 1 + 1))) none none).label_counter = (TACGenerator.visit_statements body (g4.emit "IF_FALSE" (some c) (some (labelName (g.label_counter + 1 + 1))) none)).label_counter := rfl
        have r2 : (({ g with label_counter := g.label_counter + 1 + 1 } : GenState).emit "LABEL" (some (labelName (g.label_counter + 1))) none none).label_counter = g.label_counter + 1 + 1 := rfl
        have r3 : (g4.emit "IF_FALSE" (some c) (some (labelName (g.label_counter + 1 + 1))) none).label_counter = g4.label_counter := rfl
        rw [r1]
        rw [r2] at hlc
        rw [r3] at hmb
        omega
      · intro t
        have h0 := hcW t
        simp only [Nat.zero_add, Nat.add_zero] at h0
        have r1 : (((TACGenerator.visit_statements body (g4.emit "IF_FALSE" (some c) (some (labelName (g.label_counter + 1 + 1))) none)).emit "GOTO" (some (labelName (g.label_counter + 1))) none none).emit "LABEL" (some (labelName (g.label_counter + 1 + 1))) none none).label_counter = (TACGenerator.visit_statements body (g4.emit "IF_FALSE" (some c) (some (labelName (g.label_counter + 1 + 1))) none)).label_counter := rfl
        have r2 : (({ g with label_counter := g.label_counter + 1 + 1 } : GenState).emit "LABEL" (some (labelName (g.label_counter + 1))) none none).label_counter = g.label_counter + 1 + 1 := rfl
        have r3 : (g4.emit "IF_FALSE" (some c) (some (labelName (g.label_counter + 1 + 1))) none).label_counter = g4.label_counter := rfl
        rw [r1]
        rw [r2] at hlc
        rw [r3] at hmb h0
        rw [hlc] at hmb h0
        have q1 := labelTarget_succ g.label_counter t
        have q2 := labelTarget_succ (g.label_counter + 1) t
        have c1 := labelTarget_trans (show g.label_counter ≤ g.label_counter + 1 by omega)
          (show g.label_counter + 1 ≤ g.label_counter + 1 + 1 by omega) t
        have hstep : g.label_counter ≤ g.label_counter + 1 + 1 := by omega
        have c2 := labelTarget_trans hstep hmb t
        omega
      · intro hnb
        simp only [stmtNoBareFor] at hnb
        refine lrIn_append (lrIn_nil _)
          (lrIn_append
            (lrIn_single_label ⟨⟨"GOTO", some (labelName (g.label_counter + 1)), none, none⟩, by simp, by simp [refsLabel]⟩)
            (lrIn_append (lrIn_of_no_labels _ hnc)
              (lrIn_append (lrIn_single_other (by decide) _ _ _ _)
                (lrIn_append (lrIn_mono (by intro x hx; simp only [List.mem_append]; tauto) (hrb hnb))
                  (lrIn_append (lrIn_single_other (by decide) _ _ _ _)
                    (lrIn_single_label ⟨⟨"IF_FALSE", some c, some (labelName (g.label_counter + 1 + 1)), none⟩, by simp, by simp [refsLabel]⟩))))))
  | .forStatement init cond update body ln col, g, g2, heq, hnl => by
      simp only [stmtNoLabelOp, Bool.and_eq_true] at hnl
      obtain ⟨⟨⟨hni, hnc⟩, hnu⟩, hnb2⟩ := hnl
      rw [visit_statement_for] at heq
      subst heq
      show ∃ seg, StmtPostA g (((forUpdateState update (TACGenerator.visit_statements body (forCondState cond (labelName ((forInitState init g).label_counter + 1 + 1)) (({ (forInitState init g) with label_counter := (forInitState init g).label_counter + 1 + 1 } : GenState).emit "LABEL" (some (labelName ((forInitState init g).label_counter + 1))) none none)))).emit "GOTO" (some (labelName ((forInitState init g).label_counter + 1))) none none).emit "LABEL" (some (labelName ((forInitState init g).label_counter + 1 + 1))) none none) seg ∧
        (stmtNoBareFor (.forStatement init cond update body ln col) = true →
          labelsResolvedIn seg seg)
      have PI : ∃ si, StmtPostA g (forInitState init g) si ∧
          (stmtOptNoBareFor init = true → labelsResolvedIn si si) := by
        cases init with
        | some i =>
            obtain ⟨si, hP, hr⟩ := stmtA i g _ rfl (by simpa [stmtOptNoLabelOp] using hni)
            exact ⟨si, hP, fun hnb => hr (by simpa [stmtOptNoBareFor] using hnb)⟩
        | none => exact ⟨[], stmtPostA_refl g, fun _ => lrIn_nil []⟩
      obtain ⟨si, ⟨hai, hmi, hci⟩, hri⟩ := PI
      have PC : ∃ sc2, (forCondState cond (labelName ((forInitState init g).label_counter + 1 + 1)) (({ (forInitState init g) with label_counter := (forInitState init g).label_counter + 1 + 1 } : GenState).emit "LABEL" (some (labelName ((forInitState init g).label_counter + 1))) none none)).tac_code = (({ (forInitState init g) with label_counter := (forInitState init g).label_counter + 1 + 1 } : GenState).emit "LABEL" (some (labelName ((forInitState init g).label_counter + 1))) none none).tac_code ++ sc2 ∧
          (forCondState cond (labelName ((forInitState init g).label_counter + 1 + 1)) (({ (forInitState init g) with label_counter := (forInitState init g).label_counter + 1 + 1 } : GenState).emit "LABEL" (some (labelName ((forInitState init g).label_counter + 1))) none none)).label_counter = (({ (forInitState init g) with label_counter := (forInitState init g).label_counter + 1 + 1 } : GenState).emit "LABEL" (some (labelName ((forInitState init g).label_counter + 1))) none none).label_counter ∧
          (∀ ins ∈ sc2, ins.op ≠ "LABEL") ∧
          (cond.isSome = true → ∃ ins2 ∈ sc2, refsLabel ins2 (labelName ((forInitState init g).label_counter + 1 + 1)) = true) := by
        cases cond with
        | none =>
            exact ⟨[], by simp [forCondState], rfl,
              fun ins h => absurd h (List.not_mem_nil ins), fun h => by simp at h⟩
        | some c0 =>
            rcases hvc : TACGenerator.visit_expression (some c0) (({ (forInitState init g) with label_counter := (forInitState init g).label_counter + 1 + 1 } : GenState).emit "LABEL" (some (labelName ((forInitState init g).label_counter + 1))) none none) with ⟨gc, cc⟩
            obtain ⟨sce, hace, hlce, hnce⟩ := exprOptA (some c0) _ gc cc hvc hnc
            refine ⟨sce ++ [⟨"IF_FALSE", some cc, some (labelName ((forInitState init g).label_counter + 1 + 1)), none⟩], ?_, ?_, ?_, ?_⟩
            · show (forCondState (some c0) (labelName ((forInitState init g).label_counter + 1 + 1)) (({ (forInitState init g) with label_counter := (forInitState init g).label_counter + 1 + 1 } : GenState).emit "LABEL" (some (labelName ((forInitState init g).label_counter + 1))) none none)).tac_code = _
              simp only [forCondState, hvc]
              dsimp only [GenState.emit]
              rw [hace, List.append_assoc]
              rfl
            · show (forCondState (some c0) (labelName ((forInitState init g).label_counter + 1 + 1)) (({ (forInitState init g) with label_counter := (forInitState init g).label_counter + 1 + 1 } : GenState).emit "LABEL" (some (labelName ((forInitState init g).label_counter + 1))) none none)).label_counter = _
              simp only [forCondState, hvc]
              exact hlce
            · intro ins hins
              rcases List.mem_append.mp hins with h | h
              · exact hnce ins h
              · rw [List.mem_singleton] at h
                subst h
                exact (by decide : ("IF_FALSE" : String) ≠ "LABEL")
            · intro _
              exact ⟨⟨"IF_FALSE", some cc, some (labelName ((forInitState init g).label_counter + 1 + 1)), none⟩, by simp, by simp [refsLabel]⟩
      obtain ⟨sc2, hacond, hlcond, hncond, hrefcond⟩ := PC
      obtain ⟨sb, ⟨hab, hmb, hcb⟩, hrb⟩ := stmtsA body (forCondState cond (labelName ((forInitState init g).label_counter + 1 + 1)) (({ (forInitState init g) with label_counter := (forInitState init g).label_counter + 1 + 1 } : GenState).emit "LABEL" (some (labelName ((forInitState init g).label_counter + 1))) none none)) _ rfl hnb2
      have PU : ∃ su, StmtPostA (TACGenerator.visit_statements body (forCondState cond (labelName ((forInitState init g).label_counter + 1 + 1)) (({ (forInitState init g) with label_counter := (forInitState init g).label_counter + 1 + 1 } : GenState).emit "LABEL" (some (labelName ((forInitState init g).label_counter + 1))) none none))) (forUpdateState update (TACGenerator.visit_statements body (forCondState cond (labelName ((forInitState init g).label_counter + 1 + 1)) (({ (forInitState init g) with label_counter := (forInitState init g).label_counter + 1 + 1 } : GenState).emit "LABEL" (some (labelName ((forInitState init g).label_counter + 1))) none none)))) su ∧
          (stmtOptNoBareFor update = true → labelsResolvedIn su su) := by
        cases update with
        | some u =>
            obtain ⟨su, hP, hr⟩ := stmtA u _ _ rfl (by simpa [stmtOptNoLabelOp] using hnu)
            exact ⟨su, hP, fun hnb => hr (by simpa [stmtOptNoBareFor] using hnb)⟩
        | none => exact ⟨[], stmtPostA_refl _, fun _ => lrIn_nil []⟩
      obtain ⟨su, ⟨hau, hmu, hcu⟩, hru⟩ := PU
      have P1 : SegC g (forInitState init g) (fun t => labelTarget g.label_counter (forInitState init g).label_counter t) si := ⟨hai, hci⟩
      have P2 := segC_label_bump (forInitState init g) ((forInitState init g).label_counter + 1 + 1)
      have P3 := segC_emit_label ({ (forInitState init g) with label_counter := (forInitState init g).label_counter + 1 + 1 } : GenState) (labelName ((forInitState init g).label_counter + 1))
      have P4 : SegC (({ (forInitState init g) with label_counter := (forInitState init g).label_counter + 1 + 1 } : GenState).emit "LABEL" (some (labelName ((forInitState init g).label_counter + 1))) none none) (forCondState cond (labelName ((forInitState init g).label_counter + 1 + 1)) (({ (forInitState init g) with label_counter := (forInitState init g).label_counter + 1 + 1 } : GenState).emit "LABEL" (some (labelName ((forInitState init g).label_counter + 1))) none none)) (fun _ => 0) sc2 := ⟨hacond, fun t => labelCount_of_no_labels hncond t⟩
      have P5 : SegC (forCondState cond (labelName ((forInitState init g).label_counter + 1 + 1)) (({ (forInitState init g) with label_counter := (forInitState init g).label_counter + 1 + 1 } : GenState).emit "LABEL" (some (labelName ((forInitState init g).label_counter + 1))) none none)) (TACGenerator.visit_statements body (forCondState cond (labelName ((forInitState init g).label_counter + 1 + 1)) (({ (forInitState init g) with label_counter := (forInitState init g).label_counter + 1 + 1 } : GenState).emit "LABEL" (some (labelName ((forInitState init g).label_counter + 1))) none none))) (fun t => labelTarget (forCondState cond (labelName ((forInitState init g).label_counter + 1 + 1)) (({ (forInitState init g) with label_counter := (forInitState init g).label_counter + 1 + 1 } : GenState).emit "LABEL" (some (labelName ((forInitState init g).label_counter + 1))) none none)).label_counter (TACGenerator.visit_statements body (forCondState cond (labelName ((forInitState init g).label_counter + 1 + 1)) (({ (forInitState init g) with label_counter := (forInitState init g).label_counter + 1 + 1 } : GenState).emit "LABEL" (some (labelName ((forInitState init g).label_counter + 1))) none none))).label_counter t) sb := ⟨hab, hcb⟩
      have P6 : SegC (TACGenerator.visit_statements body (forCondState cond (labelName ((forInitState init g).label_counter + 1 + 1)) (({ (forInitState init g) with label_counter := (forInitState init g).label_counter + 1 + 1 } : GenState).emit "LABEL" (some (labelName ((forInitState init g).label_counter + 1))) none none))) (forUpdateState update (TACGenerator.visit_statements body (forCondState cond (labelName ((forInitState init g).label_counter + 1 + 1)) (({ (forInitState init g) with label_counter := (forInitState init g).label_counter + 1 + 1 } : GenState).emit "LABEL" (some (labelName ((forInitState init g).label_counter + 1))) none none)))) (fun t => labelTarget (TACGenerator.visit_statements body (forCondState cond (labelName ((forInitState init g).label_counter + 1 + 1)) (({ (forInitState init g) with label_counter := (forInitState init g).label_counter + 1 + 1 } : GenState).emit "LABEL" (some (labelName ((forInitState init g).label_counter + 1))) none none))).label_counter (forUpdateState update (TACGenerator.visit_statements body (forCondState cond (labelName ((forInitState init g).label_counter + 1 + 1)) (({ (forInitState init g) with label_counter := (forInitState init g).label_counter + 1 + 1 } : GenState).emit "LABEL" (some (labelName ((forInitState init g).label_counter + 1))) none none)))).label_counter t) su := ⟨hau, hcu⟩
      have P7 := segC_emit_other (forUpdateState update (TACGenerator.visit_statements body (forCondState cond (labelName ((forInitState init g).label_counter + 1 + 1)) (({ (forInitState init g) with label_counter := (forInitState init g).label_counter + 1 + 1 } : GenState).emit "LABEL" (some (labelName ((forInitState init g).label_counter + 1))) none none)))) "GOTO" (by decide) (some (labelName ((forInitState init g).label_counter + 1))) none none
      have P8 := segC_emit_label ((forUpdateState update (TACGenerator.visit_statements body (forCondState cond (labelName ((forInitState init g).label_counter + 1 + 1)) (({ (forInitState init g) with label_counter := (forInitState init g).label_counter + 1 + 1 } : GenState).emit "LABEL" (some (labelName ((forInitState init g).label_counter + 1))) none none)))).emit "GOTO" (some (labelName ((forInitState init g).label_counter + 1))) none none) (labelName ((forInitState init g).label_counter + 1 + 1))
      obtain ⟨haW, hcW⟩ := P1.trans (P2.trans (P3.trans (P4.trans (P5.trans (P6.trans (P7.trans P8))))))
      refine ⟨_, ⟨haW, ?_, ?_⟩, ?_⟩
      · dsimp only [GenState.emit] at hmb hmu hlcond ⊢
        omega
      · intro t
        have h0 := hcW t
        simp only [Nat.zero_add, Nat.add_zero] at h0
        dsimp only [GenState.emit] at h0 hmb hmu hlcond ⊢
        rw [hlcond] at hmb h0
        have q1 := labelTarget_succ (forInitState init g).label_counter t
        have q2 := labelTarget_succ ((forInitState init g).label_counter + 1) t
        have c0 := labelTarget_trans
          (show (forInitState init g).label_counter ≤ (forInitState init g).label_counter + 1 by omega)
          (show (forInitState init g).label_counter + 1 ≤ (forInitState init g).label_counter + 1 + 1 by omega) t
        have c1 := labelTarget_trans hmi
          (show (forInitState init g).label_counter ≤ (forInitState init g).label_counter + 1 + 1 by omega) t
        have hstep : g.label_counter ≤ (forInitState init g).label_counter + 1 + 1 := by omega
        have c2 := labelTarget_trans hstep hmb t
        have c3 := labelTarget_trans (le_trans hstep hmb) hmu t
        omega
      · intro hnb
        simp only [stmtNoBareFor, Bool.and_eq_true] at hnb
        obtain ⟨⟨⟨hcs, hnbi⟩, hnbu⟩, hnbb⟩ := hnb
        obtain ⟨insr, hinsr, hrefr⟩ := hrefcond hcs
        refine lrIn_append (lrIn_mono (by intro x hx; simp only [List.mem_append]; tauto) (hri hnbi))
          (lrIn_append (lrIn_nil _)
            (lrIn_append
              (lrIn_single_label ⟨⟨"GOTO", some (labelName ((forInitState init g).label_counter + 1)), none, none⟩, by simp, by simp [refsLabel]⟩)
              (lrIn_append (lrIn_of_no_labels _ hncond)
                (lrIn_append (lrIn_mono (by intro x hx; simp only [List.mem_append]; tauto) (hrb hnbb))
                  (lrIn_append (lrIn_mono (by intro x hx; simp only [List.mem_append]; tauto) (hru hnbu))
                    (lrIn_append (lrIn_single_other (by decide) _ _ _ _)
                      (lrIn_single_label ⟨insr, by simp only [List.mem_append]; tauto, hrefr⟩)))))))
  | .functionDeclaration name params body _ _, g, g2, heq, hnl => by
      simp only [stmtNoLabelOp] at hnl
      simp only [TACGenerator.visit_statement, GenState.emit] at heq
      subst heq
      have ihp : ExprPostA g (TACGenerator.emit_params params (g.emit "FUNCTION" (some name) none none)) :=
        (exprPostA_emit (ExprPostA.refl g) "FUNCTION" (some name) none none
          (by decide)).trans (emitParamsA params _)
      obtain ⟨sc, hac, hlc, hnc⟩ := ihp
      obtain ⟨sb, ⟨hab, hmb, hcb⟩, hrb⟩ :=
        stmtsA body (TACGenerator.emit_params params (g.emit "FUNCTION" (some name) none none)) _ rfl hnl
      refine ⟨sc ++ (sb ++ [⟨"RETURN", none, none, none⟩]), ⟨?_, ?_, ?_⟩, ?_⟩
      · dsimp only [GenState.emit] at hab hac ⊢
        rw [hab, hac]
        simp [List.append_assoc]
      · dsimp only [GenState.emit] at hlc hmb ⊢
        omega
      · intro t
        dsimp only [GenState.emit] at hlc hmb hcb ⊢
        rw [labelCount_append, labelCount_append, labelCount_of_no_labels hnc,
          labelCount_single_other (show ("RETURN" : String) ≠ "LABEL" by decide), hcb t]
        rw [hlc]
        omega
      · intro hnb
        simp only [stmtNoBareFor] at hnb
        refine lrIn_append (lrIn_of_no_labels _ hnc)
          (lrIn_append (lrIn_mono (by intro x hx; simp only [List.mem_append]; tauto) (hrb hnb))
            (lrIn_single_other (by decide) _ _ _ _))
  | .returnStatement value _ _, g, g2, heq, hnl => by
      simp only [stmtNoLabelOp] at hnl
      cases value with
      | none =>
          simp only [TACGenerator.visit_statement] at heq
          subst heq
          obtain ⟨seg, hP, hres⟩ :=
            stmtPostA_expr_emit (ExprPostA.refl g) "RETURN" (by decide) none none none
          exact ⟨seg, hP, fun _ => hres⟩
      | some e =>
          rcases h1 : TACGenerator.visit_expression (some e) g with ⟨g1, r⟩
          have ih := exprOptA (some e) g g1 r h1 hnl
          simp only [TACGenerator.visit_statement, h1] at heq
          subst heq
          obtain ⟨seg, hP, hres⟩ :=
            stmtPostA_expr_emit ih "RETURN" (by decide) (some r) none none
          exact ⟨seg, hP, fun _ => hres⟩
  | .printStatement value _ _, g, g2, heq, hnl => by
      simp only [stmtNoLabelOp] at hnl
      rcases h1 : TACGenerator.visit_expression value g with ⟨g1, r⟩
      have ih := exprOptA value g g1 r h1 hnl
      simp only [TACGenerator.visit_statement, h1] at heq
      subst heq
      obtain ⟨seg, hP, hres⟩ :=
        stmtPostA_expr_emit ih "PRINT" (by decide) (some r) none none
      exact ⟨seg, hP, fun _ => hres⟩

theorem stmtsA : ∀ (l : List Stmt) (g g2 : GenState),
    TACGenerator.visit_statements l g = g2 → stmtsNoLabelOp l = true →
    ∃ seg, StmtPostA g g2 seg ∧ (stmtsNoBareFor l = true → labelsResolvedIn seg seg)
  | [], g, g2, heq, _ => by
      simp only [TACGenerator.visit_statements] at heq
      subst heq
      exact ⟨[], stmtPostA_refl g, fun _ => lrIn_nil []⟩
  | s :: rest, g, g2, heq, hnl => by
      simp only [stmtsNoLabelOp, Bool.and_eq_true] at hnl
      obtain ⟨hns, hnr⟩ := hnl
      simp only [TACGenerator.visit_statements] at heq
      subst heq
      obtain ⟨s1, ⟨ha1, hm1, hc1⟩, hr1⟩ := stmtA s g _ rfl hns
      obtain ⟨s2, ⟨ha2, hm2, hc2⟩, hr2⟩ := stmtsA rest _ _ rfl hnr
      refine ⟨s1 ++ s2, ⟨?_, le_trans hm1 hm2, ?_⟩, ?_⟩
      · rw [ha2, ha1, List.append_assoc]
      · intro t
        rw [labelCount_append, hc1 t, hc2 t, labelTarget_trans hm1 hm2]
      · intro hnb
        simp only [stmtsNoBareFor, Bool.and_eq_true] at hnb
        exact lrIn_append
          (lrIn_mono (fun x hx => List.mem_append_left _ hx) (hr1 hnb.1))
          (lrIn_mono (fun x hx => List.mem_append_right _ hx) (hr2 hnb.2))

end

/-- C4 (amended): for every program none of whose operator strings is
the literal opcode `LABEL` and none of whose `for` statements lacks a
condition, every `LABEL L` instruction in the generated TAC has at
least one `GOTO L` or `IF_FALSE _, L` referring to it, and no two
`LABEL` instructions carry the same name.  (The no-bare-`for`
hypothesis is forced by the `for (;;)` counterexample, whose end label
is emitted but never referenced.) -/
theorem c4_labels_resolved_and_distinct (p : Program)
    (h1 : programNoLabelOp p = true) (h2 : programNoBareFor p = true) :
    labelsResolved (TACGenerator.generate p).tac_code ∧
      (labelNames (TACGenerator.generate p).tac_code).Nodup := by
  obtain ⟨seg, ⟨ha, hm, hc⟩, hr⟩ := stmtsA p.statements {} _ rfl h1
  have hcode : (TACGenerator.generate p).tac_code = seg := ha.trans (List.nil_append seg)
  constructor
  · rw [hcode]
    exact hr h2
  · rw [hcode]
    refine List.nodup_iff_count_le_one.mpr ?_
    intro s
    rw [labelNames_count, hc s]
    exact labelTarget_le_one _ _ s

/-- Witness for C4 at the nested-if program. -/
theorem c4_labels_resolved_and_distinct_witness :
    programNoLabelOp c5NestProg = true ∧ programNoBareFor c5NestProg = true ∧
      (labelsResolved (TACGenerator.generate c5NestProg).tac_code ∧
        (labelNames (TACGenerator.generate c5NestProg).tac_code).Nodup) :=
  ⟨by decide, by decide,
   c4_labels_resolved_and_distinct c5NestProg (by decide) (by decide)⟩

/-- `while (a < b) ... x = a + b; ...` — exercises both counters. -/
def c5WitProg : Program :=
  ⟨[.whileStatement (some (.binaryOp (some (.identifier "a" 1 8)) "<"
      (some (.identifier "b" 1 12)) 1 10))
      [.assignment "x" (some (.binaryOp (some (.identifier "a" 2 7)) "+"
        (some (.identifier "b" 2 11)) 2 9)) 2 3] 1 1]⟩

/-- C5 (amended): allocation is gapless — in the TAC generated for a
clash-free program whose operator strings are not `LABEL`, each
temporary `t1..tN` (`N` = final `temp_counter`) is assigned by exactly
one instruction, and each label `L1..LM` (`M` = final `label_counter`)
is emitted by exactly one `LABEL` instruction; but emission order does
not follow the allocation order `t1..tN` / `L1..LM` (see the
counterexample: a call result temporary is allocated before its
argument temporaries, and loop labels of nested constructs are emitted
out of numeric order). -/
theorem c5_counters_gapless (p : Program)
    (h1 : noTempClash p = true) (h2 : programNoLabelOp p = true) :
    (∀ i, 1 ≤ i → tempCount (TACGenerator.generate p).tac_code i =
        if i ≤ (TACGenerator.generate p).temp_counter then 1 else 0) ∧
    (∀ j, 1 ≤ j → labelCount (TACGenerator.generate p).tac_code (labelName j) =
        if j ≤ (TACGenerator.generate p).label_counter then 1 else 0) := by
  rw [show TACGenerator.generate p = TACGenerator.visit_statements p.statements {} from rfl]
  constructor
  · obtain ⟨seg, ha, hm, hc, hd⟩ := stmtsB p.statements {} _ rfl h1
    have hcode : (TACGenerator.visit_statements p.statements {}).tac_code = seg :=
      ha.trans (List.nil_append seg)
    intro i hi
    rw [hcode, hc i hi]
    have h0 : ({} : GenState).temp_counter = 0 := rfl
    rw [h0]
    split_ifs <;> omega
  · obtain ⟨seg, ⟨ha, hm, hc⟩, _⟩ := stmtsA p.statements {} _ rfl h2
    have hcode : (TACGenerator.visit_statements p.statements {}).tac_code = seg :=
      ha.trans (List.nil_append seg)
    intro j hj
    rw [hcode, hc (labelName j), labelTarget_name]
    have h0 : ({} : GenState).label_counter = 0 := rfl
    rw [h0]
    split_ifs <;> omega

/-- Witness for C5 at a while loop with compound condition and body. -/
theorem c5_counters_gapless_witness :
    noTempClash c5WitProg = true ∧ programNoLabelOp c5WitProg = true ∧
    tempCount (TACGenerator.generate c5WitProg).tac_code 2 =
      (if 2 ≤ (TACGenerator.generate c5WitProg).temp_counter then 1 else 0) ∧
    labelCount (TACGenerator.generate c5WitProg).tac_code (labelName 2) =
      (if 2 ≤ (TACGenerator.generate c5WitProg).label_counter then 1 else 0) :=
  ⟨by decide, by decide,
   (c5_counters_gapless c5WitProg (by decide) (by decide)).1 2 (by decide),
   (c5_counters_gapless c5WitProg (by decide) (by decide)).2 2 (by decide)⟩

/-- C10 (amended): if no program-contributed name or literal rendering
has the shape `t<digits>` of a generated temporary, then every
temporary occurring as `arg1` or `arg2` of an instruction in the
generated TAC is the `result` of a strictly earlier instruction.  (The
clash-freedom hypothesis is forced by the `var x = t1;`
counterexample.) -/
theorem c10_def_before_use (p : Program) (h : noTempClash p = true) :
    defBefore (TACGenerator.generate p).tac_code := by
  obtain ⟨seg, ha, hm, hc, hd⟩ := stmtsB p.statements {} _ rfl h
  exact hd defBefore_nil

/-- Witness for C10 at the compound-argument call program. -/
theorem c10_def_before_use_witness :
    noTempClash c5Prog = true ∧ defBefore (TACGenerator.generate c5Prog).tac_code :=
  ⟨by decide, c10_def_before_use c5Prog (by decide)⟩

/-! ### Position discipline of the parser (C6) -/

/-- The line recorded in an expression node. -/
def exprLine : Expr → Nat
  | .binaryOp _ _ _ ln _ => ln
  | .unaryOp _ _ ln _ => ln
  | .identifier _ ln _ => ln
  | .intLit _ ln _ => ln
  | .floatLit _ ln _ => ln
  | .stringLit _ ln _ => ln
  | .boolLit _ ln _ => ln
  | .functionCall _ _ ln _ => ln
  | .arrayAccess _ _ ln _ => ln

/-- The column recorded in an expression node. -/
def exprCol : Expr → Nat
  | .binaryOp _ _ _ _ col => col
  | .unaryOp _ _ _ col => col
  | .identifier _ _ col => col
  | .intLit _ _ col => col
  | .floatLit _ _ col => col
  | .stringLit _ _ col => col
  | .boolLit _ _ col => col
  | .functionCall _ _ _ col => col
  | .arrayAccess _ _ _ col => col

/-- The line recorded in a statement node. -/
def stmtLine : Stmt → Nat
  | .varDeclaration _ _ _ ln _ => ln
  | .assignment _ _ ln _ => ln
  | .ifStatement _ _ _ ln _ => ln
  | .whileStatement _ _ ln _ => ln
  | .forStatement _ _ _ _ ln _ => ln
  | .functionDeclaration _ _ _ ln _ => ln
  | .returnStatement _ ln _ => ln
  | .printStatement _ ln _ => ln

/-- The column recorded in a statement node. -/
def stmtCol : Stmt → Nat
  | .varDeclaration _ _ _ _ col => col
  | .assignment _ _ _ col => col
  | .ifStatement _ _ _ _ col => col
  | .whileStatement _ _ _ col => col
  | .forStatement _ _ _ _ _ col => col
  | .functionDeclaration _ _ _ _ col => col
  | .returnStatement _ _ col => col
  | .printStatement _ _ col => col

/-- The token types matched by the six binary precedence levels. -/
def binOpTypes : List TokenType :=
  [.OR, .AND, .EQ, .NE, .LT, .GT, .LE, .GE, .PLUS, .MINUS, .STAR, .SLASH, .PERCENT]

/-- `e` is a `BinaryOp` whose operator lexeme and line/column are those
of a binary-operator token of the stream (its operator token). -/
def binOpAtOperatorTok (toks : List Token) (e : Expr) : Prop :=
  ∃ l op r ln col, e = .binaryOp l op r ln col ∧
    ∃ t ∈ toks, t.type ∈ binOpTypes ∧ t.lexeme = op ∧ t.line = ln ∧ t.column = col

/-- Position discipline for the node an expression routine entered at
`st` returns: it carries the line/column of the routine's first token —
unless the construct starts with `(` (the parenthesis branch of
`primary` returns the inner node unchanged, positioned after the `(`),
or the node is a `BinaryOp`, which carries its operator token's
line/column instead. -/
def ExprPosOk (st : PState) (e : Expr) : Prop :=
  (exprLine e = (pCurrent st).line ∧ exprCol e = (pCurrent st).column) ∨
  (pCurrent st).type = TokenType.LPAREN ∨
  binOpAtOperatorTok st.tokens e

/-- Position discipline for the node a statement routine entered at
`st` returns: it carries the line/column of the routine's first token,
unless the statement starts with `(` (an assignment whose target was
parsed as a parenthesized identifier is positioned at the identifier). -/
def StmtPosOk (st : PState) (s : Stmt) : Prop :=
  (stmtLine s = (pCurrent st).line ∧ stmtCol s = (pCurrent st).column) ∨
  (pCurrent st).type = TokenType.LPAREN

theorem pAdvance_tokens (st : PState) : ((pAdvance st).2).tokens = st.tokens := by
  unfold pAdvance
  split <;> rfl

theorem pAdvance_fst (st : PState) : (pAdvance st).1 = pCurrent st := rfl

theorem pConsume_tokens (tt : TokenType) (st : PState) :
    ((pConsume tt st).2).tokens = st.tokens := by
  unfold pConsume
  split
  · rfl
  · exact pAdvance_tokens st

theorem pConsume_ok {tt : TokenType} {st : PState} {t : Token} {st2 : PState}
    (h : pConsume tt st = (.ok t, st2)) : t = pCurrent st ∧ st2.tokens = st.tokens := by
  constructor
  · unfold pConsume at h
    split at h
    · cases (Prod.mk.injEq .. ▸ h : _ ∧ _).1
    · exact ((Except.ok.injEq .. ▸ (Prod.mk.injEq .. ▸ h : _ ∧ _).1 : _)).symm
  · have := pConsume_tokens tt st
    rw [h] at this
    exact this

theorem pCurrent_mem_of_ne_eof (st : PState) (h : (pCurrent st).type ≠ .EOF) :
    pCurrent st ∈ st.tokens := by
  by_cases hnil : st.tokens = []
  · exfalso
    apply h
    unfold pCurrent
    rw [hnil]
    simp [dummyToken]
  · unfold pCurrent
    split
    · next hlt =>
        rw [List.getD_eq_getElem st.tokens dummyToken hlt]
        exact List.getElem_mem hlt
    · rw [List.getLastD_eq_getLast?, List.getLast?_eq_getLast st.tokens hnil]
      simp only [Option.getD_some]
      exact List.getLast_mem hnil


mutual

theorem expressionF_pos : ∀ (fuel : Nat) (st : PState) (e : Expr) (st2 : PState),
    expressionF fuel st = some (.ok e, st2) → st2.tokens = st.tokens ∧ ExprPosOk st e
  | 0, _, _, _, heq => by simp [expressionF] at heq
  | fuel + 1, st, e, st2, heq => by
      simp only [expressionF] at heq
      exact logicalOrF_pos fuel st e st2 heq

theorem logicalOrF_pos : ∀ (fuel : Nat) (st : PState) (e : Expr) (st2 : PState),
    logicalOrF fuel st = some (.ok e, st2) → st2.tokens = st.tokens ∧ ExprPosOk st e
  | 0, _, _, _, heq => by simp [logicalOrF] at heq
  | fuel + 1, st, e, st2, heq => by
      simp only [logicalOrF] at heq
      rcases h1 : logicalAndF fuel st with _ | ⟨er | a, st1⟩
      · rw [h1] at heq
        simp [bindE] at heq
      · rw [h1] at heq
        simp [bindE] at heq
      · rw [h1] at heq
        simp only [bindE] at heq
        obtain ⟨hsA, hposA⟩ := logicalAndF_pos fuel st a st1 h1
        obtain ⟨hsL, hdisj⟩ := orLoopF_pos fuel a st1 e st2 heq
        refine ⟨by rw [hsL, hsA], ?_⟩
        rcases hdisj with rfl | hbin
        · exact hposA
        · rw [hsA] at hbin
          exact Or.inr (Or.inr hbin)

theorem logicalAndF_pos : ∀ (fuel : Nat) (st : PState) (e : Expr) (st2 : PState),
    logicalAndF fuel st = some (.ok e, st2) → st2.tokens = st.tokens ∧ ExprPosOk st e
  | 0, _, _, _, heq => by simp [logicalAndF] at heq
  | fuel + 1, st, e, st2, heq => by
      simp only [logicalAndF] at heq
      rcases h1 : equalityF fuel st with _ | ⟨er | a, st1⟩
      · rw [h1] at heq
        simp [bindE] at heq
      · rw [h1] at heq
        simp [bindE] at heq
      · rw [h1] at heq
        simp only [bindE] at heq
        obtain ⟨hsA, hposA⟩ := equalityF_pos fuel st a st1 h1
        obtain ⟨hsL, hdisj⟩ := andLoopF_pos fuel a st1 e st2 heq
        refine ⟨by rw [hsL, hsA], ?_⟩
        rcases hdisj with rfl | hbin
        · exact hposA
        · rw [hsA] at hbin
          exact Or.inr (Or.inr hbin)

theorem equalityF_pos : ∀ (fuel : Nat) (st : PState) (e : Expr) (st2 : PState),
    equalityF fuel st = some (.ok e, st2) → st2.tokens = st.tokens ∧ ExprPosOk st e
  | 0, _, _, _, heq => by simp [equalityF] at heq
  | fuel + 1, st, e, st2, heq => by
      simp only [equalityF] at heq
      rcases h1 : comparisonF fuel st with _ | ⟨er | a, st1⟩
      · rw [h1] at heq
        simp [bindE] at heq
      · rw [h1] at heq
        simp [bindE] at heq
      · rw [h1] at heq
        simp only [bindE] at heq
        obtain ⟨hsA, hposA⟩ := comparisonF_pos fuel st a st1 h1
        obtain ⟨hsL, hdisj⟩ := eqLoopF_pos fuel a st1 e st2 heq
        refine ⟨by rw [hsL, hsA], ?_⟩
        rcases hdisj with rfl | hbin
        · exact hposA
        · rw [hsA] at hbin
          exact Or.inr (Or.inr hbin)

theorem comparisonF_pos : ∀ (fuel : Nat) (st : PState) (e : Expr) (st2 : PState),
    comparisonF fuel st = some (.ok e, st2) → st2.tokens = st.tokens ∧ ExprPosOk st e
  | 0, _, _, _, heq => by simp [comparisonF] at heq
  | fuel + 1, st, e, st2, heq => by
      simp only [comparisonF] at heq
      rcases h1 : additiveF fuel st with _ | ⟨er | a, st1⟩
      · rw [h1] at heq
        simp [bindE] at heq
      · rw [h1] at heq
        simp [bindE] at heq
      · rw [h1] at heq
        simp only [bindE] at heq
        obtain ⟨hsA, hposA⟩ := additiveF_pos fuel st a st1 h1
        obtain ⟨hsL, hdisj⟩ := compLoopF_pos fuel a st1 e st2 heq
        refine ⟨by rw [hsL, hsA], ?_⟩
        rcases hdisj with rfl | hbin
        · exact hposA
        · rw [hsA] at hbin
          exact Or.inr (Or.inr hbin)

theorem additiveF_pos : ∀ (fuel : Nat) (st : PState) (e : Expr) (st2 : PState),
    additiveF fuel st = some (.ok e, st2) → st2.tokens = st.tokens ∧ ExprPosOk st e
  | 0, _, _, _, heq => by simp [additiveF] at heq
  | fuel + 1, st, e, st2, heq => by
      simp only [additiveF] at heq
      rcases h1 : multiplicativeF fuel st with _ | ⟨er | a, st1⟩
      · rw [h1] at heq
        simp [bindE] at heq
      · rw [h1] at heq
        simp [bindE] at heq
      · rw [h1] at heq
        simp only [bindE] at heq
        obtain ⟨hsA, hposA⟩ := multiplicativeF_pos fuel st a st1 h1
        obtain ⟨hsL, hdisj⟩ := addLoopF_pos fuel a st1 e st2 heq
        refine ⟨by rw [hsL, hsA], ?_⟩
        rcases hdisj with rfl | hbin
        · exact hposA
        · rw [hsA] at hbin
          exact Or.inr (Or.inr hbin)

theorem multiplicativeF_pos : ∀ (fuel : Nat) (st : PState) (e : Expr) (st2 : PState),
    multiplicativeF fuel st = some (.ok e, st2) → st2.tokens = st.tokens ∧ ExprPosOk st e
  | 0, _, _, _, heq => by simp [multiplicativeF] at heq
  | fuel + 1, st, e, st2, heq => by
      simp only [multiplicativeF] at heq
      rcases h1 : unaryF fuel st with _ | ⟨er | a, st1⟩
      · rw [h1] at heq
        simp [bindE] at heq
      · rw [h1] at heq
        simp [bindE] at heq
      · rw [h1] at heq
        simp only [bindE] at heq
        obtain ⟨hsA, hposA⟩ := unaryF_pos fuel st a st1 h1
        obtain ⟨hsL, hdisj⟩ := mulLoopF_pos fuel a st1 e st2 heq
        refine ⟨by rw [hsL, hsA], ?_⟩
        rcases hdisj with rfl | hbin
        · exact hposA
        · rw [hsA] at hbin
          exact Or.inr (Or.inr hbin)

theorem orLoopF_pos : ∀ (fuel : Nat) (acc : Expr) (st : PState) (e : Expr) (st2 : PState),
    orLoopF fuel acc st = some (.ok e, st2) →
    st2.tokens = st.tokens ∧ (e = acc ∨ binOpAtOperatorTok st.tokens e)
  | 0, _, _, _, _, heq => by simp [orLoopF] at heq
  | fuel + 1, acc, st, e, st2, heq => by
      simp only [orLoopF] at heq
      by_cases hm : pMatch st [TokenType.OR]
      · rw [if_pos hm] at heq
        rcases hadv : pAdvance st with ⟨opTok, st1⟩
        simp only [hadv] at heq
        have hop : pCurrent st = opTok := congrArg Prod.fst hadv
        have hst1 : st1.tokens = st.tokens := by
          have h2 := pAdvance_tokens st
          rw [hadv] at h2
          exact h2
        have hm2 : (pCurrent st).type = TokenType.OR := by simpa [pMatch] using hm
        have hb2 : (pCurrent st).type ∈ binOpTypes ∧ (pCurrent st).type ≠ TokenType.EOF := by
          rw [hm2]
          exact ⟨by decide, by decide⟩
        rcases h1 : logicalAndF fuel st1 with _ | ⟨er | right, stA⟩
        · rw [h1] at heq
          simp [bindE] at heq
        · rw [h1] at heq
          simp [bindE] at heq
        · rw [h1] at heq
          simp only [bindE] at heq
          obtain ⟨hsA, _⟩ := logicalAndF_pos fuel st1 right stA h1
          obtain ⟨hs2, hdisj⟩ := orLoopF_pos fuel _ stA e st2 heq
          refine ⟨by rw [hs2, hsA, hst1], Or.inr ?_⟩
          rcases hdisj with rfl | hbin
          · refine ⟨some acc, opTok.lexeme, some right, opTok.line, opTok.column, rfl,
              opTok, ?_, ?_, rfl, rfl, rfl⟩
            · rw [← hop]
              exact pCurrent_mem_of_ne_eof st hb2.2
            · rw [← hop]
              exact hb2.1
          · rw [hsA, hst1] at hbin
            exact hbin
      · rw [if_neg hm] at heq
        simp only [retE, Option.some.injEq, Prod.mk.injEq, Except.ok.injEq] at heq
        obtain ⟨he, hst⟩ := heq
        subst he
        subst hst
        exact ⟨rfl, Or.inl rfl⟩

theorem andLoopF_pos : ∀ (fuel : Nat) (acc : Expr) (st : PState) (e : Expr) (st2 : PState),
    andLoopF fuel acc st = some (.ok e, st2) →
    st2.tokens = st.tokens ∧ (e = acc ∨ binOpAtOperatorTok st.tokens e)
  | 0, _, _, _, _, heq => by simp [andLoopF] at heq
  | fuel + 1, acc, st, e, st2, heq => by
      simp only [andLoopF] at heq
      by_cases hm : pMatch st [TokenType.AND]
      · rw [if_pos hm] at heq
        rcases hadv : pAdvance st with ⟨opTok, st1⟩
        simp only [hadv] at heq
        have hop : pCurrent st = opTok := congrArg Prod.fst hadv
        have hst1 : st1.tokens = st.tokens := by
          have h2 := pAdvance_tokens st
          rw [hadv] at h2
          exact h2
        have hm2 : (pCurrent st).type = TokenType.AND := by simpa [pMatch] using hm
        have hb2 : (pCurrent st).type ∈ binOpTypes ∧ (pCurrent st).type ≠ TokenType.EOF := by
          rw [hm2]
          exact ⟨by decide, by decide⟩
        rcases h1 : equalityF fuel st1 with _ | ⟨er | right, stA⟩
        · rw [h1] at heq
          simp [bindE] at heq
        · rw [h1] at heq
          simp [bindE] at heq
        · rw [h1] at heq
          simp only [bindE] at heq
          obtain ⟨hsA, _⟩ := equalityF_pos fuel st1 right stA h1
          obtain ⟨hs2, hdisj⟩ := andLoopF_pos fuel _ stA e st2 heq
          refine ⟨by rw [hs2, hsA, hst1], Or.inr ?_⟩
          rcases hdisj with rfl | hbin
          · refine ⟨some acc, opTok.lexeme, some right, opTok.line, opTok.column, rfl,
              opTok, ?_, ?_, rfl, rfl, rfl⟩
            · rw [← hop]
              exact pCurrent_mem_of_ne_eof st hb2.2
            · rw [← hop]
              exact hb2.1
          · rw [hsA, hst1] at hbin
            exact hbin
      · rw [if_neg hm] at heq
        simp only [retE, Option.some.injEq, Prod.mk.injEq, Except.ok.injEq] at heq
        obtain ⟨he, hst⟩ := heq
        subst he
        subst hst
        exact ⟨rfl, Or.inl rfl⟩

theorem eqLoopF_pos : ∀ (fuel : Nat) (acc : Expr) (st : PState) (e : Expr) (st2 : PState),
    eqLoopF fuel acc st = some (.ok e, st2) →
    st2.tokens = st.tokens ∧ (e = acc ∨ binOpAtOperatorTok st.tokens e)
  | 0, _, _, _, _, heq => by simp [eqLoopF] at heq
  | fuel + 1, acc, st, e, st2, heq => by
      simp only [eqLoopF] at heq
      by_cases hm : pMatch st [TokenType.EQ, TokenType.NE]
      · rw [if_pos hm] at heq
        rcases hadv : pAdvance st with ⟨opTok, st1⟩
        simp only [hadv] at heq
        have hop : pCurrent st = opTok := congrArg Prod.fst hadv
        have hst1 : st1.tokens = st.tokens := by
          have h2 := pAdvance_tokens st
          rw [hadv] at h2
          exact h2
        have hm2 : (pCurrent st).type = TokenType.EQ ∨ (pCurrent st).type = TokenType.NE := by simpa [pMatch] using hm
        have hb2 : (pCurrent st).type ∈ binOpTypes ∧ (pCurrent st).type ≠ TokenType.EOF := by
          rcases hm2 with h | h <;> rw [h] <;> exact ⟨by decide, by decide⟩
        rcases h1 : comparisonF fuel st1 with _ | ⟨er | right, stA⟩
        · rw [h1] at heq
          simp [bindE] at heq
        · rw [h1] at heq
          simp [bindE] at heq
        · rw [h1] at heq
          simp only [bindE] at heq
          obtain ⟨hsA, _⟩ := comparisonF_pos fuel st1 right stA h1
          obtain ⟨hs2, hdisj⟩ := eqLoopF_pos fuel _ stA e st2 heq
          refine ⟨by rw [hs2, hsA, hst1], Or.inr ?_⟩
          rcases hdisj with rfl | hbin
          · refine ⟨some acc, opTok.lexeme, some right, opTok.line, opTok.column, rfl,
              opTok, ?_, ?_, rfl, rfl, rfl⟩
            · rw [← hop]
              exact pCurrent_mem_of_ne_eof st hb2.2
            · rw [← hop]
              exact hb2.1
          · rw [hsA, hst1] at hbin
            exact hbin
      · rw [if_neg hm] at heq
        simp only [retE, Option.some.injEq, Prod.mk.injEq, Except.ok.injEq] at heq
        obtain ⟨he, hst⟩ := heq
        subst he
        subst hst
        exact ⟨rfl, Or.inl rfl⟩

theorem compLoopF_pos : ∀ (fuel : Nat) (acc : Expr) (st : PState) (e : Expr) (st2 : PState),
    compLoopF fuel acc st = some (.ok e, st2) →
    st2.tokens = st.tokens ∧ (e = acc ∨ binOpAtOperatorTok st.tokens e)
  | 0, _, _, _, _, heq => by simp [compLoopF] at heq
  | fuel + 1, acc, st, e, st2, heq => by
      simp only [compLoopF] at heq
      by_cases hm : pMatch st [TokenType.LT, TokenType.GT, TokenType.LE, TokenType.GE]
      · rw [if_pos hm] at heq
        rcases hadv : pAdvance st with ⟨opTok, st1⟩
        simp only [hadv] at heq
        have hop : pCurrent st = opTok := congrArg Prod.fst hadv
        have hst1 : st1.tokens = st.tokens := by
          have h2 := pAdvance_tokens st
          rw [hadv] at h2
          exact h2
        have hm2 : (pCurrent st).type = TokenType.LT ∨ (pCurrent st).type = TokenType.GT ∨ (pCurrent st).type = TokenType.LE ∨ (pCurrent st).type = TokenType.GE := by simpa [pMatch] using hm
        have hb2 : (pCurrent st).type ∈ binOpTypes ∧ (pCurrent st).type ≠ TokenType.EOF := by
          rcases hm2 with h | h | h | h <;> rw [h] <;> exact ⟨by decide, by decide⟩
        rcases h1 : additiveF fuel st1 with _ | ⟨er | right, stA⟩
        · rw [h1] at heq
          simp [bindE] at heq
        · rw [h1] at heq
          simp [bindE] at heq
        · rw [h1] at heq
          simp only [bindE] at heq
          obtain ⟨hsA, _⟩ := additiveF_pos fuel st1 right stA h1
          obtain ⟨hs2, hdisj⟩ := compLoopF_pos fuel _ stA e st2 heq
          refine ⟨by rw [hs2, hsA, hst1], Or.inr ?_⟩
          rcases hdisj with rfl | hbin
          · refine ⟨some acc, opTok.lexeme, some right, opTok.line, opTok.column, rfl,
              opTok, ?_, ?_, rfl, rfl, rfl⟩
            · rw [← hop]
              exact pCurrent_mem_of_ne_eof st hb2.2
            · rw [← hop]
              exact hb2.1
          · rw [hsA, hst1] at hbin
            exact hbin
      · rw [if_neg hm] at heq
        simp only [retE, Option.some.injEq, Prod.mk.injEq, Except.ok.injEq] at heq
        obtain ⟨he, hst⟩ := heq
        subst he
        subst hst
        exact ⟨rfl, Or.inl rfl⟩

theorem addLoopF_pos : ∀ (fuel : Nat) (acc : Expr) (st : PState) (e : Expr) (st2 : PState),
    addLoopF fuel acc st = some (.ok e, st2) →
    st2.tokens = st.tokens ∧ (e = acc ∨ binOpAtOperatorTok st.tokens e)
  | 0, _, _, _, _, heq => by simp [addLoopF] at heq
  | fuel + 1, acc, st, e, st2, heq => by
      simp only [addLoopF] at heq
      by_cases hm : pMatch st [TokenType.PLUS, TokenType.MINUS]
      · rw [if_pos hm] at heq
        rcases hadv : pAdvance st with ⟨opTok, st1⟩
        simp only [hadv] at heq
        have hop : pCurrent st = opTok := congrArg Prod.fst hadv
        have hst1 : st1.tokens = st.tokens := by
          have h2 := pAdvance_tokens st
          rw [hadv] at h2
          exact h2
        have hm2 : (pCurrent st).type = TokenType.PLUS ∨ (pCurrent st).type = TokenType.MINUS := by simpa [pMatch] using hm
        have hb2 : (pCurrent st).type ∈ binOpTypes ∧ (pCurrent st).type ≠ TokenType.EOF := by
          rcases hm2 with h | h <;> rw [h] <;> exact ⟨by decide, by decide⟩
        rcases h1 : multiplicativeF fuel st1 with _ | ⟨er | right, stA⟩
        · rw [h1] at heq
          simp [bindE] at heq
        · rw [h1] at heq
          simp [bindE] at heq
        · rw [h1] at heq
          simp only [bindE] at heq
          obtain ⟨hsA, _⟩ := multiplicativeF_pos fuel st1 right stA h1
          obtain ⟨hs2, hdisj⟩ := addLoopF_pos fuel _ stA e st2 heq
          refine ⟨by rw [hs2, hsA, hst1], Or.inr ?_⟩
          rcases hdisj with rfl | hbin
          · refine ⟨some acc, opTok.lexeme, some right, opTok.line, opTok.column, rfl,
              opTok, ?_, ?_, rfl, rfl, rfl⟩
            · rw [← hop]
              exact pCurrent_mem_of_ne_eof st hb2.2
            · rw [← hop]
              exact hb2.1
          · rw [hsA, hst1] at hbin
            exact hbin
      · rw [if_neg hm] at heq
        simp only [retE, Option.some.injEq, Prod.mk.injEq, Except.ok.injEq] at heq
        obtain ⟨he, hst⟩ := heq
        subst he
        subst hst
        exact ⟨rfl, Or.inl rfl⟩

theorem mulLoopF_pos : ∀ (fuel : Nat) (acc : Expr) (st : PState) (e : Expr) (st2 : PState),
    mulLoopF fuel acc st = some (.ok e, st2) →
    st2.tokens = st.tokens ∧ (e = acc ∨ binOpAtOperatorTok st.tokens e)
  | 0, _, _, _, _, heq => by simp [mulLoopF] at heq
  | fuel + 1, acc, st, e, st2, heq => by
      simp only [mulLoopF] at heq
      by_cases hm : pMatch st [TokenType.STAR, TokenType.SLASH, TokenType.PERCENT]
      · rw [if_pos hm] at heq
        rcases hadv : pAdvance st with ⟨opTok, st1⟩
        simp only [hadv] at heq
        have hop : pCurrent st = opTok := congrArg Prod.fst hadv
        have hst1 : st1.tokens = st.tokens := by
          have h2 := pAdvance_tokens st
          rw [hadv] at h2
          exact h2
        have hm2 : (pCurrent st).type = TokenType.STAR ∨ (pCurrent st).type = TokenType.SLASH ∨ (pCurrent st).type = TokenType.PERCENT := by simpa [pMatch] using hm
        have hb2 : (pCurrent st).type ∈ binOpTypes ∧ (pCurrent st).type ≠ TokenType.EOF := by
          rcases hm2 with h | h | h <;> rw [h] <;> exact ⟨by decide, by decide⟩
        rcases h1 : unaryF fuel st1 with _ | ⟨er | right, stA⟩
        · rw [h1] at heq
          simp [bindE] at heq
        · rw [h1] at heq
          simp [bindE] at heq
        · rw [h1] at heq
          simp only [bindE] at heq
          obtain ⟨hsA, _⟩ := unaryF_pos fuel st1 right stA h1
          obtain ⟨hs2, hdisj⟩ := mulLoopF_pos fuel _ stA e st2 heq
          refine ⟨by rw [hs2, hsA, hst1], Or.inr ?_⟩
          rcases hdisj with rfl | hbin
          · refine ⟨some acc, opTok.lexeme, some right, opTok.line, opTok.column, rfl,
              opTok, ?_, ?_, rfl, rfl, rfl⟩
            · rw [← hop]
              exact pCurrent_mem_of_ne_eof st hb2.2
            · rw [← hop]
              exact hb2.1
          · rw [hsA, hst1] at hbin
            exact hbin
      · rw [if_neg hm] at heq
        simp only [retE, Option.some.injEq, Prod.mk.injEq, Except.ok.injEq] at heq
        obtain ⟨he, hst⟩ := heq
        subst he
        subst hst
        exact ⟨rfl, Or.inl rfl⟩

theorem unaryF_pos : ∀ (fuel : Nat) (st : PState) (e : Expr) (st2 : PState),
    unaryF fuel st = some (.ok e, st2) → st2.tokens = st.tokens ∧ ExprPosOk st e
  | 0, _, _, _, heq => by simp [unaryF] at heq
  | fuel + 1, st, e, st2, heq => by
      simp only [unaryF] at heq
      by_cases hm : pMatch st [TokenType.NOT, TokenType.MINUS]
      · rw [if_pos hm] at heq
        rcases hadv : pAdvance st with ⟨opTok, st1⟩
        simp only [hadv] at heq
        have hop : pCurrent st = opTok := congrArg Prod.fst hadv
        have hst1 : st1.tokens = st.tokens := by
          have h2 := pAdvance_tokens st
          rw [hadv] at h2
          exact h2
        rcases h1 : unaryF fuel st1 with _ | ⟨er | a, stA⟩
        · rw [h1] at heq
          simp [bindE] at heq
        · rw [h1] at heq
          simp [bindE] at heq
        · rw [h1] at heq
          simp only [bindE, retE, Option.some.injEq, Prod.mk.injEq,
            Except.ok.injEq] at heq
          obtain ⟨he, hst⟩ := heq
          subst he
          subst hst
          obtain ⟨hsA, _⟩ := unaryF_pos fuel st1 a stA h1
          exact ⟨by rw [hsA, hst1], Or.inl ⟨by rw [hop]; rfl, by rw [hop]; rfl⟩⟩
      · rw [if_neg hm] at heq
        exact callF_pos fuel st e st2 heq

theorem callF_pos : ∀ (fuel : Nat) (st : PState) (e : Expr) (st2 : PState),
    callF fuel st = some (.ok e, st2) → st2.tokens = st.tokens ∧ ExprPosOk st e
  | 0, _, _, _, heq => by simp [callF] at heq
  | fuel + 1, st, e, st2, heq => by
      simp only [callF] at heq
      rcases h1 : primaryF fuel st with _ | ⟨er | a, st1⟩
      · rw [h1] at heq
        simp [bindE] at heq
      · rw [h1] at heq
        simp [bindE] at heq
      · rw [h1] at heq
        simp only [bindE] at heq
        obtain ⟨hsP, hposP⟩ := primaryF_pos fuel st a st1 h1
        obtain ⟨hsL, hdisj⟩ := callLoopF_pos fuel a st1 e st2 heq
        refine ⟨by rw [hsL, hsP], ?_⟩
        rcases hdisj with rfl | ⟨name, args, ln, col, hacc, hres⟩
        · exact hposP
        · subst hacc
          subst hres
          rcases hposP with ⟨h1p, h2p⟩ | hlp | ⟨l, op, r, ln2, col2, habs, _⟩
          · exact Or.inl ⟨by simpa [exprLine] using h1p, by simpa [exprCol] using h2p⟩
          · exact Or.inr (Or.inl hlp)
          · simp at habs

theorem callLoopF_pos : ∀ (fuel : Nat) (acc : Expr) (st : PState) (e : Expr) (st2 : PState),
    callLoopF fuel acc st = some (.ok e, st2) →
    st2.tokens = st.tokens ∧ (e = acc ∨ ∃ name args ln col,
      acc = .identifier name ln col ∧ e = .functionCall name args ln col)
  | 0, _, _, _, _, heq => by simp [callLoopF] at heq
  | fuel + 1, acc, st, e, st2, heq => by
      simp only [callLoopF] at heq
      by_cases hl : (pCurrent st).type = TokenType.LPAREN
      · rw [if_pos hl] at heq
        by_cases hrp : (pCurrent (pAdvance st).2).type = TokenType.RPAREN
        · rw [if_neg (not_not_intro hrp)] at heq
          simp only [retE, bindE] at heq
          have HST3 : ((pAdvance st).2).tokens = st.tokens := pAdvance_tokens st
          generalize hgen : (pAdvance st).2 = st3 at heq HST3
          generalize hargs : ([] : List Expr) = args at heq
          rcases hc : pConsume TokenType.RPAREN st3 with ⟨er | tk, st4⟩
          · rw [hc] at heq
            simp [bindC] at heq
          · rw [hc] at heq
            simp only [bindC] at heq
            have hst4 : st4.tokens = st3.tokens := by
              have h2t := pConsume_tokens TokenType.RPAREN st3
              rw [hc] at h2t
              exact h2t
            cases acc with
            | identifier name ln col =>
                obtain ⟨hs2, hdisj⟩ :=
                  callLoopF_pos fuel (.functionCall name args ln col) st4 e st2 heq
                refine ⟨by rw [hs2, hst4, HST3], ?_⟩
                rcases hdisj with rfl | ⟨n2, a2, l2, c2, habs, _⟩
                · exact Or.inr ⟨name, args, ln, col, rfl, rfl⟩
                · simp at habs
            | binaryOp l op r ln col => simp at heq
            | unaryOp op a ln col => simp at heq
            | intLit v ln col => simp at heq
            | floatLit v ln col => simp at heq
            | stringLit v ln col => simp at heq
            | boolLit b ln col => simp at heq
            | functionCall n args2 ln col => simp at heq
            | arrayAccess a i ln col => simp at heq
        · rw [if_pos hrp] at heq
          rcases h1 : expressionF fuel (pAdvance st).2 with _ | ⟨er | a0, stE⟩
          · rw [h1] at heq
            simp [bindE] at heq
          · rw [h1] at heq
            simp [bindE] at heq
          · rw [h1] at heq
            simp only [bindE] at heq
            rcases h2 : argsLoopF fuel [a0] stE with _ | ⟨er | args0, st3⟩
            · rw [h2] at heq
              simp [bindE] at heq
            · rw [h2] at heq
              simp [bindE] at heq
            · rw [h2] at heq
              simp only [bindE] at heq
              have HST3 : st3.tokens = st.tokens := by
                rw [argsLoopF_pos fuel [a0] stE args0 st3 h2,
                  (expressionF_pos fuel (pAdvance st).2 a0 stE h1).1, pAdvance_tokens]
              generalize hargs : args0 = args at heq
              rcases hc : pConsume TokenType.RPAREN st3 with ⟨er | tk, st4⟩
              · rw [hc] at heq
                simp [bindC] at heq
              · rw [hc] at heq
                simp only [bindC] at heq
                have hst4 : st4.tokens = st3.tokens := by
                  have h2t := pConsume_tokens TokenType.RPAREN st3
                  rw [hc] at h2t
                  exact h2t
                cases acc with
                | identifier name ln col =>
                    obtain ⟨hs2, hdisj⟩ :=
                      callLoopF_pos fuel (.functionCall name args ln col) st4 e st2 heq
                    refine ⟨by rw [hs2, hst4, HST3], ?_⟩
                    rcases hdisj with rfl | ⟨n2, a2, l2, c2, habs, _⟩
                    · exact Or.inr ⟨name, args, ln, col, rfl, rfl⟩
                    · simp at habs
                | binaryOp l op r ln col => simp at heq
                | unaryOp op a ln col => simp at heq
                | intLit v ln col => simp at heq
                | floatLit v ln col => simp at heq
                | stringLit v ln col => simp at heq
                | boolLit b ln col => simp at heq
                | functionCall n args2 ln col => simp at heq
                | arrayAccess a i ln col => simp at heq
      · rw [if_neg hl] at heq
        simp only [retE, Option.some.injEq, Prod.mk.injEq, Except.ok.injEq] at heq
        obtain ⟨he, hst⟩ := heq
        subst he
        subst hst
        exact ⟨rfl, Or.inl rfl⟩

theorem argsLoopF_pos : ∀ (fuel : Nat) (acc : List Expr) (st : PState) (r : List Expr)
    (st2 : PState), argsLoopF fuel acc st = some (.ok r, st2) → st2.tokens = st.tokens
  | 0, _, _, _, _, heq => by simp [argsLoopF] at heq
  | fuel + 1, acc, st, r, st2, heq => by
      simp only [argsLoopF] at heq
      by_cases hc : (pCurrent st).type = TokenType.COMMA
      · rw [if_pos hc] at heq
        rcases h1 : expressionF fuel (pAdvance st).2 with _ | ⟨er | a, st1⟩
        · rw [h1] at heq
          simp [bindE] at heq
        · rw [h1] at heq
          simp [bindE] at heq
        · rw [h1] at heq
          simp only [bindE] at heq
          rw [argsLoopF_pos fuel (acc ++ [a]) st1 r st2 heq,
            (expressionF_pos fuel (pAdvance st).2 a st1 h1).1, pAdvance_tokens]
      · rw [if_neg hc] at heq
        simp only [retE, Option.some.injEq, Prod.mk.injEq, Except.ok.injEq] at heq
        obtain ⟨_, hst⟩ := heq
        subst hst
        rfl

theorem primaryF_pos : ∀ (fuel : Nat) (st : PState) (e : Expr) (st2 : PState),
    primaryF fuel st = some (.ok e, st2) → st2.tokens = st.tokens ∧ ExprPosOk st e
  | 0, _, _, _, heq => by simp [primaryF] at heq
  | fuel + 1, st, e, st2, heq => by
      simp only [primaryF] at heq
      split at heq
      · rcases hadv : pAdvance st with ⟨t, st1⟩
        simp only [hadv, retE, Option.some.injEq, Prod.mk.injEq, Except.ok.injEq] at heq
        obtain ⟨he, hst⟩ := heq
        subst he
        subst hst
        have hop : pCurrent st = t := congrArg Prod.fst hadv
        have hst1 : st1.tokens = st.tokens := by
          have h2 := pAdvance_tokens st
          rw [hadv] at h2
          exact h2
        exact ⟨hst1, Or.inl ⟨by rw [hop]; rfl, by rw [hop]; rfl⟩⟩
      · rcases hadv : pAdvance st with ⟨t, st1⟩
        simp only [hadv, retE, Option.some.injEq, Prod.mk.injEq, Except.ok.injEq] at heq
        obtain ⟨he, hst⟩ := heq
        subst he
        subst hst
        have hop : pCurrent st = t := congrArg Prod.fst hadv
        have hst1 : st1.tokens = st.tokens := by
          have h2 := pAdvance_tokens st
          rw [hadv] at h2
          exact h2
        exact ⟨hst1, Or.inl ⟨by rw [hop]; rfl, by rw [hop]; rfl⟩⟩
      · rcases hadv : pAdvance st with ⟨t, st1⟩
        simp only [hadv, retE, Option.some.injEq, Prod.mk.injEq, Except.ok.injEq] at heq
        obtain ⟨he, hst⟩ := heq
        subst he
        subst hst
        have hop : pCurrent st = t := congrArg Prod.fst hadv
        have hst1 : st1.tokens = st.tokens := by
          have h2 := pAdvance_tokens st
          rw [hadv] at h2
          exact h2
        exact ⟨hst1, Or.inl ⟨by rw [hop]; rfl, by rw [hop]; rfl⟩⟩
      · rcases hadv : pAdvance st with ⟨t, st1⟩
        simp only [hadv, retE, Option.some.injEq, Prod.mk.injEq, Except.ok.injEq] at heq
        obtain ⟨he, hst⟩ := heq
        subst he
        subst hst
        have hop : pCurrent st = t := congrArg Prod.fst hadv
        have hst1 : st1.tokens = st.tokens := by
          have h2 := pAdvance_tokens st
          rw [hadv] at h2
          exact h2
        exact ⟨hst1, Or.inl ⟨by rw [hop]; rfl, by rw [hop]; rfl⟩⟩
      · rcases hadv : pAdvance st with ⟨t, st1⟩
        simp only [hadv, retE, Option.some.injEq, Prod.mk.injEq, Except.ok.injEq] at heq
        obtain ⟨he, hst⟩ := heq
        subst he
        subst hst
        have hop : pCurrent st = t := congrArg Prod.fst hadv
        have hst1 : st1.tokens = st.tokens := by
          have h2 := pAdvance_tokens st
          rw [hadv] at h2
          exact h2
        exact ⟨hst1, Or.inl ⟨by rw [hop]; rfl, by rw [hop]; rfl⟩⟩
      · rcases hadv : pAdvance st with ⟨t, st1⟩
        simp only [hadv, retE, Option.some.injEq, Prod.mk.injEq, Except.ok.injEq] at heq
        obtain ⟨he, hst⟩ := heq
        subst he
        subst hst
        have hop : pCurrent st = t := congrArg Prod.fst hadv
        have hst1 : st1.tokens = st.tokens := by
          have h2 := pAdvance_tokens st
          rw [hadv] at h2
          exact h2
        exact ⟨hst1, Or.inl ⟨by rw [hop]; rfl, by rw [hop]; rfl⟩⟩
      · rename_i hlp
        rcases h1 : expressionF fuel (pAdvance st).2 with _ | ⟨er | a, st1⟩
        · rw [h1] at heq
          simp [bindE] at heq
        · rw [h1] at heq
          simp [bindE] at heq
        · rw [h1] at heq
          simp only [bindE] at heq
          rcases hc : pConsume TokenType.RPAREN st1 with ⟨er | tk, st3⟩
          · rw [hc] at heq
            simp [bindC] at heq
          · rw [hc] at heq
            simp only [bindC, retE, Option.some.injEq, Prod.mk.injEq,
              Except.ok.injEq] at heq
            obtain ⟨he, hst⟩ := heq
            subst he
            subst hst
            have hsE := (expressionF_pos fuel (pAdvance st).2 a st1 h1).1
            have hsC : st3.tokens = st1.tokens := by
              have h2 := pConsume_tokens TokenType.RPAREN st1
              rw [hc] at h2
              exact h2
            exact ⟨by rw [hsC, hsE, pAdvance_tokens], Or.inr (Or.inl hlp)⟩
      · simp at heq


end


/-- Any routine of the shape `consume first-token, then build a node at
that token's position` satisfies the first-token discipline. -/
theorem stmtPos_of_bindC {tt : TokenType} {st : PState}
    {f : Token → PState → Option (Except String Stmt × PState)} {s : Stmt} {st2 : PState}
    (heq : bindC (pConsume tt st) f = some (.ok s, st2))
    (hf : ∀ t st1 s2 stB, f t st1 = some (.ok s2, stB) →
      stmtLine s2 = t.line ∧ stmtCol s2 = t.column) :
    stmtLine s = (pCurrent st).line ∧ stmtCol s = (pCurrent st).column := by
  rcases hc : pConsume tt st with ⟨er | tok, st1⟩
  · rw [hc] at heq
    simp [bindC] at heq
  · rw [hc] at heq
    simp only [bindC] at heq
    obtain ⟨ht, _⟩ := pConsume_ok hc
    rw [← ht]
    exact hf tok st1 s st2 heq

/-- `exprStmtReject` (consume the semicolon, then raise) never
produces an `ok` result. -/
theorem exprStmtReject_not_ok (st1 : PState) (s : Stmt) (st2 : PState) :
    exprStmtReject st1 ≠ some (.ok s, st2) := by
  intro h
  simp only [exprStmtReject] at h
  rcases hcs : pConsume TokenType.SEMICOLON st1 with ⟨er | tk, stD⟩
  · rw [hcs] at h
    simp [bindC] at h
  · rw [hcs] at h
    simp [bindC] at h

theorem varDeclarationF_pos : ∀ (fuel : Nat) (st : PState) (s : Stmt) (st2 : PState),
    varDeclarationF fuel st = some (.ok s, st2) →
    stmtLine s = (pCurrent st).line ∧ stmtCol s = (pCurrent st).column
  | 0, _, _, _, heq => by simp [varDeclarationF] at heq
  | fuel + 1, st, s, st2, heq => by
      simp only [varDeclarationF] at heq
      refine stmtPos_of_bindC heq ?_
      intro t stA s2 stB h
      repeat' first
        | split at h
        | simp only [bindC, bindE, retE] at h
      all_goals first
        | (simp only [Option.some.injEq, Prod.mk.injEq, Except.ok.injEq] at h
           obtain ⟨he, h2⟩ := h
           subst he
           exact ⟨rfl, rfl⟩)
        | simp at h

theorem ifStatementF_pos : ∀ (fuel : Nat) (st : PState) (s : Stmt) (st2 : PState),
    ifStatementF fuel st = some (.ok s, st2) →
    stmtLine s = (pCurrent st).line ∧ stmtCol s = (pCurrent st).column
  | 0, _, _, _, heq => by simp [ifStatementF] at heq
  | fuel + 1, st, s, st2, heq => by
      simp only [ifStatementF] at heq
      refine stmtPos_of_bindC heq ?_
      intro t stA s2 stB h
      repeat' first
        | split at h
        | simp only [bindC, bindE, retE] at h
      all_goals first
        | (simp only [Option.some.injEq, Prod.mk.injEq, Except.ok.injEq] at h
           obtain ⟨he, h2⟩ := h
           subst he
           exact ⟨rfl, rfl⟩)
        | simp at h

theorem whileStatementF_pos : ∀ (fuel : Nat) (st : PState) (s : Stmt) (st2 : PState),
    whileStatementF fuel st = some (.ok s, st2) →
    stmtLine s = (pCurrent st).line ∧ stmtCol s = (pCurrent st).column
  | 0, _, _, _, heq => by simp [whileStatementF] at heq
  | fuel + 1, st, s, st2, heq => by
      simp only [whileStatementF] at heq
      refine stmtPos_of_bindC heq ?_
      intro t stA s2 stB h
      repeat' first
        | split at h
        | simp only [bindC, bindE, retE] at h
      all_goals first
        | (simp only [Option.some.injEq, Prod.mk.injEq, Except.ok.injEq] at h
           obtain ⟨he, h2⟩ := h
           subst he
           exact ⟨rfl, rfl⟩)
        | simp at h

theorem forStatementF_pos : ∀ (fuel : Nat) (st : PState) (s : Stmt) (st2 : PState),
    forStatementF fuel st = some (.ok s, st2) →
    stmtLine s = (pCurrent st).line ∧ stmtCol s = (pCurrent st).column
  | 0, _, _, _, heq => by simp [forStatementF] at heq
  | fuel + 1, st, s, st2, heq => by
      simp only [forStatementF] at heq
      refine stmtPos_of_bindC heq ?_
      intro t stA s2 stB h
      repeat' first
        | split at h
        | simp only [bindC, bindE, retE] at h
      all_goals first
        | (simp only [Option.some.injEq, Prod.mk.injEq, Except.ok.injEq] at h
           obtain ⟨he, h2⟩ := h
           subst he
           exact ⟨rfl, rfl⟩)
        | simp at h

theorem functionDeclarationF_pos : ∀ (fuel : Nat) (st : PState) (s : Stmt) (st2 : PState),
    functionDeclarationF fuel st = some (.ok s, st2) →
    stmtLine s = (pCurrent st).line ∧ stmtCol s = (pCurrent st).column
  | 0, _, _, _, heq => by simp [functionDeclarationF] at heq
  | fuel + 1, st, s, st2, heq => by
      simp only [functionDeclarationF] at heq
      refine stmtPos_of_bindC heq ?_
      intro t stA s2 stB h
      repeat' first
        | split at h
        | simp only [bindC, bindE, retE] at h
      all_goals first
        | (simp only [Option.some.injEq, Prod.mk.injEq, Except.ok.injEq] at h
           obtain ⟨he, h2⟩ := h
           subst he
           exact ⟨rfl, rfl⟩)
        | simp at h

theorem returnStatementF_pos : ∀ (fuel : Nat) (st : PState) (s : Stmt) (st2 : PState),
    returnStatementF fuel st = some (.ok s, st2) →
    stmtLine s = (pCurrent st).line ∧ stmtCol s = (pCurrent st).column
  | 0, _, _, _, heq => by simp [returnStatementF] at heq
  | fuel + 1, st, s, st2, heq => by
      simp only [returnStatementF] at heq
      refine stmtPos_of_bindC heq ?_
      intro t stA s2 stB h
      repeat' first
        | split at h
        | simp only [bindC, bindE, retE] at h
      all_goals first
        | (simp only [Option.some.injEq, Prod.mk.injEq, Except.ok.injEq] at h
           obtain ⟨he, h2⟩ := h
           subst he
           exact ⟨rfl, rfl⟩)
        | simp at h

theorem printStatementF_pos : ∀ (fuel : Nat) (st : PState) (s : Stmt) (st2 : PState),
    printStatementF fuel st = some (.ok s, st2) →
    stmtLine s = (pCurrent st).line ∧ stmtCol s = (pCurrent st).column
  | 0, _, _, _, heq => by simp [printStatementF] at heq
  | fuel + 1, st, s, st2, heq => by
      simp only [printStatementF] at heq
      refine stmtPos_of_bindC heq ?_
      intro t stA s2 stB h
      repeat' first
        | split at h
        | simp only [bindC, bindE, retE] at h
      all_goals first
        | (simp only [Option.some.injEq, Prod.mk.injEq, Except.ok.injEq] at h
           obtain ⟨he, h2⟩ := h
           subst he
           exact ⟨rfl, rfl⟩)
        | simp at h

theorem expressionStatementF_pos : ∀ (fuel : Nat) (st : PState) (s : Stmt) (st2 : PState),
    expressionStatementF fuel st = some (.ok s, st2) → StmtPosOk st s
  | 0, _, _, _, heq => by simp [expressionStatementF] at heq
  | fuel + 1, st, s, st2, heq => by
      simp only [expressionStatementF] at heq
      rcases h1 : expressionF fuel st with _ | ⟨er | e0, st1⟩
      · rw [h1] at heq
        simp [bindE] at heq
      · rw [h1] at heq
        simp [bindE] at heq
      · rw [h1] at heq
        simp only [bindE] at heq
        obtain ⟨_, hpos⟩ := expressionF_pos fuel st e0 st1 h1
        cases e0 with
        | identifier name ln col =>
            have heq2 : (if (pCurrent st1).type = TokenType.ASSIGN then
                bindE (expressionF fuel (pAdvance st1).2) fun v st3 =>
                bindC (pConsume TokenType.SEMICOLON st3) fun x st4 =>
                retE (Stmt.assignment name (some v) ln col) st4
              else exprStmtReject st1) = some (Except.ok s, st2) := heq
            by_cases ha : (pCurrent st1).type = TokenType.ASSIGN
            · rw [if_pos ha] at heq2
              rcases h2 : expressionF fuel (pAdvance st1).2 with _ | ⟨er | v, stV⟩
              · rw [h2] at heq2
                simp [bindE] at heq2
              · rw [h2] at heq2
                simp [bindE] at heq2
              · rw [h2] at heq2
                simp only [bindE] at heq2
                rcases hcs : pConsume TokenType.SEMICOLON stV with ⟨er | tk, stD⟩
                · rw [hcs] at heq2
                  simp [bindC] at heq2
                · rw [hcs] at heq2
                  simp only [bindC, retE, Option.some.injEq, Prod.mk.injEq,
                    Except.ok.injEq] at heq2
                  obtain ⟨he, _⟩ := heq2
                  subst he
                  rcases hpos with ⟨hl2, hc2⟩ | hlp | ⟨l, op, r, l2, c2, habs, _⟩
                  · exact Or.inl ⟨by simpa [exprLine, stmtLine] using hl2,
                      by simpa [exprCol, stmtCol] using hc2⟩
                  · exact Or.inr hlp
                  · simp at habs
            · rw [if_neg ha] at heq2
              exact absurd heq2 (exprStmtReject_not_ok st1 s st2)
        | binaryOp l op r l2 c2 => exact absurd heq (exprStmtReject_not_ok st1 s st2)
        | unaryOp op a l2 c2 => exact absurd heq (exprStmtReject_not_ok st1 s st2)
        | intLit v l2 c2 => exact absurd heq (exprStmtReject_not_ok st1 s st2)
        | floatLit v l2 c2 => exact absurd heq (exprStmtReject_not_ok st1 s st2)
        | stringLit v l2 c2 => exact absurd heq (exprStmtReject_not_ok st1 s st2)
        | boolLit b l2 c2 => exact absurd heq (exprStmtReject_not_ok st1 s st2)
        | functionCall n args l2 c2 => exact absurd heq (exprStmtReject_not_ok st1 s st2)
        | arrayAccess a i l2 c2 => exact absurd heq (exprStmtReject_not_ok st1 s st2)

theorem statementF_pos : ∀ (fuel : Nat) (st : PState) (s : Stmt) (st1 : PState),
    statementF fuel st = some (some s, st1) → StmtPosOk st s
  | 0, _, _, _, heq => by simp [statementF] at heq
  | fuel + 1, st, s, st1, heq => by
      simp only [statementF] at heq
      split at heq
      · rcases hv : varDeclarationF fuel st with _ | ⟨er | s0, stX⟩
        · rw [hv] at heq
          simp at heq
        · rw [hv] at heq
          simp at heq
        · rw [hv] at heq
          simp only [Option.some.injEq, Prod.mk.injEq, Option.some.injEq] at heq
          obtain ⟨he, _⟩ := heq
          subst he
          exact Or.inl (varDeclarationF_pos fuel st s0 stX hv)
      · rcases hv : ifStatementF fuel st with _ | ⟨er | s0, stX⟩
        · rw [hv] at heq
          simp at heq
        · rw [hv] at heq
          simp at heq
        · rw [hv] at heq
          simp only [Option.some.injEq, Prod.mk.injEq, Option.some.injEq] at heq
          obtain ⟨he, _⟩ := heq
          subst he
          exact Or.inl (ifStatementF_pos fuel st s0 stX hv)
      · rcases hv : whileStatementF fuel st with _ | ⟨er | s0, stX⟩
        · rw [hv] at heq
          simp at heq
        · rw [hv] at heq
          simp at heq
        · rw [hv] at heq
          simp only [Option.some.injEq, Prod.mk.injEq, Option.some.injEq] at heq
          obtain ⟨he, _⟩ := heq
          subst he
          exact Or.inl (whileStatementF_pos fuel st s0 stX hv)
      · rcases hv : forStatementF fuel st with _ | ⟨er | s0, stX⟩
        · rw [hv] at heq
          simp at heq
        · rw [hv] at heq
          simp at heq
        · rw [hv] at heq
          simp only [Option.some.injEq, Prod.mk.injEq, Option.some.injEq] at heq
          obtain ⟨he, _⟩ := heq
          subst he
          exact Or.inl (forStatementF_pos fuel st s0 stX hv)
      · rcases hv : functionDeclarationF fuel st with _ | ⟨er | s0, stX⟩
        · rw [hv] at heq
          simp at heq
        · rw [hv] at heq
          simp at heq
        · rw [hv] at heq
          simp only [Option.some.injEq, Prod.mk.injEq, Option.some.injEq] at heq
          obtain ⟨he, _⟩ := heq
          subst he
          exact Or.inl (functionDeclarationF_pos fuel st s0 stX hv)
      · rcases hv : returnStatementF fuel st with _ | ⟨er | s0, stX⟩
        · rw [hv] at heq
          simp at heq
        · rw [hv] at heq
          simp at heq
        · rw [hv] at heq
          simp only [Option.some.injEq, Prod.mk.injEq, Option.some.injEq] at heq
          obtain ⟨he, _⟩ := heq
          subst he
          exact Or.inl (returnStatementF_pos fuel st s0 stX hv)
      · rcases hv : printStatementF fuel st with _ | ⟨er | s0, stX⟩
        · rw [hv] at heq
          simp at heq
        · rw [hv] at heq
          simp at heq
        · rw [hv] at heq
          simp only [Option.some.injEq, Prod.mk.injEq, Option.some.injEq] at heq
          obtain ⟨he, _⟩ := heq
          subst he
          exact Or.inl (printStatementF_pos fuel st s0 stX hv)
      · rcases hb : stmtSeqF fuel (pAdvance st).2 with _ | ⟨sts, stY⟩
        · rw [hb] at heq
          simp at heq
        · simp only [hb] at heq
          rcases hrb : pConsume TokenType.RBRACE stY with ⟨er | tk, stZ⟩
          · rw [hrb] at heq
            simp at heq
          · rw [hrb] at heq
            simp at heq
      · rcases hv : expressionStatementF fuel st with _ | ⟨er | s0, stX⟩
        · rw [hv] at heq
          simp at heq
        · rw [hv] at heq
          simp at heq
        · rw [hv] at heq
          simp only [Option.some.injEq, Prod.mk.injEq, Option.some.injEq] at heq
          obtain ⟨he, _⟩ := heq
          subst he
          exact expressionStatementF_pos fuel st s0 stX hv

/-- Token list of the expression source `a + b`. -/
def c6ExprToks : List Token :=
  [⟨.ID, "a", none, 1, 1⟩, ⟨.PLUS, "+", none, 1, 3⟩, ⟨.ID, "b", none, 1, 5⟩,
   ⟨.EOF, "", none, 1, 6⟩]

/-- C6 (amended): position discipline of the parser, universally over
all token streams, fuels and parser states.  Every statement routine
returns a node carrying the line/column of the token at which it was
entered, and every expression routine likewise — except that a
`BinaryOp` node carries the line/column (and lexeme) of its operator
token, one of the stream's binary-operator tokens, rather than of its
first token, and a routine entered at `(` returns the inner
expression's node unchanged, positioned inside the parentheses.  Every
node of a parsed AST is the value returned by the invocation of the
routine for its construct, so this is the per-node discipline at the
granularity the parser assigns positions. -/
theorem c6_positions_per_routine :
    (∀ fuel st s st2, statementF fuel st = some (some s, st2) → StmtPosOk st s) ∧
    (∀ fuel st e st2, expressionF fuel st = some (Except.ok e, st2) → ExprPosOk st e) :=
  ⟨fun fuel st s st2 h => statementF_pos fuel st s st2 h,
   fun fuel st e st2 h => (expressionF_pos fuel st e st2 h).2⟩

/-- Witness for C6: the statement routine on `var x = a + b; ...` and
the expression routine on `a + b`. -/
theorem c6_positions_per_routine_witness :
    StmtPosOk { tokens := c6AmTokens }
      (.varDeclaration "x" none
        (some (.binaryOp (some (.identifier "a" 1 9)) "+"
          (some (.identifier "b" 1 13)) 1 11)) 1 1) ∧
    ExprPosOk { tokens := c6ExprToks }
      (.binaryOp (some (.identifier "a" 1 1)) "+" (some (.identifier "b" 1 5)) 1 3) :=
  ⟨c6_positions_per_routine.1 20 { tokens := c6AmTokens } _
     { tokens := c6AmTokens, pos := 7, errors := [] } rfl,
   c6_positions_per_routine.2 20 { tokens := c6ExprToks } _
     { tokens := c6ExprToks, pos := 3, errors := [] } rfl⟩

end MiniScript
